import Mathlib

/-!
# Intel FPGA Management Engine driver: open/close bookkeeping, error registers, counters

A shallow embedding of the parts of `feature-dev.h`, `fme-main.c`, `fme-error.c`,
`fme-perf.c` and `backport.c` that decide the properties proved below.

* C `int` fields (`excl_open`, `open_count`, `perf_object.id`) are `Int`; the
  result of `open_count++` and `open_count--` is reduced to the range of `int`
  by `wrap_int`.
* A 64-bit register value is a `Nat` below `2 ^ 64`; `readq` reduces the
  hardware's answer modulo `2 ^ 64`.
* The hardware is an arbitrary function of the access history: what a load of
  a register returns may depend on every earlier lock, load, store and delay.
* Every operation threads the access history (`Trace`), oldest event first.
-/

namespace Fme

/-! ## errno values (kernel `errno-base.h` / `errno.h`) -/

def EBUSY : Int := 16
def ENODEV : Int := 19
def EINVAL : Int := 22
def ETIMEDOUT : Int := 110

/-! ## Registers, events, hardware -/

/-- Registers of the FME feature blocks that the driver code below touches
(members of `feature_fme_header`, `feature_fme_thermal`, `feature_fme_power`,
`feature_fme_gperf` and `feature_fme_err`). -/
inductive Reg
  | capability
  | tmp_threshold
  | pm_ap_threshold
  | ch_ctl
  | ch_ctr0
  | ch_ctr1
  | fab_ctl
  | fab_ctr
  | clk
  | vtd_ctl
  | vtd_ctr
  | fme_err_mask
  | fme_err
  | pcie0_err_mask
  | pcie0_err
  | pcie1_err_mask
  | pcie1_err
  | fme_first_err
  | fme_next_err
  | ras_gerr_mask
  | ras_gerr
  | ras_berr_mask
  | ras_berr
  | ras_werr_mask
  | ras_werr
  | ras_error_inj
  deriving DecidableEq, Repr

/-- Index of the global-error feature in the FME feature table
(`enum fme_feature_id`). -/
def FME_FEATURE_ID_GLOBAL_ERR : Nat := 4

/-- Observable events of one device, in program order. `fpga_msix_set_block`
stands for the call `fpga_msix_set_block(&features[feature], 0, ctx_num, NULL)`. -/
inductive Event
  | mutex_lock
  | mutex_unlock
  | readq (r : Reg) (v : Nat)
  | writeq (v : Nat) (r : Reg)
  | udelay (usecs : Nat)
  | fpga_msix_set_block (feature : Nat)
  deriving DecidableEq, Repr

abbrev Trace := List Event

/-- The hardware: the answer to a 64-bit load of `r` after history `t`. -/
abbrev Hardware := Trace → Reg → Nat

def U64_MOD : Nat := 2 ^ 64

/-- `readq(&reg)`: one 64-bit load, recorded in the history. -/
def readq (hw : Hardware) (r : Reg) (t : Trace) : Nat × Trace :=
  let v := hw t r % U64_MOD
  (v, t ++ [Event.readq r v])

/-- `writeq(v, &reg)`: one 64-bit store, recorded in the history. -/
def writeq (v : Nat) (r : Reg) (t : Trace) : Trace :=
  t ++ [Event.writeq (v % U64_MOD) r]

def mutex_lock (t : Trace) : Trace := t ++ [Event.mutex_lock]

def mutex_unlock (t : Trace) : Trace := t ++ [Event.mutex_unlock]

def udelay (usecs : Nat) (t : Trace) : Trace := t ++ [Event.udelay usecs]

/-- Conversion `int -> size_t` (as in `count = -EBUSY`). -/
def size_t_of_int (i : Int) : Nat := (i % (2 ^ 64 : Int)).toNat

/-- Conversion `size_t -> ssize_t` (as in `return count` of a store). -/
def ssize_t_of (n : Nat) : Int :=
  if n % 2 ^ 64 < 2 ^ 63 then ((n % 2 ^ 64 : Nat) : Int)
  else ((n % 2 ^ 64 : Nat) : Int) - 2 ^ 64

/-! ## Open / close bookkeeping (`feature-dev.h`, `fme-main.c`) -/

def INT_MIN : Int := -2147483648
def INT_MAX : Int := 2147483647

/-- The value an `int` object holds after the mathematical result `x` has been
stored in it: `x` reduced modulo `2 ^ 32` into `INT_MIN .. INT_MAX`. The kernel
is compiled with `-fno-strict-overflow`, so `++` and `--` on an `int` wrap in
two's complement. -/
def wrap_int (x : Int) : Int := (x + 2147483648) % 4294967296 - 2147483648

/-- The fields of `struct feature_platform_data` that open/close touch. -/
structure feature_platform_data where
  excl_open : Int
  open_count : Int
  deriving DecidableEq, Repr

def feature_dev_use_excl_begin (pdata : feature_platform_data) (t : Trace) :
    Int × feature_platform_data × Trace :=
  let t := mutex_lock t
  if pdata.open_count ≠ 0 then
    let t := mutex_unlock t
    (-EBUSY, pdata, t)
  else
    let pdata := { pdata with excl_open := 1 }
    let pdata := { pdata with open_count := wrap_int (pdata.open_count + 1) }
    let t := mutex_unlock t
    (0, pdata, t)

def feature_dev_use_begin (pdata : feature_platform_data) (t : Trace) :
    Int × feature_platform_data × Trace :=
  let t := mutex_lock t
  if pdata.excl_open ≠ 0 then
    let t := mutex_unlock t
    (-EBUSY, pdata, t)
  else
    let pdata := { pdata with open_count := wrap_int (pdata.open_count + 1) }
    let t := mutex_unlock t
    (0, pdata, t)

def __feature_dev_use_end (pdata : feature_platform_data) : feature_platform_data :=
  let pdata := { pdata with excl_open := 0 }
  { pdata with open_count := wrap_int (pdata.open_count - 1) }

def feature_dev_use_end (pdata : feature_platform_data) (t : Trace) :
    feature_platform_data × Trace :=
  let t := mutex_lock t
  let pdata := __feature_dev_use_end pdata
  let t := mutex_unlock t
  (pdata, t)

/-- `fme_open` on a device whose platform data is present; `o_excl` is
`filp->f_flags & O_EXCL`. -/
def fme_open (o_excl : Bool) (pdata : feature_platform_data) (t : Trace) :
    Int × feature_platform_data × Trace :=
  let r := if o_excl then feature_dev_use_excl_begin pdata t
           else feature_dev_use_begin pdata t
  if r.1 ≠ 0 then r else (0, r.2.1, r.2.2)

def fme_release (pdata : feature_platform_data) (t : Trace) :
    Int × feature_platform_data × Trace :=
  let t := mutex_lock t
  let pdata := __feature_dev_use_end pdata
  let t :=
    if pdata.open_count = 0 then
      t ++ [Event.fpga_msix_set_block FME_FEATURE_ID_GLOBAL_ERR]
    else t
  let t := mutex_unlock t
  (0, pdata, t)

/-- A sequence of open attempts, each `fme_open` with the given `O_EXCL`
flag, run one after the other; returns the results in order. -/
def open_attempts : List Bool → feature_platform_data → Trace →
    List Int × feature_platform_data × Trace
  | [], pdata, t => ([], pdata, t)
  | k :: ks, pdata, t =>
    let r := fme_open k pdata t
    let rest := open_attempts ks r.2.1 r.2.2
    (r.1 :: rest.1, rest.2.1, rest.2.2)

/-! ## Error registers: compare-and-clear (`fme-error.c`) -/

def FME_ERROR0_MASK : Nat := 0xFF
def FME_ERROR0_MASK_DEFAULT : Nat := 0x40
def FME_PCIE0_ERROR_MASK : Nat := 0xFF
def FME_PCIE1_ERROR_MASK : Nat := 0xFF
def FME_FIRST_ERROR_MASK : Nat := (1 <<< 60) - 1
def FME_NEXT_ERROR_MASK : Nat := (1 <<< 60) - 1
def FME_RAS_WERROR_MASK : Nat := 0x1

/-- `clear_store`. `kstrtou64` is the kernel's text-to-u64 parser (`none`: the
parse failed, i.e. a non-zero return); `count` is the byte count of the write. -/
def clear_store (hw : Hardware) (kstrtou64 : String → Option Nat) (buf : String)
    (count : Nat) (t : Trace) : Int × Trace :=
  match kstrtou64 buf with
  | none => (-EINVAL, t)
  | some val =>
    let t := mutex_lock t
    let t := writeq FME_ERROR0_MASK Reg.fme_err_mask t
    let fme_error0 := readq hw Reg.fme_err t
    let t := fme_error0.2
    if val ≠ fme_error0.1 then
      let count := size_t_of_int (-EBUSY)
      -- exit:
      let t := writeq FME_ERROR0_MASK_DEFAULT Reg.fme_err_mask t
      let t := mutex_unlock t
      (ssize_t_of count, t)
    else
      let fme_first_err := readq hw Reg.fme_first_err t
      let t := fme_first_err.2
      let fme_next_err := readq hw Reg.fme_next_err t
      let t := fme_next_err.2
      let t := writeq (fme_error0.1 &&& FME_ERROR0_MASK) Reg.fme_err t
      let t := writeq (fme_first_err.1 &&& FME_FIRST_ERROR_MASK) Reg.fme_first_err t
      let t := writeq (fme_next_err.1 &&& FME_NEXT_ERROR_MASK) Reg.fme_next_err t
      -- exit:
      let t := writeq FME_ERROR0_MASK_DEFAULT Reg.fme_err_mask t
      let t := mutex_unlock t
      (ssize_t_of count, t)

def pcie0_errors_store (hw : Hardware) (kstrtou64 : String → Option Nat) (buf : String)
    (count : Nat) (t : Trace) : Int × Trace :=
  match kstrtou64 buf with
  | none => (-EINVAL, t)
  | some val =>
    let t := mutex_lock t
    let t := writeq FME_PCIE0_ERROR_MASK Reg.pcie0_err_mask t
    let pcie0_err := readq hw Reg.pcie0_err t
    let t := pcie0_err.2
    let r : Nat × Trace :=
      if val ≠ pcie0_err.1 then (size_t_of_int (-EBUSY), t)
      else (count, writeq (pcie0_err.1 &&& FME_PCIE0_ERROR_MASK) Reg.pcie0_err t)
    let t := writeq 0 Reg.pcie0_err_mask r.2
    let t := mutex_unlock t
    (ssize_t_of r.1, t)

def pcie1_errors_store (hw : Hardware) (kstrtou64 : String → Option Nat) (buf : String)
    (count : Nat) (t : Trace) : Int × Trace :=
  match kstrtou64 buf with
  | none => (-EINVAL, t)
  | some val =>
    let t := mutex_lock t
    let t := writeq FME_PCIE1_ERROR_MASK Reg.pcie1_err_mask t
    let pcie1_err := readq hw Reg.pcie1_err t
    let t := pcie1_err.2
    let r : Nat × Trace :=
      if val ≠ pcie1_err.1 then (size_t_of_int (-EBUSY), t)
      else (count, writeq (pcie1_err.1 &&& FME_PCIE1_ERROR_MASK) Reg.pcie1_err t)
    let t := writeq 0 Reg.pcie1_err_mask r.2
    let t := mutex_unlock t
    (ssize_t_of r.1, t)

def warning_errors_store (hw : Hardware) (kstrtou64 : String → Option Nat) (buf : String)
    (count : Nat) (t : Trace) : Int × Trace :=
  match kstrtou64 buf with
  | none => (-EINVAL, t)
  | some val =>
    let t := mutex_lock t
    let t := writeq FME_RAS_WERROR_MASK Reg.ras_werr_mask t
    let ras_werr := readq hw Reg.ras_werr t
    let t := ras_werr.2
    let r : Nat × Trace :=
      if val ≠ ras_werr.1 then (size_t_of_int (-EBUSY), t)
      else (count, writeq (ras_werr.1 &&& FME_RAS_WERROR_MASK) Reg.ras_werr t)
    let t := writeq 0 Reg.ras_werr_mask r.2
    let t := mutex_unlock t
    (ssize_t_of r.1, t)

/-- The values stored to register `r` in a history, in order. -/
def writes_to (r : Reg) (t : Trace) : List Nat :=
  t.filterMap fun e =>
    match e with
    | Event.writeq v r' => if r' = r then some v else none
    | _ => none

/-- Write-one-to-clear register (the hardware behaviour the error registers are
documented to have): a store of `w` clears the held bits that are set in `w`. -/
def w1c_after (held w : Nat) : Nat := held ^^^ (held &&& w)

/-! ## Performance counters (`fme-perf.c`, register layouts of `feature-dev.h`) -/

/-- A bit-field of a 64-bit register: `width` bits starting at bit `lo`
(bit-fields are allocated from bit 0 upwards in declaration order). -/
structure BitField where
  lo : Nat
  width : Nat
  deriving DecidableEq, Repr

/-- Read of a bit-field: `reg.field`. -/
def BitField.get (f : BitField) (csr : Nat) : Nat := csr / 2 ^ f.lo % 2 ^ f.width

/-- Assignment to a bit-field: `reg.field = v` (the value is truncated to the
width of the field, every other bit of `csr` is kept). -/
def BitField.set (f : BitField) (csr v : Nat) : Nat :=
  csr - f.get csr * 2 ^ f.lo + v % 2 ^ f.width * 2 ^ f.lo

/-! `struct feature_fme_fpmon_ch_ctl` -/
def ch_ctl_reset_counters : BitField := ⟨0, 1⟩
def ch_ctl_freeze : BitField := ⟨8, 1⟩
def ch_ctl_cache_event : BitField := ⟨16, 4⟩
def ch_ctl_cci_chsel : BitField := ⟨20, 1⟩

/-! `struct feature_fme_fpmon_ch_ctr` -/
def ch_ctr_cache_counter : BitField := ⟨0, 48⟩
def ch_ctr_event_code : BitField := ⟨60, 4⟩

/-! `struct feature_fme_fpmon_fab_ctl` -/
def fab_ctl_reset_counters : BitField := ⟨0, 1⟩
def fab_ctl_freeze : BitField := ⟨8, 1⟩
def fab_ctl_fab_evtcode : BitField := ⟨16, 4⟩
def fab_ctl_port_id : BitField := ⟨20, 2⟩
def fab_ctl_port_filter : BitField := ⟨23, 1⟩

/-! `struct feature_fme_fpmon_fab_ctr` -/
def fab_ctr_fab_cnt : BitField := ⟨0, 60⟩
def fab_ctr_event_code : BitField := ⟨60, 4⟩

/-! `struct feature_fme_fpmon_vtd_ctl` -/
def vtd_ctl_reset_counters : BitField := ⟨0, 1⟩
def vtd_ctl_freeze : BitField := ⟨8, 1⟩
def vtd_ctl_vtd_evtcode : BitField := ⟨16, 4⟩

/-! `struct feature_fme_fpmon_vtd_ctr` -/
def vtd_ctr_vtd_counter : BitField := ⟨0, 48⟩
def vtd_ctr_event_code : BitField := ⟨60, 4⟩

def CACHE_CHANNEL_RD : Nat := 0
def CACHE_CHANNEL_WR : Nat := 1

def FAB_DISABLE_FILTER : Nat := 0
def FAB_ENABLE_FILTER : Nat := 1

/-- `PERF_OBJ_ROOT_ID` is `(~0)`, the `int` -1. -/
def PERF_OBJ_ROOT_ID : Int := -1

def GPERF_TIMEOUT : Nat := 30

/-- The loop of `fpga_wait_register_field(_field, _expect, _reg_addr, _timeout,
_invl)`, entered with the current value of `wait`. `fuel` bounds the number of
loop tests; `none` means the fuel ran out before the loop ended. -/
def fpga_wait_register_field_loop (hw : Hardware) (field : BitField) (expect : Nat) (reg : Reg)
    (timeout invl : Nat) : Nat → Nat → Trace → Option (Int × Trace)
  | 0, _, _ => none
  | fuel + 1, wait, t =>
    if wait ≤ timeout then
      let value := readq hw reg t
      if field.get expect = field.get value.1 then
        some (0, value.2)
      else
        fpga_wait_register_field_loop hw field expect reg timeout invl fuel (wait + invl)
          (udelay invl value.2)
    else
      some (-ETIMEDOUT, t)

def fpga_wait_register_field (fuel : Nat) (hw : Hardware) (field : BitField) (expect : Nat)
    (reg : Reg) (timeout invl : Nat) (t : Trace) : Option (Int × Trace) :=
  fpga_wait_register_field_loop hw field expect reg timeout invl fuel 0 t

/-- Text produced by `scnprintf(buf, PAGE_SIZE, "0x%llx\n", v)`. -/
def fmt_0x_llx (v : Nat) : String :=
  "0x" ++ String.mk (Nat.toDigits 16 v) ++ "\n"

/-- Outcome of a `show`-style read: the return value, the text written to the
output buffer (`none`: the buffer was not written) and the access history. -/
structure ShowResult where
  ret : Int
  buf : Option String
  trace : Trace
  deriving DecidableEq, Repr

/-- `scnprintf(buf, PAGE_SIZE, "0x%llx\n", counter)` as the final statement of
a read. -/
def show_0x_llx (counter : Nat) (t : Trace) : ShowResult :=
  { ret := ((fmt_0x_llx counter).length : Int), buf := some (fmt_0x_llx counter), trace := t }

/-- `read_cache_counter(pobj, buf, channel, event)`. The local `ctr0` is
uninitialised apart from its `event_code` field, the only field compared. The
operands of `ctr0.cache_counter + ctr1.cache_counter` are bit-fields declared
`u64 cache_counter:48`; the compiler the kernel is built with gives such a
bit-field the 48-bit unsigned type of its declared width, which is wider than
`int` and so is not promoted, and the addition is carried out in that type:
the sum is reduced modulo `2 ^ 48` before it is converted to the `u64`
`counter`. -/
def read_cache_counter (fuel : Nat) (hw : Hardware) (channel event : Nat) (t : Trace) :
    Option ShowResult :=
  let t := mutex_lock t
  let ctl := readq hw Reg.ch_ctl t
  let t := ctl.2
  let csr := ch_ctl_cci_chsel.set ctl.1 channel
  let csr := ch_ctl_cache_event.set csr event
  let t := writeq csr Reg.ch_ctl t
  let ctr0 := ch_ctr_event_code.set 0 event
  match fpga_wait_register_field fuel hw ch_ctr_event_code ctr0 Reg.ch_ctr0 GPERF_TIMEOUT 1 t with
  | none => none
  | some (ret, t) =>
    if ret ≠ 0 then
      let t := mutex_unlock t
      some { ret := -ETIMEDOUT, buf := none, trace := t }
    else
      let ctr0 := readq hw Reg.ch_ctr0 t
      let ctr1 := readq hw Reg.ch_ctr1 ctr0.2
      let counter := (ch_ctr_cache_counter.get ctr0.1 + ch_ctr_cache_counter.get ctr1.1) % 2 ^ 48
      let t := mutex_unlock ctr1.2
      some (show_0x_llx counter t)

/-- The event code `base_event + pobj->id` of `read_iommu_counter`, computed in
`unsigned int` (the type of the enumeration). -/
def vtd_event (base_event : Nat) (pobj_id : Int) : Nat :=
  (((base_event : Int) + pobj_id) % (2 ^ 32 : Int)).toNat

/-- `read_iommu_counter(pobj, base_event, buf)`; `pobj_id` is `pobj->id`. -/
def read_iommu_counter (fuel : Nat) (hw : Hardware) (pobj_id : Int) (base_event : Nat)
    (t : Trace) : Option ShowResult :=
  let event := vtd_event base_event pobj_id
  let t := mutex_lock t
  let ctl := readq hw Reg.vtd_ctl t
  let csr := vtd_ctl_vtd_evtcode.set ctl.1 event
  let t := writeq csr Reg.vtd_ctl ctl.2
  let ctr := vtd_ctr_event_code.set 0 event
  match fpga_wait_register_field fuel hw vtd_ctr_event_code ctr Reg.vtd_ctr GPERF_TIMEOUT 1 t with
  | none => none
  | some (ret, t) =>
    if ret ≠ 0 then
      let t := mutex_unlock t
      some { ret := -ETIMEDOUT, buf := none, trace := t }
    else
      let ctr := readq hw Reg.vtd_ctr t
      let counter := vtd_ctr_vtd_counter.get ctr.1
      let t := mutex_unlock ctr.2
      some (show_0x_llx counter t)

/-- `fabric_pobj_is_enabled(pobj, gperf)`; `pobj_id` is `pobj->id`. -/
def fabric_pobj_is_enabled (hw : Hardware) (pobj_id : Int) (t : Trace) : Bool × Trace :=
  let ctl := readq hw Reg.fab_ctl t
  if fab_ctl_port_filter.get ctl.1 = FAB_DISABLE_FILTER then
    (decide (pobj_id = PERF_OBJ_ROOT_ID), ctl.2)
  else
    (decide (pobj_id = (fab_ctl_port_id.get ctl.1 : Int)), ctl.2)

/-- `read_fabric_counter(pobj, fab_event, buf)`; `pobj_id` is `pobj->id`. -/
def read_fabric_counter (fuel : Nat) (hw : Hardware) (pobj_id : Int) (fab_event : Nat)
    (t : Trace) : Option ShowResult :=
  let t := mutex_lock t
  let en := fabric_pobj_is_enabled hw pobj_id t
  let t := en.2
  if !en.1 then
    -- exit: (counter is still 0)
    let t := mutex_unlock t
    some (show_0x_llx 0 t)
  else
    let ctl := readq hw Reg.fab_ctl t
    let csr := fab_ctl_fab_evtcode.set ctl.1 fab_event
    let t := writeq csr Reg.fab_ctl ctl.2
    let ctr := fab_ctr_event_code.set 0 fab_event
    match fpga_wait_register_field fuel hw fab_ctr_event_code ctr Reg.fab_ctr GPERF_TIMEOUT 1 t with
    | none => none
    | some (ret, t) =>
      if ret ≠ 0 then
        let t := mutex_unlock t
        some { ret := -ETIMEDOUT, buf := none, trace := t }
      else
        let ctr := readq hw Reg.fab_ctr t
        let counter := fab_ctr_fab_cnt.get ctr.1
        -- exit:
        let t := mutex_unlock ctr.2
        some (show_0x_llx counter t)

/-- `fab_enable_store(pobj, buf, n)`. `strtobool` is the kernel's text-to-bool
parser (`none`: the parse failed); `pobj_id` is `pobj->id`. -/
def fab_enable_store (hw : Hardware) (strtobool : String → Option Bool) (pobj_id : Int)
    (buf : String) (n : Nat) (t : Trace) : Int × Trace :=
  match strtobool buf with
  | none => (-EINVAL, t)
  | some state =>
    if !state then (-EINVAL, t)
    else
      let en := fabric_pobj_is_enabled hw pobj_id t
      let t := en.2
      if en.1 then (ssize_t_of n, t)
      else
        let t := mutex_lock t
        let ctl := readq hw Reg.fab_ctl t
        let csr :=
          if pobj_id = PERF_OBJ_ROOT_ID then
            fab_ctl_port_filter.set ctl.1 FAB_DISABLE_FILTER
          else
            fab_ctl_port_id.set (fab_ctl_port_filter.set ctl.1 FAB_ENABLE_FILTER)
              (pobj_id % 4).toNat
        let t := writeq csr Reg.fab_ctl ctl.2
        let t := mutex_unlock t
        (ssize_t_of n, t)

/-- The values loaded from register `r` in a history, in order. -/
def reads_of (r : Reg) (t : Trace) : List Nat :=
  t.filterMap fun e =>
    match e with
    | Event.readq r' v => if r' = r then some v else none
    | _ => none

/-- Every store of a history, in order. -/
def all_writes (t : Trace) : List (Nat × Reg) :=
  t.filterMap fun e =>
    match e with
    | Event.writeq v r => some (v, r)
    | _ => none

/-- The history after `k` polls of `r` that did not match, each followed by
`udelay(1)`, as performed by `fpga_wait_register_field` with interval 1. -/
def poll_history (hw : Hardware) (r : Reg) : Nat → Trace → Trace
  | 0, t => t
  | k + 1, t => poll_history hw r k (udelay 1 (readq hw r t).2)

/-- The value a register that latches stores holds after a history: the last
value stored to it, or `init` when nothing was stored. -/
def held_value (r : Reg) (init : Nat) (t : Trace) : Nat :=
  (writes_to r t).getLastD init

/-- The history at entry to the poll loop of `read_cache_counter`: lock, load
of the control register, store of the control register with the channel and
event selectors replaced. -/
def cache_select_history (hw : Hardware) (channel event : Nat) (t : Trace) : Trace :=
  t ++ [Event.mutex_lock,
        Event.readq Reg.ch_ctl (hw (t ++ [Event.mutex_lock]) Reg.ch_ctl % U64_MOD),
        Event.writeq
          (ch_ctl_cache_event.set
            (ch_ctl_cci_chsel.set (hw (t ++ [Event.mutex_lock]) Reg.ch_ctl % U64_MOD) channel)
            event % U64_MOD)
          Reg.ch_ctl]

/-- The history at entry to the poll loop of `read_iommu_counter`. -/
def iommu_select_history (hw : Hardware) (event : Nat) (t : Trace) : Trace :=
  t ++ [Event.mutex_lock,
        Event.readq Reg.vtd_ctl (hw (t ++ [Event.mutex_lock]) Reg.vtd_ctl % U64_MOD),
        Event.writeq
          (vtd_ctl_vtd_evtcode.set (hw (t ++ [Event.mutex_lock]) Reg.vtd_ctl % U64_MOD)
            event % U64_MOD)
          Reg.vtd_ctl]

/-- The history at entry to the poll loop of `read_fabric_counter` on an
enabled scope: lock, the load made by `fabric_pobj_is_enabled`, load of the
control register, store of it with the event selector replaced. -/
def fabric_select_history (hw : Hardware) (fab_event : Nat) (t : Trace) : Trace :=
  let t1 := t ++ [Event.mutex_lock,
                  Event.readq Reg.fab_ctl (hw (t ++ [Event.mutex_lock]) Reg.fab_ctl % U64_MOD)]
  t1 ++ [Event.readq Reg.fab_ctl (hw t1 Reg.fab_ctl % U64_MOD),
         Event.writeq (fab_ctl_fab_evtcode.set (hw t1 Reg.fab_ctl % U64_MOD) fab_event % U64_MOD)
           Reg.fab_ctl]

/-- A test double: register `r` shows event code `code` in bits 60..63 from
its `n`-th load on (loads counted from 1 over the whole history) and event
code `other` before; its low bits hold `count`; every other register reads 0. -/
def hw_echo_from (r : Reg) (n code other count : Nat) : Hardware :=
  fun t r' =>
    if r' = r then
      (if n ≤ (reads_of r t).length + 1 then code else other) * 2 ^ 60 + count
    else 0

/-- A test double for the cache counters: `ch_ctr0` reads event code 2 with
count 5, `ch_ctr1` reads event code 2, a set reserved bit 48 and count 7, and
every other register reads 0. -/
def hw_cache_sample : Hardware :=
  fun _ r =>
    if r = Reg.ch_ctr0 then 2 * 2 ^ 60 + 5
    else if r = Reg.ch_ctr1 then 2 * 2 ^ 60 + 2 ^ 48 + 7
    else 0

/-- A test double in which every register latches stores: a load returns the
last value stored to the register, or `init` before any store. -/
def hw_latch (init : Nat) : Hardware :=
  fun t r => held_value r init t

/-! ## Threshold, injection and freeze stores (`fme-main.c`, `fme-error.c`, `fme-perf.c`) -/

def EFAULT : Int := 14
def ENOMEM : Int := 12
def ERANGE : Int := 34

/-! `struct feature_fme_capability` -/
def capability_iommu_support : BitField := ⟨16, 1⟩
def capability_num_ports : BitField := ⟨17, 3⟩
def capability_lock_bit : BitField := ⟨63, 1⟩

/-! `struct feature_fme_tmp_threshold` -/
def tmp_threshold_tmp_thshold1 : BitField := ⟨0, 7⟩
def tmp_threshold_tmp_thshold1_enable : BitField := ⟨7, 1⟩
def tmp_threshold_tmp_thshold2 : BitField := ⟨8, 7⟩
def tmp_threshold_tmp_thshold2_enable : BitField := ⟨15, 1⟩
def tmp_threshold_thshold_policy : BitField := ⟨44, 1⟩

/-! `struct feature_fme_pm_ap_threshold` -/
def pm_ap_threshold_threshold1 : BitField := ⟨0, 7⟩
def pm_ap_threshold_threshold2 : BitField := ⟨8, 7⟩

def PWR_THRESHOLD_MAX : Nat := 0x7F
def FME_RAS_ERROR_INJ_MASK : Nat := 0x7

/-- `thermal_threshold1_store`. `kstrtou8` is the kernel's text-to-u8 parser:
it returns its error code (0 on success) and the parsed value. -/
def thermal_threshold1_store (hw : Hardware) (kstrtou8 : String → Int × Nat) (buf : String)
    (count : Nat) (t : Trace) : Int × Trace :=
  let t := mutex_lock t
  let tmp_threshold := readq hw Reg.tmp_threshold t
  let t := tmp_threshold.2
  let err := (kstrtou8 buf).1
  let tmp_threshold1 := (kstrtou8 buf).2
  if err ≠ 0 then
    let t := mutex_unlock t
    (err, t)
  else
    let fme_capability := readq hw Reg.capability t
    let t := fme_capability.2
    if capability_lock_bit.get fme_capability.1 = 1 then
      let t := mutex_unlock t
      (-EBUSY, t)
    else if tmp_threshold1 > 100 then
      let t := mutex_unlock t
      (-EINVAL, t)
    else
      let csr :=
        if tmp_threshold1 = 0 then
          tmp_threshold_tmp_thshold1.set
            (tmp_threshold_tmp_thshold1_enable.set tmp_threshold.1 0) tmp_threshold1
        else
          tmp_threshold_tmp_thshold1.set
            (tmp_threshold_tmp_thshold1_enable.set tmp_threshold.1 1) tmp_threshold1
      let t := writeq csr Reg.tmp_threshold t
      let t := mutex_unlock t
      (ssize_t_of count, t)

def thermal_threshold2_store (hw : Hardware) (kstrtou8 : String → Int × Nat) (buf : String)
    (count : Nat) (t : Trace) : Int × Trace :=
  let t := mutex_lock t
  let tmp_threshold := readq hw Reg.tmp_threshold t
  let t := tmp_threshold.2
  let err := (kstrtou8 buf).1
  let tmp_threshold2 := (kstrtou8 buf).2
  if err ≠ 0 then
    let t := mutex_unlock t
    (err, t)
  else
    let fme_capability := readq hw Reg.capability t
    let t := fme_capability.2
    if capability_lock_bit.get fme_capability.1 = 1 then
      let t := mutex_unlock t
      (-EBUSY, t)
    else if tmp_threshold2 > 100 then
      let t := mutex_unlock t
      (-EINVAL, t)
    else
      let csr :=
        if tmp_threshold2 = 0 then
          tmp_threshold_tmp_thshold2.set
            (tmp_threshold_tmp_thshold2_enable.set tmp_threshold.1 0) tmp_threshold2
        else
          tmp_threshold_tmp_thshold2.set
            (tmp_threshold_tmp_thshold2_enable.set tmp_threshold.1 1) tmp_threshold2
      let t := writeq csr Reg.tmp_threshold t
      let t := mutex_unlock t
      (ssize_t_of count, t)

def thermal_threshold1_policy_store (hw : Hardware) (kstrtou8 : String → Int × Nat)
    (buf : String) (count : Nat) (t : Trace) : Int × Trace :=
  let t := mutex_lock t
  let tmp_threshold := readq hw Reg.tmp_threshold t
  let t := tmp_threshold.2
  let err := (kstrtou8 buf).1
  let thshold_policy := (kstrtou8 buf).2
  if err ≠ 0 then
    let t := mutex_unlock t
    (err, t)
  else if thshold_policy = 0 then
    let t := writeq (tmp_threshold_thshold_policy.set tmp_threshold.1 0) Reg.tmp_threshold t
    let t := mutex_unlock t
    (ssize_t_of count, t)
  else if thshold_policy = 1 then
    let t := writeq (tmp_threshold_thshold_policy.set tmp_threshold.1 1) Reg.tmp_threshold t
    let t := mutex_unlock t
    (ssize_t_of count, t)
  else
    let t := mutex_unlock t
    (-EINVAL, t)

def pwr_threshold1_store (hw : Hardware) (kstrtou8 : String → Int × Nat) (buf : String)
    (count : Nat) (t : Trace) : Int × Trace :=
  let t := mutex_lock t
  let pm_ap_threshold := readq hw Reg.pm_ap_threshold t
  let t := pm_ap_threshold.2
  let err := (kstrtou8 buf).1
  let threshold := (kstrtou8 buf).2
  if err ≠ 0 then
    let t := mutex_unlock t
    (err, t)
  else if threshold ≤ PWR_THRESHOLD_MAX then
    let t := writeq (pm_ap_threshold_threshold1.set pm_ap_threshold.1 threshold)
      Reg.pm_ap_threshold t
    let t := mutex_unlock t
    (ssize_t_of count, t)
  else
    let t := mutex_unlock t
    (-EINVAL, t)

def pwr_threshold2_store (hw : Hardware) (kstrtou8 : String → Int × Nat) (buf : String)
    (count : Nat) (t : Trace) : Int × Trace :=
  let t := mutex_lock t
  let pm_ap_threshold := readq hw Reg.pm_ap_threshold t
  let t := pm_ap_threshold.2
  let err := (kstrtou8 buf).1
  let threshold := (kstrtou8 buf).2
  if err ≠ 0 then
    let t := mutex_unlock t
    (err, t)
  else if threshold ≤ PWR_THRESHOLD_MAX then
    let t := writeq (pm_ap_threshold_threshold2.set pm_ap_threshold.1 threshold)
      Reg.pm_ap_threshold t
    let t := mutex_unlock t
    (ssize_t_of count, t)
  else
    let t := mutex_unlock t
    (-EINVAL, t)

def inject_error_store (hw : Hardware) (kstrtou8 : String → Int × Nat) (buf : String)
    (count : Nat) (t : Trace) : Int × Trace :=
  let t := mutex_lock t
  let ras_error_inj := readq hw Reg.ras_error_inj t
  let t := ras_error_inj.2
  let err := (kstrtou8 buf).1
  let data := (kstrtou8 buf).2
  if err ≠ 0 then
    let t := mutex_unlock t
    (err, t)
  else if data ≤ FME_RAS_ERROR_INJ_MASK then
    let t := writeq data Reg.ras_error_inj t
    let t := mutex_unlock t
    (ssize_t_of count, t)
  else
    let t := mutex_unlock t
    (-EINVAL, t)

/-- `freeze_store` of the cache counters. -/
def freeze_store (hw : Hardware) (strtobool : String → Option Bool) (buf : String)
    (n : Nat) (t : Trace) : Int × Trace :=
  match strtobool buf with
  | none => (-EINVAL, t)
  | some state =>
    let t := mutex_lock t
    let ctl := readq hw Reg.ch_ctl t
    let csr := ch_ctl_freeze.set ctl.1 (if state then 1 else 0)
    let t := writeq csr Reg.ch_ctl ctl.2
    let t := mutex_unlock t
    (ssize_t_of n, t)

def vtd_freeze_store (hw : Hardware) (strtobool : String → Option Bool) (buf : String)
    (n : Nat) (t : Trace) : Int × Trace :=
  match strtobool buf with
  | none => (-EINVAL, t)
  | some state =>
    let t := mutex_lock t
    let ctl := readq hw Reg.vtd_ctl t
    let csr := vtd_ctl_freeze.set ctl.1 (if state then 1 else 0)
    let t := writeq csr Reg.vtd_ctl ctl.2
    let t := mutex_unlock t
    (ssize_t_of n, t)

def fab_freeze_store (hw : Hardware) (strtobool : String → Option Bool) (buf : String)
    (n : Nat) (t : Trace) : Int × Trace :=
  match strtobool buf with
  | none => (-EINVAL, t)
  | some state =>
    let t := mutex_lock t
    let ctl := readq hw Reg.fab_ctl t
    let csr := fab_ctl_freeze.set ctl.1 (if state then 1 else 0)
    let t := writeq csr Reg.fab_ctl ctl.2
    let t := mutex_unlock t
    (ssize_t_of n, t)

/-- The value of a text made of decimal digits only (`none` for any other
text, the empty text included). -/
def decimal_value : List Char → Option Nat
  | [] => none
  | cs => cs.foldl (fun acc c =>
      match acc with
      | none => none
      | some v => if c.isDigit then some (10 * v + (c.toNat - 48)) else none) (some 0)

/-- A test double for `kstrtou8` on decimal texts, with the error codes the
kernel parser documents: `-EINVAL` on a parsing error, `-ERANGE` when the
number does not fit in 8 bits. -/
def kstrtou8_decimal (buf : String) : Int × Nat :=
  match decimal_value buf.data with
  | none => (-EINVAL, 0)
  | some v => if v < 256 then (0, v) else (-ERANGE, 0)

/-- A test double: the capability register reads with only its lock bit (bit
63) set, every other register reads 0. -/
def hw_locked : Hardware :=
  fun _ r => if r = Reg.capability then 2 ^ 63 else 0

/-! ## Control requests (`fme-main.c`) -/

/-- The constants that `fme-main.c` takes from the user-space header
`linux/intel-fpga.h` (not among the sources): the API version, the five
built-in command codes, and the minimum argument sizes
`offsetofend(struct fpga_fme_info, capability)`,
`offsetofend(struct fpga_fme_port_release, port_id)` and
`offsetofend(struct fpga_fme_port_assign, port_id)`. -/
structure intel_fpga_h where
  FPGA_API_VERSION : Int
  FPGA_GET_API_VERSION : Nat
  FPGA_CHECK_EXTENSION : Nat
  FPGA_FME_GET_INFO : Nat
  FPGA_FME_PORT_RELEASE : Nat
  FPGA_FME_PORT_ASSIGN : Nat
  fpga_fme_info_minsz : Nat
  fpga_fme_port_release_minsz : Nat
  fpga_fme_port_assign_minsz : Nat

/-- The fields of `struct fpga_fme_info` used by the driver. -/
structure fpga_fme_info where
  argsz : Nat
  flags : Nat
  capability : Nat
  deriving DecidableEq, Repr

/-- The fields of `struct fpga_fme_port_release` used by the driver. -/
structure fpga_fme_port_release where
  argsz : Nat
  flags : Nat
  port_id : Nat
  deriving DecidableEq, Repr

/-- The fields of `struct fpga_fme_port_assign` used by the driver. -/
structure fpga_fme_port_assign where
  argsz : Nat
  flags : Nat
  port_id : Nat
  deriving DecidableEq, Repr

/-- The caller's memory as seen through `copy_from_user` / `copy_to_user`:
what a copy from address `arg` yields (`none`: the copy faults) and whether a
copy to `arg` succeeds. -/
structure UserMem where
  read_info : Nat → Option fpga_fme_info
  read_release : Nat → Option fpga_fme_port_release
  read_assign : Nat → Option fpga_fme_port_assign
  write_ok : Nat → Bool

/-- Calls made by the control-request code, in program order. -/
inductive IoctlEvent
  | config_port (port_id : Nat) (is_release : Bool)
  | copy_to_user (arg : Nat) (info : fpga_fme_info)
  | feature_ioctl (slot : Nat) (cmd arg : Nat)
  deriving DecidableEq, Repr

/-- The member of `struct feature_ops` used by `fme_ioctl`: the optional
`ioctl` handler, a function of the command and its argument. -/
structure feature_ops where
  ioctl : Option (Nat → Nat → Int)

/-- One slot of the feature table: `struct feature` with its optional ops. -/
structure feature where
  name : String
  ops : Option feature_ops

def fme_ioctl_check_extension (_arg : Nat) : Int := 0

def fme_ioctl_get_info (h : intel_fpga_h) (um : UserMem) (fme_capability : Nat) (arg : Nat)
    (t : Trace) (log : List IoctlEvent) : Int × Trace × List IoctlEvent :=
  let minsz := h.fpga_fme_info_minsz
  match um.read_info arg with
  | none => (-EFAULT, t, log)
  | some info =>
    if info.argsz < minsz then (-EINVAL, t, log)
    else
      let t := mutex_lock t
      let info := { info with flags := 0 }
      let info := { info with capability := fme_capability }
      let t := mutex_unlock t
      let log := log ++ [IoctlEvent.copy_to_user arg info]
      if !um.write_ok arg then (-EFAULT, t, log)
      else (0, t, log)

/-- `fme_ioctl_config_port`; `config_port` is the callback `pdata->config_port`. -/
def fme_ioctl_config_port (hw : Hardware) (config_port : Nat → Bool → Int)
    (port_id flags : Nat) (is_release : Bool) (t : Trace) (log : List IoctlEvent) :
    Int × Trace × List IoctlEvent :=
  if flags ≠ 0 then (-EINVAL, t, log)
  else
    let capability := readq hw Reg.capability t
    if port_id ≥ capability_num_ports.get capability.1 then (-EINVAL, capability.2, log)
    else
      (config_port port_id is_release, capability.2,
        log ++ [IoctlEvent.config_port port_id is_release])

def fme_ioctl_release_port (h : intel_fpga_h) (hw : Hardware) (um : UserMem)
    (config_port : Nat → Bool → Int) (arg : Nat) (t : Trace) (log : List IoctlEvent) :
    Int × Trace × List IoctlEvent :=
  let minsz := h.fpga_fme_port_release_minsz
  match um.read_release arg with
  | none => (-EFAULT, t, log)
  | some release =>
    if release.argsz < minsz then (-EINVAL, t, log)
    else fme_ioctl_config_port hw config_port release.port_id release.flags true t log

def fme_ioctl_assign_port (h : intel_fpga_h) (hw : Hardware) (um : UserMem)
    (config_port : Nat → Bool → Int) (arg : Nat) (t : Trace) (log : List IoctlEvent) :
    Int × Trace × List IoctlEvent :=
  let minsz := h.fpga_fme_port_assign_minsz
  match um.read_assign arg with
  | none => (-EFAULT, t, log)
  | some assign =>
    if assign.argsz < minsz then (-EINVAL, t, log)
    else fme_ioctl_config_port hw config_port assign.port_id assign.flags false t log

/-- The loop `fpga_dev_for_each_feature` of `fme_ioctl`, from table slot `slot`
on: `some ret` when a handler returned `ret ≠ -ENODEV`, `none` when the loop
ran to the end of the table. -/
def fme_ioctl_features (cmd arg : Nat) :
    List feature → Nat → List IoctlEvent → Option Int × List IoctlEvent
  | [], _, log => (none, log)
  | f :: fs, slot, log =>
    match f.ops with
    | none => fme_ioctl_features cmd arg fs (slot + 1) log
    | some ops =>
      match ops.ioctl with
      | none => fme_ioctl_features cmd arg fs (slot + 1) log
      | some ioctl =>
        let ret := ioctl cmd arg
        let log := log ++ [IoctlEvent.feature_ioctl slot cmd arg]
        if ret = -ENODEV then fme_ioctl_features cmd arg fs (slot + 1) log
        else (some ret, log)

/-- `fme_ioctl`. `fme_capability` is the `capability` member of the private
data, `features` the feature table `pdata->features[0 .. num)`. -/
def fme_ioctl (h : intel_fpga_h) (hw : Hardware) (um : UserMem) (fme_capability : Nat)
    (config_port : Nat → Bool → Int) (features : List feature) (cmd arg : Nat)
    (t : Trace) (log : List IoctlEvent) : Int × Trace × List IoctlEvent :=
  if cmd = h.FPGA_GET_API_VERSION then (h.FPGA_API_VERSION, t, log)
  else if cmd = h.FPGA_CHECK_EXTENSION then (fme_ioctl_check_extension arg, t, log)
  else if cmd = h.FPGA_FME_GET_INFO then fme_ioctl_get_info h um fme_capability arg t log
  else if cmd = h.FPGA_FME_PORT_RELEASE then
    fme_ioctl_release_port h hw um config_port arg t log
  else if cmd = h.FPGA_FME_PORT_ASSIGN then
    fme_ioctl_assign_port h hw um config_port arg t log
  else
    match fme_ioctl_features cmd arg features 0 log with
    | (some ret, log) => (ret, t, log)
    | (none, log) => (-EINVAL, t, log)

/-- The `ioctl` handler of a table slot, when the slot has ops and the ops
have a handler. -/
def feature_handler (f : feature) : Option (Nat → Nat → Int) :=
  f.ops.bind fun ops => ops.ioctl

/-- The table slots that have a handler, as (slot index, handler), in table
order; `slot` is the index of the first entry of the list. -/
def handler_slots : List feature → Nat → List (Nat × (Nat → Nat → Int))
  | [], _ => []
  | f :: fs, slot =>
    match feature_handler f with
    | some ioctl => (slot, ioctl) :: handler_slots fs (slot + 1)
    | none => handler_slots fs (slot + 1)

/-- A command is outside the five built-in codes. -/
def not_builtin (h : intel_fpga_h) (cmd : Nat) : Prop :=
  cmd ≠ h.FPGA_GET_API_VERSION ∧ cmd ≠ h.FPGA_CHECK_EXTENSION ∧
  cmd ≠ h.FPGA_FME_GET_INFO ∧ cmd ≠ h.FPGA_FME_PORT_RELEASE ∧
  cmd ≠ h.FPGA_FME_PORT_ASSIGN

/-- A sample of the header constants, for worked examples: command codes 0..4
and minimum sizes 16, 12, 12. -/
def intel_fpga_h_sample : intel_fpga_h :=
  { FPGA_API_VERSION := 0, FPGA_GET_API_VERSION := 0, FPGA_CHECK_EXTENSION := 1,
    FPGA_FME_GET_INFO := 2, FPGA_FME_PORT_RELEASE := 3, FPGA_FME_PORT_ASSIGN := 4,
    fpga_fme_info_minsz := 16, fpga_fme_port_release_minsz := 12,
    fpga_fme_port_assign_minsz := 12 }

/-- A sample of the caller's memory: every block read has `argsz = a`, no
flags and port 1; copies to the caller succeed. -/
def user_mem_sample (a : Nat) : UserMem :=
  { read_info := fun _ => some { argsz := a, flags := 0, capability := 0 },
    read_release := fun _ => some { argsz := a, flags := 0, port_id := 1 },
    read_assign := fun _ => some { argsz := a, flags := 0, port_id := 1 },
    write_ok := fun _ => true }

/-- A sample feature table: slot 0 without ops, slot 1 declaring every command
not its own, slot 2 without a handler, slot 3 answering 7 to every command,
slot 4 answering 9. -/
def features_sample : List feature :=
  [ { name := "fme_hdr", ops := none },
    { name := "fme_thermal", ops := some { ioctl := some fun _ _ => -ENODEV } },
    { name := "fme_power", ops := some { ioctl := none } },
    { name := "fme_pr", ops := some { ioctl := some fun _ _ => 7 } },
    { name := "fme_error", ops := some { ioctl := some fun _ _ => 9 } } ]

/-! ## The counter object tree (`fme-perf.c`, `backport.c`) -/

/-- A `struct attribute_group`: its optional directory name and the file names
of its attributes, in array order. -/
structure attribute_group where
  name : Option String
  attrs : List String
  deriving DecidableEq, Repr

def clock_attr_group : attribute_group :=
  { name := none, attrs := ["revision", "clock"] }

def cache_attr_group : attribute_group :=
  { name := some "cache",
    attrs := ["read_hit", "read_miss", "write_hit", "write_miss", "hold_request",
              "data_write_port_contention", "tag_write_port_contention", "tx_req_stall",
              "rx_req_stall", "rx_eviction", "freeze"] }

def perf_dev_attr_groups : List attribute_group := [clock_attr_group, cache_attr_group]

def iommu_top_attr_group : attribute_group := { name := none, attrs := ["freeze"] }

def iommu_top_attr_groups : List attribute_group := [iommu_top_attr_group]

def iommu_attr_group : attribute_group :=
  { name := none,
    attrs := ["read_transaction", "write_transaction", "tlb_read_hit", "tlb_write_hit"] }

def iommu_attr_groups : List attribute_group := [iommu_attr_group]

def fabric_attr_group : attribute_group :=
  { name := none,
    attrs := ["pcie0_read", "pcie0_write", "pcie1_read", "pcie1_write", "upi_read",
              "upi_write", "mmio_read", "mmio_write", "enable"] }

def fabric_attr_groups : List attribute_group := [fabric_attr_group]

def fabric_top_attr_group : attribute_group := { name := none, attrs := ["freeze"] }

def fabric_top_attr_groups : List attribute_group :=
  [fabric_attr_group, fabric_top_attr_group]

/-- A `struct perf_object`, addressed by a number: its id, its attribute
groups (`none`: a NULL pointer), the name and parent given to its kobject
(`none`: the kobject of the device) and its `children` list, first entry
first. -/
structure perf_object where
  id : Int
  attr_groups : Option (List attribute_group)
  kobj_name : String
  kobj_parent : Option Nat
  children : List Nat
  deriving DecidableEq, Repr

/-- Calls into the kernel made while the tree is built or destroyed.
`kzalloc pobj` is a successful allocation of the object at `pobj`;
`kobject_put pobj` drops the reference taken at creation, upon which
`perf_obj_release` frees the object. -/
inductive PerfEvent
  | kzalloc (pobj : Nat)
  | kobject_init_and_add (pobj : Nat) (ret : Int)
  | sysfs_create_group (kobj : Nat) (grp : attribute_group) (ret : Int)
  | sysfs_remove_group (kobj : Nat) (grp : attribute_group)
  | kobject_put (pobj : Nat)
  deriving DecidableEq, Repr

/-- The live counter objects by address, the address the next allocation
returns, and the calls made so far. -/
structure perf_state where
  objs : List (Nat × perf_object)
  next : Nat
  log : List PerfEvent
  deriving DecidableEq, Repr

/-- The outcomes of the kernel services used by `create_perf_obj`: whether the
allocation that would return address `a` succeeds, and the return values of
`kobject_init_and_add` and `sysfs_create_group` for the object at `a`. -/
structure KernelEnv where
  kzalloc_ok : Nat → Bool
  kobject_init_and_add : Nat → Int
  sysfs_create_group : Nat → attribute_group → Int

/-- The loop of `sysfs_create_groups` over the groups not yet visited;
`created` holds the groups created so far, the latest first. -/
def sysfs_create_groups_loop (env : KernelEnv) (kobj : Nat) :
    List attribute_group → List attribute_group → List PerfEvent → Int × List PerfEvent
  | [], _, log => (0, log)
  | g :: gs, created, log =>
    let error := env.sysfs_create_group kobj g
    let log := log ++ [PerfEvent.sysfs_create_group kobj g error]
    if error ≠ 0 then
      (error, log ++ created.map (PerfEvent.sysfs_remove_group kobj))
    else
      sysfs_create_groups_loop env kobj gs (g :: created) log

/-- `sysfs_create_groups(kobj, groups)` of `backport.c`. -/
def sysfs_create_groups (env : KernelEnv) (kobj : Nat)
    (groups : Option (List attribute_group)) (log : List PerfEvent) : Int × List PerfEvent :=
  match groups with
  | none => (0, log)
  | some gs => sysfs_create_groups_loop env kobj gs [] log

/-- `sysfs_remove_groups(kobj, groups)` of `backport.c`. -/
def sysfs_remove_groups (kobj : Nat) (groups : Option (List attribute_group))
    (log : List PerfEvent) : List PerfEvent :=
  match groups with
  | none => log
  | some gs => log ++ gs.map (PerfEvent.sysfs_remove_group kobj)

/-- The object at an address. -/
def perf_state.find (s : perf_state) (pobj : Nat) : Option perf_object :=
  (s.objs.find? (fun p => p.1 = pobj)).map (fun p => p.2)

/-- `list_add(&obj->node, &parent->children)`: insertion at the head. -/
def list_add (obj parent : Nat) (s : perf_state) : perf_state :=
  { s with objs := s.objs.map fun p =>
      if p.1 = parent then (p.1, { p.2 with children := obj :: p.2.children }) else p }

/-- `list_del(&pobj->node)`: the object leaves the list it is linked in. -/
def list_del (pobj : Nat) (s : perf_state) : perf_state :=
  { s with objs := s.objs.map fun p => (p.1, { p.2 with children := p.2.children.erase pobj }) }

/-- `kobject_put(&pobj->kobj)` on the reference taken at creation: the object
is released (`perf_obj_release`, `kfree`). -/
def kobject_put (pobj : Nat) (s : perf_state) : perf_state :=
  { s with objs := s.objs.filter (fun p => p.1 ≠ pobj),
           log := s.log ++ [PerfEvent.kobject_put pobj] }

/-- `create_perf_obj(fme_dev, parent, id, groups, name)`: the address of the
new object, or the error of `ERR_PTR`. -/
def create_perf_obj (env : KernelEnv) (parent : Option Nat) (id : Int)
    (groups : Option (List attribute_group)) (name : String) (s : perf_state) :
    Except Int Nat × perf_state :=
  if !env.kzalloc_ok s.next then (Except.error (-ENOMEM), s)
  else
    let pobj := s.next
    let kname := if id ≠ PERF_OBJ_ROOT_ID then name ++ toString id else name
    let s : perf_state :=
      { objs := s.objs ++ [(pobj, { id := id, attr_groups := groups, kobj_name := kname,
                                     kobj_parent := parent, children := [] })],
        next := s.next + 1,
        log := s.log ++ [PerfEvent.kzalloc pobj] }
    let ret := env.kobject_init_and_add pobj
    let s := { s with log := s.log ++ [PerfEvent.kobject_init_and_add pobj ret] }
    if ret ≠ 0 then
      -- put_exit:
      (Except.error ret, kobject_put pobj s)
    else
      match groups with
      | none => (Except.ok pobj, s)
      | some gs =>
        let r := sysfs_create_groups env pobj (some gs) s.log
        let s := { s with log := r.2 }
        if r.1 ≠ 0 then
          -- put_exit:
          (Except.error r.1, kobject_put pobj s)
        else (Except.ok pobj, s)

/-- `destroy_perf_obj(pobj)`. `fuel` bounds the depth of the recursion; `none`
means the fuel ran out or `pobj` is not a live object. -/
def destroy_perf_obj : Nat → Nat → perf_state → Option perf_state
  | 0, _, _ => none
  | fuel + 1, pobj, s =>
    match s.find pobj with
    | none => none
    | some o =>
      match o.children.foldlM (fun s obj => destroy_perf_obj fuel obj s) s with
      | none => none
      | some s =>
        let s := list_del pobj s
        let s :=
          match o.attr_groups with
          | none => s
          | some gs => { s with log := sysfs_remove_groups pobj (some gs) s.log }
        some (kobject_put pobj s)

def PERF_MAX_PORT_NUM : Nat := 2

/-- The loop `for (i = ..; i < PERF_MAX_PORT_NUM; i++)` shared by
`create_perf_iommu_obj` and `create_perf_fabric_obj`, with `n` iterations left. -/
def create_perf_children (env : KernelEnv) (pobj : Nat) (groups : List attribute_group)
    (name : String) : Nat → Nat → perf_state → Int × perf_state
  | 0, _, s => (0, s)
  | n + 1, i, s =>
    match create_perf_obj env (some pobj) (i : Int) (some groups) name s with
    | (Except.error e, s) => (e, s)
    | (Except.ok obj, s) =>
      create_perf_children env pobj groups name n (i + 1) (list_add obj pobj s)

def create_perf_iommu_obj (env : KernelEnv) (hw : Hardware) (perf_dev : Nat) (t : Trace)
    (s : perf_state) : Int × Trace × perf_state :=
  let fme_capability := readq hw Reg.capability t
  let t := fme_capability.2
  if capability_iommu_support.get fme_capability.1 = 0 then (0, t, s)
  else
    match create_perf_obj env (some perf_dev) PERF_OBJ_ROOT_ID (some iommu_top_attr_groups)
        "iommu" s with
    | (Except.error e, s) => (e, t, s)
    | (Except.ok pobj, s) =>
      let s := list_add pobj perf_dev s
      let r := create_perf_children env pobj iommu_attr_groups "afu" PERF_MAX_PORT_NUM 0 s
      (r.1, t, r.2)

def create_perf_fabric_obj (env : KernelEnv) (perf_dev : Nat) (s : perf_state) :
    Int × perf_state :=
  match create_perf_obj env (some perf_dev) PERF_OBJ_ROOT_ID (some fabric_top_attr_groups)
      "fabric" s with
  | (Except.error e, s) => (e, s)
  | (Except.ok pobj, s) =>
    let s := list_add pobj perf_dev s
    create_perf_children env pobj fabric_attr_groups "port" PERF_MAX_PORT_NUM 0 s

def create_perf_dev (env : KernelEnv) (s : perf_state) : Except Int Nat × perf_state :=
  create_perf_obj env none PERF_OBJ_ROOT_ID (some perf_dev_attr_groups) "perf" s

/-- Outcome of `fme_perf_init` / `fme_perf_uinit`: the return value, the
register history, the object state, and `fme->perf_dev`. -/
structure PerfResult where
  ret : Int
  trace : Trace
  state : perf_state
  perf_dev : Option Nat
  deriving DecidableEq, Repr

/-- `fme_perf_init`; `perf_dev` is the value of `fme->perf_dev` on entry. -/
def fme_perf_init (fuel : Nat) (env : KernelEnv) (hw : Hardware) (t : Trace) (s : perf_state)
    (perf_dev : Option Nat) : Option PerfResult :=
  match create_perf_dev env s with
  | (Except.error e, s) => some { ret := e, trace := t, state := s, perf_dev := perf_dev }
  | (Except.ok root, s) =>
    let r := create_perf_iommu_obj env hw root t s
    if r.1 ≠ 0 then
      (destroy_perf_obj fuel root r.2.2).map fun s =>
        { ret := r.1, trace := r.2.1, state := s, perf_dev := perf_dev }
    else
      let r2 := create_perf_fabric_obj env root r.2.2
      if r2.1 ≠ 0 then
        (destroy_perf_obj fuel root r2.2).map fun s =>
          { ret := r2.1, trace := r.2.1, state := s, perf_dev := perf_dev }
      else
        some { ret := 0, trace := r.2.1, state := r2.2, perf_dev := some root }

/-- `fme_perf_uinit`; `none` also when `fme->perf_dev` is NULL. -/
def fme_perf_uinit (fuel : Nat) (t : Trace) (s : perf_state) (perf_dev : Option Nat) :
    Option PerfResult :=
  match perf_dev with
  | none => none
  | some root =>
    (destroy_perf_obj fuel root s).map fun s =>
      { ret := 0, trace := t, state := s, perf_dev := none }

/-- The addresses allocated in a log, in order. -/
def created_nodes (log : List PerfEvent) : List Nat :=
  log.filterMap fun e =>
    match e with
    | PerfEvent.kzalloc a => some a
    | _ => none

/-- The addresses released in a log, in order. -/
def released_nodes (log : List PerfEvent) : List Nat :=
  log.filterMap fun e =>
    match e with
    | PerfEvent.kobject_put a => some a
    | _ => none

/-- The state before the driver has built anything. -/
def perf_state_empty : perf_state := { objs := [], next := 0, log := [] }

/-- A kernel in which every service succeeds. -/
def env_ok : KernelEnv :=
  { kzalloc_ok := fun _ => true, kobject_init_and_add := fun _ => 0,
    sysfs_create_group := fun _ _ => 0 }

/-- The error with which the creation of an object with attribute groups
`groups` at address `a` fails, if it fails: `-ENOMEM` when the allocation
fails, else the non-zero return of `kobject_init_and_add`, else the first
non-zero return of `sysfs_create_group`. -/
def creation_error (env : KernelEnv) (a : Nat) (groups : List attribute_group) : Option Int :=
  if !env.kzalloc_ok a then some (-ENOMEM)
  else if env.kobject_init_and_add a ≠ 0 then some (env.kobject_init_and_add a)
  else (groups.map (env.sysfs_create_group a)).find? (fun r => decide (r ≠ 0))

/-- The attribute groups of the objects `fme_perf_init` creates, in creation
order: the root, the IOMMU node and its two children when the device has an
IOMMU, the fabric node and its two children. -/
def planned_nodes (iommu : Bool) : List (List attribute_group) :=
  [perf_dev_attr_groups]
    ++ (if iommu then [iommu_top_attr_groups, iommu_attr_groups, iommu_attr_groups] else [])
    ++ [fabric_top_attr_groups, fabric_attr_groups, fabric_attr_groups]

/-- The error of the first creation that fails among the planned objects,
which get the addresses `a`, `a + 1`, ... in order. -/
def first_creation_error (env : KernelEnv) : List (List attribute_group) → Nat → Option Int
  | [], _ => none
  | gs :: rest, a =>
    match creation_error env a gs with
    | some e => some e
    | none => first_creation_error env rest (a + 1)

/-- The objects of the tree of a device without IOMMU. -/
def perf_tree_plain : List (Nat × perf_object) :=
  [(0, { id := PERF_OBJ_ROOT_ID, attr_groups := some perf_dev_attr_groups,
         kobj_name := "perf", kobj_parent := none, children := [1] }),
   (1, { id := PERF_OBJ_ROOT_ID, attr_groups := some fabric_top_attr_groups,
         kobj_name := "fabric", kobj_parent := some 0, children := [3, 2] }),
   (2, { id := 0, attr_groups := some fabric_attr_groups,
         kobj_name := "port" ++ toString (0 : Int), kobj_parent := some 1, children := [] }),
   (3, { id := 1, attr_groups := some fabric_attr_groups,
         kobj_name := "port" ++ toString (1 : Int), kobj_parent := some 1, children := [] })]

/-- The objects of the tree of a device with IOMMU. -/
def perf_tree_iommu : List (Nat × perf_object) :=
  [(0, { id := PERF_OBJ_ROOT_ID, attr_groups := some perf_dev_attr_groups,
         kobj_name := "perf", kobj_parent := none, children := [4, 1] }),
   (1, { id := PERF_OBJ_ROOT_ID, attr_groups := some iommu_top_attr_groups,
         kobj_name := "iommu", kobj_parent := some 0, children := [3, 2] }),
   (2, { id := 0, attr_groups := some iommu_attr_groups,
         kobj_name := "afu" ++ toString (0 : Int), kobj_parent := some 1, children := [] }),
   (3, { id := 1, attr_groups := some iommu_attr_groups,
         kobj_name := "afu" ++ toString (1 : Int), kobj_parent := some 1, children := [] }),
   (4, { id := PERF_OBJ_ROOT_ID, attr_groups := some fabric_top_attr_groups,
         kobj_name := "fabric", kobj_parent := some 0, children := [6, 5] }),
   (5, { id := 0, attr_groups := some fabric_attr_groups,
         kobj_name := "port" ++ toString (0 : Int), kobj_parent := some 4, children := [] }),
   (6, { id := 1, attr_groups := some fabric_attr_groups,
         kobj_name := "port" ++ toString (1 : Int), kobj_parent := some 4, children := [] })]

/-- The calls `create_perf_obj` makes for an object at address `a` whose
creation fails: nothing after a failed allocation; otherwise the allocation,
`kobject_init_and_add`, the group creations up to the failing one with the
removals that undo them, and the `kobject_put` of `put_exit`. -/
def creation_fail_events (env : KernelEnv) (a : Nat) (groups : List attribute_group) :
    List PerfEvent :=
  if !env.kzalloc_ok a then []
  else
    [PerfEvent.kzalloc a, PerfEvent.kobject_init_and_add a (env.kobject_init_and_add a)]
      ++ (if env.kobject_init_and_add a ≠ 0 then []
          else (sysfs_create_groups_loop env a groups [] []).2)
      ++ [PerfEvent.kobject_put a]

/-! ## Expected shape of the counter object tree -/

/-- Whether `create_perf_iommu_obj`, called with register history `t`, finds
the `iommu_support` bit set in the capability register it reads. -/
def iommu_supported (hw : Hardware) (t : Trace) : Bool :=
  decide (capability_iommu_support.get (readq hw Reg.capability t).1 ≠ 0)

/-- The file names a counter object shows: those of its attribute groups, in
order. -/
def perf_object.entries (o : perf_object) : List String :=
  (o.attr_groups.getD []).flatMap fun g => g.attrs

/-- For each live object: its address, kobject name, id, parent, children
(first entry first) and entries. -/
def node_table (objs : List (Nat × perf_object)) :
    List (Nat × String × Int × Option Nat × List Nat × List String) :=
  objs.map fun p => (p.1, p.2.kobj_name, p.2.id, p.2.kobj_parent, p.2.children, p.2.entries)

/-- A test double: the capability register reads with only its `iommu_support`
bit (bit 16) set, every other register reads 0. -/
def hw_iommu : Hardware :=
  fun _ r => if r = Reg.capability then 2 ^ 16 else 0

/-- A kernel in which the allocation that would return address `k` fails and
every other service succeeds. -/
def env_enomem_at (k : Nat) : KernelEnv :=
  { kzalloc_ok := fun a => a != k, kobject_init_and_add := fun _ => 0,
    sysfs_create_group := fun _ _ => 0 }

/-- `MAX_ERRNO` of the kernel's `linux/err.h`: `IS_ERR` recognises exactly the
pointers `ERR_PTR` makes of the values `-MAX_ERRNO .. -1`. -/
def MAX_ERRNO : Int := 4095

/-- The kernel services report failure the way the kernel does:
`kobject_init_and_add` and `sysfs_create_group` return 0 or a negative errno
in `-MAX_ERRNO .. -1`, so that `IS_ERR` recognises the `ERR_PTR` that
`create_perf_obj` makes of a failure. -/
def KernelEnv.returns_errno (env : KernelEnv) : Prop :=
  (∀ a, -MAX_ERRNO ≤ env.kobject_init_and_add a ∧ env.kobject_init_and_add a ≤ 0) ∧
  (∀ a g, -MAX_ERRNO ≤ env.sysfs_create_group a g ∧ env.sysfs_create_group a g ≤ 0)

/-! ## Freeze flags of the counter domains (`fme-perf.c`) -/

/-- Text produced by `scnprintf(buf, PAGE_SIZE, "%d\n", v)` for a value that
is not negative. -/
def fmt_d (v : Nat) : String := toString v ++ "\n"

/-- `scnprintf(buf, PAGE_SIZE, "%d\n", v)` as the final statement of a read. -/
def show_d (v : Nat) (t : Trace) : ShowResult :=
  { ret := ((fmt_d v).length : Int), buf := some (fmt_d v), trace := t }

/-- `freeze_show` of the cache counters. -/
def freeze_show (hw : Hardware) (t : Trace) : ShowResult :=
  let ctl := readq hw Reg.ch_ctl t
  show_d (ch_ctl_freeze.get ctl.1) ctl.2

def vtd_freeze_show (hw : Hardware) (t : Trace) : ShowResult :=
  let ctl := readq hw Reg.vtd_ctl t
  show_d (vtd_ctl_freeze.get ctl.1) ctl.2

def fab_freeze_show (hw : Hardware) (t : Trace) : ShowResult :=
  let ctl := readq hw Reg.fab_ctl t
  show_d (fab_ctl_freeze.get ctl.1) ctl.2

/-! ## Initialisation of the error feature (`fme-error.c`) and the lock discipline -/

/-- `fme_error_enable`: the six error masks are set to their defaults. -/
def fme_error_enable (t : Trace) : Trace :=
  let t := writeq FME_ERROR0_MASK_DEFAULT Reg.fme_err_mask t
  let t := writeq 0 Reg.pcie0_err_mask t
  let t := writeq 0 Reg.pcie1_err_mask t
  let t := writeq 0 Reg.ras_gerr_mask t
  let t := writeq 0 Reg.ras_berr_mask t
  writeq 0 Reg.ras_werr_mask t

/-- `global_error_init`. Whether `kzalloc` succeeds and what `device_register`
and `sysfs_create_groups` return are parameters; of the calls it makes, the
history records the lock and the register accesses. -/
def global_error_init (kzalloc_ok : Bool) (device_register sysfs_create_groups : Int)
    (t : Trace) : Int × Trace :=
  if !kzalloc_ok then (-ENOMEM, t)
  else
    let t := fme_error_enable t
    let ret := device_register
    if ret ≠ 0 then
      -- put_device(dev)
      (ret, t)
    else
      let ret := sysfs_create_groups
      if ret ≠ 0 then
        -- device_unregister(dev)
        (ret, t)
      else
        let t := mutex_lock t
        -- fme->dev_err = dev
        let t := mutex_unlock t
        (ret, t)

/-- Whether the lock is held after a history that starts with the lock held
(`held`) or free; `none` when the history breaks the discipline: the lock is
taken while held, released while free, or a register is stored to while the
lock is free. -/
def lock_after : Bool → Trace → Option Bool
  | held, [] => some held
  | held, Event.mutex_lock :: t => if held then none else lock_after true t
  | held, Event.mutex_unlock :: t => if held then lock_after false t else none
  | held, Event.writeq _ _ :: t => if held then lock_after held t else none
  | held, Event.readq _ _ :: t => lock_after held t
  | held, Event.udelay _ :: t => lock_after held t
  | held, Event.fpga_msix_set_block _ :: t => lock_after held t

/-- History `r` continues history `t`, and in what it adds every register
store is made between an acquisition of the lock and the matching release, the
lock is free at the end, and the lock is taken at most once. -/
def locked_extension (t r : Trace) : Prop :=
  t <+: r ∧ lock_after false (r.drop t.length) = some false ∧
    (r.drop t.length).count Event.mutex_lock ≤ 1

/-- Events that neither take nor release the lock nor store to a register. -/
def Event.is_quiet : Event → Bool
  | Event.mutex_lock => false
  | Event.mutex_unlock => false
  | Event.writeq _ _ => false
  | Event.readq _ _ => true
  | Event.udelay _ => true
  | Event.fpga_msix_set_block _ => true

/-! ## Sequences of opens and closes of the device node -/

/-- A file operation on the device node: an open with or without `O_EXCL`, or
the release of the `i`-th outstanding handle (oldest first). -/
inductive FileOp
  | do_open (o_excl : Bool)
  | do_release (i : Nat)
  deriving DecidableEq, Repr

/-- The platform data, the outstanding handles (for each, whether it was
opened with `O_EXCL`; oldest first) and the history. -/
structure OpenState where
  pdata : feature_platform_data
  handles : List Bool
  trace : Trace
  deriving DecidableEq, Repr

/-- One file operation: `fme_open`, which yields a handle when it returns 0, or
`fme_release` on an outstanding handle (the kernel releases only files that
are open, so the release of a handle that does not exist does nothing). -/
def OpenState.step (s : OpenState) : FileOp → OpenState
  | FileOp.do_open k =>
    let r := fme_open k s.pdata s.trace
    if r.1 = 0 then { pdata := r.2.1, handles := s.handles ++ [k], trace := r.2.2 }
    else { pdata := r.2.1, handles := s.handles, trace := r.2.2 }
  | FileOp.do_release i =>
    if i < s.handles.length then
      let r := fme_release s.pdata s.trace
      { pdata := r.2.1, handles := s.handles.eraseIdx i, trace := r.2.2 }
    else s

def OpenState.run (s : OpenState) (ops : List FileOp) : OpenState :=
  ops.foldl OpenState.step s

/-- The device node before any open. -/
def open_state_init : OpenState :=
  { pdata := { excl_open := 0, open_count := 0 }, handles := [], trace := [] }

/-- The invariant of the open-state bookkeeping. -/
def OpenState.consistent (s : OpenState) : Prop :=
  s.pdata.open_count = (s.handles.length : Int) ∧
  ((s.pdata.excl_open = 1 ∧ s.handles = [true]) ∨
   (s.pdata.excl_open = 0 ∧ true ∉ s.handles))

/-! ## IOMMU events (`enum gperf_vtd_events` of `feature-dev.h`, `VTD_SHOW` of `fme-perf.c`) -/

/-- A kernel in which the creation of the attribute group `bad` fails with
`e` and every other service succeeds. -/
def env_group_fails (bad : attribute_group) (e : Int) : KernelEnv :=
  { kzalloc_ok := fun _ => true, kobject_init_and_add := fun _ => 0,
    sysfs_create_group := fun _ g => if g = bad then e else 0 }

/-- A test double for the cache counters at the top of their range: `ch_ctr0`
reads event code 2 with count `2 ^ 48 - 1`, `ch_ctr1` reads event code 2 with
count 1, and every other register reads 0. -/
def hw_cache_full : Hardware :=
  fun _ r =>
    if r = Reg.ch_ctr0 then 2 * 2 ^ 60 + (2 ^ 48 - 1)
    else if r = Reg.ch_ctr1 then 2 * 2 ^ 60 + 1
    else 0

/-- Whether every state that `ops` passes through from `s`, `s` itself and the
final state included, has at most `INT_MAX` outstanding handles, the largest
number an `int` counter holds. -/
def OpenState.within_int (s : OpenState) : List FileOp → Bool
  | [] => decide (s.handles.length < 2147483648)
  | op :: ops => decide (s.handles.length < 2147483648) && (s.step op).within_int ops


/-! ## Theorems: open / close bookkeeping -/

theorem wrap_int_of_range (x : Int) (h1 : INT_MIN ≤ x) (h2 : x ≤ INT_MAX) :
    wrap_int x = x := by
  simp only [INT_MIN, INT_MAX, wrap_int] at h1 h2 ⊢
  omega

theorem wrap_int_succ (x : Int) : wrap_int (wrap_int x + 1) = wrap_int (x + 1) := by
  simp only [wrap_int]
  omega

theorem excl_begin_succeeds_state (s s1 : feature_platform_data) (t t1 : Trace)
    (h : feature_dev_use_excl_begin s t = (0, s1, t1)) :
    s1 = { excl_open := 1, open_count := 1 } := by
  unfold feature_dev_use_excl_begin at h
  by_cases h0 : s.open_count = 0
  · simp [h0, wrap_int] at h
    rw [← h.1]
  · simp [h0, EBUSY] at h

theorem fme_open_busy_when_exclusive (k : Bool) (t : Trace) :
    fme_open k { excl_open := 1, open_count := 1 } t
      = (-EBUSY, { excl_open := 1, open_count := 1 },
          t ++ [Event.mutex_lock, Event.mutex_unlock]) := by
  cases k <;>
    simp [fme_open, feature_dev_use_excl_begin, feature_dev_use_begin, mutex_lock,
      mutex_unlock, EBUSY]

theorem open_attempts_busy_when_exclusive (ks : List Bool) (t : Trace) :
    (open_attempts ks { excl_open := 1, open_count := 1 } t).1
        = List.replicate ks.length (-EBUSY) ∧
      (open_attempts ks { excl_open := 1, open_count := 1 } t).2.1
        = { excl_open := 1, open_count := 1 } := by
  induction ks generalizing t with
  | nil => simp [open_attempts]
  | cons k ks ih =>
    simp only [open_attempts, fme_open_busy_when_exclusive, List.length_cons,
      List.replicate_succ]
    exact ⟨by rw [(ih _).1], (ih _).2⟩

/-- C1. Once `feature_dev_use_excl_begin` has succeeded, every later open
attempt of either kind, however many are made, returns `-EBUSY` and leaves the
bookkeeping untouched; after the holder closes (through `fme_release`, i.e.
`__feature_dev_use_end`, or through `feature_dev_use_end`) an open of either
kind succeeds. -/
theorem exclusive_open_scenario (s s1 : feature_platform_data) (t t1 : Trace)
    (h : feature_dev_use_excl_begin s t = (0, s1, t1))
    (ks : List Bool) (k : Bool) (u : Trace) :
    (feature_dev_use_excl_begin s1 u).1 = -EBUSY ∧
    (feature_dev_use_begin s1 u).1 = -EBUSY ∧
    (open_attempts ks s1 t1).1 = List.replicate ks.length (-EBUSY) ∧
    (open_attempts ks s1 t1).2.1 = s1 ∧
    (fme_open k (fme_release (open_attempts ks s1 t1).2.1
        (open_attempts ks s1 t1).2.2).2.1 u).1 = 0 ∧
    (feature_dev_use_excl_begin (feature_dev_use_end (open_attempts ks s1 t1).2.1
        (open_attempts ks s1 t1).2.2).1 u).1 = 0 ∧
    (feature_dev_use_begin (feature_dev_use_end (open_attempts ks s1 t1).2.1
        (open_attempts ks s1 t1).2.2).1 u).1 = 0 ∧
    (feature_dev_use_excl_begin (__feature_dev_use_end s1) u).1 = 0 ∧
    (feature_dev_use_begin (__feature_dev_use_end s1) u).1 = 0 := by
  have hs := excl_begin_succeeds_state s s1 t t1 h
  subst hs
  have ha := open_attempts_busy_when_exclusive ks t1
  rw [ha.2]
  refine ⟨?_, ?_, ha.1, rfl, ?_, ?_, ?_, ?_, ?_⟩
  · simp [feature_dev_use_excl_begin, EBUSY]
  · simp [feature_dev_use_begin, EBUSY]
  · cases k <;>
      simp [fme_open, fme_release, feature_dev_use_excl_begin, feature_dev_use_begin,
        __feature_dev_use_end, wrap_int]
  · simp [feature_dev_use_end, feature_dev_use_excl_begin, __feature_dev_use_end, wrap_int]
  · simp [feature_dev_use_end, feature_dev_use_begin, __feature_dev_use_end]
  · simp [feature_dev_use_excl_begin, __feature_dev_use_end, wrap_int]
  · simp [feature_dev_use_begin, __feature_dev_use_end]

/-- Witness for C1: exclusive open on an idle device, three rejected attempts,
close, exclusive open again. -/
theorem exclusive_open_scenario_witness :
    feature_dev_use_excl_begin { excl_open := 0, open_count := 0 } []
        = (0, { excl_open := 1, open_count := 1 },
            [Event.mutex_lock, Event.mutex_unlock]) ∧
      (open_attempts [true, false, false] { excl_open := 1, open_count := 1 }
          [Event.mutex_lock, Event.mutex_unlock]).1 = [-EBUSY, -EBUSY, -EBUSY] ∧
      (fme_open true (fme_release { excl_open := 1, open_count := 1 } []).2.1 []).1 = 0 :=
  have h : feature_dev_use_excl_begin { excl_open := 0, open_count := 0 } []
      = (0, { excl_open := 1, open_count := 1 },
          [Event.mutex_lock, Event.mutex_unlock]) := by decide
  ⟨h,
   (exclusive_open_scenario _ _ _ _ h [true, false, false] true []).2.2.1,
   by decide⟩

/-- C2 (amended). Admission rule of the two kinds of open, for every state.
The exclusive open succeeds exactly when `open_count` is zero and then sets
`excl_open = 1`, `open_count = 1`. The shared open succeeds exactly when
`excl_open` is zero; it keeps `excl_open` and leaves in `open_count` the `int`
value of `open_count + 1`, which is `open_count + 1` whenever `open_count` is
an `int` below `INT_MAX`. A rejected open returns `-EBUSY` and returns the
bookkeeping unchanged. -/
theorem open_admission_rule (pdata : feature_platform_data) (t : Trace) :
    ((feature_dev_use_excl_begin pdata t).1 = 0 ↔ pdata.open_count = 0) ∧
    ((feature_dev_use_excl_begin pdata t).1 = 0 →
      (feature_dev_use_excl_begin pdata t).2.1 = { excl_open := 1, open_count := 1 }) ∧
    ((feature_dev_use_excl_begin pdata t).1 ≠ 0 →
      (feature_dev_use_excl_begin pdata t).1 = -EBUSY ∧
      (feature_dev_use_excl_begin pdata t).2.1 = pdata) ∧
    ((feature_dev_use_begin pdata t).1 = 0 ↔ pdata.excl_open = 0) ∧
    ((feature_dev_use_begin pdata t).1 = 0 →
      (feature_dev_use_begin pdata t).2.1
        = { excl_open := pdata.excl_open, open_count := wrap_int (pdata.open_count + 1) }) ∧
    ((feature_dev_use_begin pdata t).1 = 0 →
      INT_MIN ≤ pdata.open_count → pdata.open_count < INT_MAX →
      (feature_dev_use_begin pdata t).2.1
        = { excl_open := pdata.excl_open, open_count := pdata.open_count + 1 }) ∧
    ((feature_dev_use_begin pdata t).1 ≠ 0 →
      (feature_dev_use_begin pdata t).1 = -EBUSY ∧
      (feature_dev_use_begin pdata t).2.1 = pdata) := by
  refine ⟨?_, ?_, ?_, ?_, ?_, ?_, ?_⟩
  · by_cases h0 : pdata.open_count = 0 <;> simp [feature_dev_use_excl_begin, h0, EBUSY]
  · by_cases h0 : pdata.open_count = 0 <;>
      simp [feature_dev_use_excl_begin, h0, EBUSY, wrap_int]
  · by_cases h0 : pdata.open_count = 0 <;> simp [feature_dev_use_excl_begin, h0, EBUSY]
  · by_cases h0 : pdata.excl_open = 0 <;> simp [feature_dev_use_begin, h0, EBUSY]
  · by_cases h0 : pdata.excl_open = 0 <;> simp [feature_dev_use_begin, h0, EBUSY]
  · intro hs h1 h2
    have hw := wrap_int_of_range (pdata.open_count + 1)
      (by simp only [INT_MIN] at h1 ⊢; omega) (by simp only [INT_MAX] at h2 ⊢; omega)
    by_cases h0 : pdata.excl_open = 0
    · simp [feature_dev_use_begin, h0, hw]
    · simp [feature_dev_use_begin, h0, EBUSY] at hs
  · by_cases h0 : pdata.excl_open = 0 <;> simp [feature_dev_use_begin, h0, EBUSY]

/-- Witness for C2: a third shared open of a device that two shared handles
hold open. -/
theorem open_admission_rule_witness :
    (feature_dev_use_begin { excl_open := 0, open_count := 2 } []).2.1
      = { excl_open := 0, open_count := 3 } :=
  (open_admission_rule { excl_open := 0, open_count := 2 } []).2.2.2.2.2.1
    (by decide) (by decide) (by decide)

/-- C2 as stated fails at `open_count = INT_MAX`: the shared open succeeds, and
the count it leaves is `INT_MIN`, not `INT_MAX + 1`; the open count has not
been incremented by one. -/
theorem shared_open_wraps_at_int_max :
    feature_dev_use_begin { excl_open := 0, open_count := 2147483647 } []
      = (0, { excl_open := 0, open_count := -2147483648 },
          [Event.mutex_lock, Event.mutex_unlock]) ∧
    (feature_dev_use_begin { excl_open := 0, open_count := 2147483647 } []).2.1.open_count
      ≠ 2147483647 + 1 := by
  decide

theorem and_mask_mod_u64 (c m : Nat) (hm : m < 2 ^ 64) : (c &&& m) % U64_MOD = c &&& m :=
  Nat.mod_eq_of_lt (lt_of_le_of_lt Nat.and_le_right (by simpa [U64_MOD] using hm))

theorem mod_u64_of_lt (m : Nat) (hm : m < 2 ^ 64) : m % U64_MOD = m :=
  Nat.mod_eq_of_lt (by simpa [U64_MOD] using hm)

theorem and_low60 (c : Nat) : c &&& ((1 <<< 60) - 1) = c % 2 ^ 60 := by
  have h := Nat.and_pow_two_sub_one_eq_mod c 60
  have e : (1 <<< 60) - 1 = 2 ^ 60 - 1 := by decide
  rw [e]
  exact h

theorem ssize_t_of_neg_EBUSY : ssize_t_of (size_t_of_int (-EBUSY)) = -EBUSY := by
  decide

theorem ssize_t_of_small (count : Nat) (h : count < 2 ^ 63) : ssize_t_of count = count := by
  have h1 : count % 2 ^ 64 = count := Nat.mod_eq_of_lt (by omega)
  unfold ssize_t_of
  rw [h1, if_pos h]

theorem w1c_after_and_low (c k : Nat) (i : Nat) :
    (w1c_after c (c &&& (2 ^ k - 1))).testBit i = (c.testBit i && decide (k ≤ i)) := by
  unfold w1c_after
  rw [Nat.testBit_xor, Nat.testBit_and, Nat.testBit_and, Nat.testBit_two_pow_sub_one]
  by_cases h : i < k
  · have h' : ¬ k ≤ i := by omega
    cases hc : c.testBit i <;> simp [h, h']
  · have h' : k ≤ i := by omega
    cases hc : c.testBit i <;> simp [h, h']

/-- C4. Compare-and-clear, matching snapshot. When the text parses to the value
`c` that the error register returns inside the critical section, `clear_store`
returns the byte count and its accesses are exactly: lock, allow-clearing mask,
read `c`, read first-error `f`, read next-error `n`, write `c & FME_ERROR0_MASK`
to the error register, write `f` and `n` back masked to their low 60 bits,
default mask, unlock; on a write-one-to-clear register that store leaves `c`
with bits 0..7 cleared. `pcie0_errors_store`, `pcie1_errors_store` and
`warning_errors_store` do the same with their own masks (bits 0..7, 0..7 and
bit 0) and never access the first/next registers. -/
theorem compare_and_clear_success (hw : Hardware) (kstrtou64 : String → Option Nat)
    (buf : String) (count : Nat) (t : Trace) :
    (let t1 := t ++ [Event.mutex_lock, Event.writeq FME_ERROR0_MASK Reg.fme_err_mask]
     let c := hw t1 Reg.fme_err % U64_MOD
     let t2 := t1 ++ [Event.readq Reg.fme_err c]
     let f := hw t2 Reg.fme_first_err % U64_MOD
     let t3 := t2 ++ [Event.readq Reg.fme_first_err f]
     let n := hw t3 Reg.fme_next_err % U64_MOD
     kstrtou64 buf = some c →
       clear_store hw kstrtou64 buf count t
         = (ssize_t_of count,
            t3 ++ [Event.readq Reg.fme_next_err n,
                   Event.writeq (c &&& FME_ERROR0_MASK) Reg.fme_err,
                   Event.writeq (f % 2 ^ 60) Reg.fme_first_err,
                   Event.writeq (n % 2 ^ 60) Reg.fme_next_err,
                   Event.writeq FME_ERROR0_MASK_DEFAULT Reg.fme_err_mask,
                   Event.mutex_unlock]) ∧
       ∀ i, (w1c_after c (c &&& FME_ERROR0_MASK)).testBit i
              = (c.testBit i && decide (8 ≤ i))) ∧
    (let t1 := t ++ [Event.mutex_lock, Event.writeq FME_PCIE0_ERROR_MASK Reg.pcie0_err_mask]
     let c := hw t1 Reg.pcie0_err % U64_MOD
     kstrtou64 buf = some c →
       pcie0_errors_store hw kstrtou64 buf count t
         = (ssize_t_of count,
            t1 ++ [Event.readq Reg.pcie0_err c,
                   Event.writeq (c &&& FME_PCIE0_ERROR_MASK) Reg.pcie0_err,
                   Event.writeq 0 Reg.pcie0_err_mask,
                   Event.mutex_unlock]) ∧
       ∀ i, (w1c_after c (c &&& FME_PCIE0_ERROR_MASK)).testBit i
              = (c.testBit i && decide (8 ≤ i))) ∧
    (let t1 := t ++ [Event.mutex_lock, Event.writeq FME_PCIE1_ERROR_MASK Reg.pcie1_err_mask]
     let c := hw t1 Reg.pcie1_err % U64_MOD
     kstrtou64 buf = some c →
       pcie1_errors_store hw kstrtou64 buf count t
         = (ssize_t_of count,
            t1 ++ [Event.readq Reg.pcie1_err c,
                   Event.writeq (c &&& FME_PCIE1_ERROR_MASK) Reg.pcie1_err,
                   Event.writeq 0 Reg.pcie1_err_mask,
                   Event.mutex_unlock]) ∧
       ∀ i, (w1c_after c (c &&& FME_PCIE1_ERROR_MASK)).testBit i
              = (c.testBit i && decide (8 ≤ i))) ∧
    (let t1 := t ++ [Event.mutex_lock, Event.writeq FME_RAS_WERROR_MASK Reg.ras_werr_mask]
     let c := hw t1 Reg.ras_werr % U64_MOD
     kstrtou64 buf = some c →
       warning_errors_store hw kstrtou64 buf count t
         = (ssize_t_of count,
            t1 ++ [Event.readq Reg.ras_werr c,
                   Event.writeq (c &&& FME_RAS_WERROR_MASK) Reg.ras_werr,
                   Event.writeq 0 Reg.ras_werr_mask,
                   Event.mutex_unlock]) ∧
       ∀ i, (w1c_after c (c &&& FME_RAS_WERROR_MASK)).testBit i
              = (c.testBit i && decide (1 ≤ i))) ∧
    (count < 2 ^ 63 → ssize_t_of count = count) := by
  refine ⟨?_, ?_, ?_, ?_, ssize_t_of_small count⟩
  · intro t1 c t2 f t3 n h
    refine ⟨?_, fun i => w1c_after_and_low c 8 i⟩
    have e1 : (c &&& FME_ERROR0_MASK) % U64_MOD = c &&& FME_ERROR0_MASK :=
      and_mask_mod_u64 c _ (by decide)
    have e2 : (f &&& FME_FIRST_ERROR_MASK) % U64_MOD = f % 2 ^ 60 := by
      rw [and_mask_mod_u64 f _ (by decide)]; exact and_low60 f
    have e3 : (n &&& FME_NEXT_ERROR_MASK) % U64_MOD = n % 2 ^ 60 := by
      rw [and_mask_mod_u64 n _ (by decide)]; exact and_low60 n
    have e4 : FME_ERROR0_MASK % U64_MOD = FME_ERROR0_MASK := by decide
    have e5 : FME_ERROR0_MASK_DEFAULT % U64_MOD = FME_ERROR0_MASK_DEFAULT := by decide
    simp only [clear_store, h, readq, writeq, mutex_lock, mutex_unlock, e4, e5,
      List.append_assoc, List.singleton_append, List.cons_append, List.nil_append]
    simp only [t1, c, t2, f, t3, n, List.append_assoc, List.singleton_append,
      List.cons_append, List.nil_append] at e1 e2 e3 ⊢
    simp only [ne_eq, not_true_eq_false, if_false, e1, e2, e3]
  · intro t1 c h
    refine ⟨?_, fun i => w1c_after_and_low c 8 i⟩
    have e1 : (c &&& FME_PCIE0_ERROR_MASK) % U64_MOD = c &&& FME_PCIE0_ERROR_MASK :=
      and_mask_mod_u64 c _ (by decide)
    have e4 : FME_PCIE0_ERROR_MASK % U64_MOD = FME_PCIE0_ERROR_MASK := by decide
    have e5 : 0 % U64_MOD = 0 := by decide
    simp only [pcie0_errors_store, h, readq, writeq, mutex_lock, mutex_unlock, e4, e5,
      List.append_assoc, List.singleton_append, List.cons_append, List.nil_append]
    simp only [t1, c, List.append_assoc, List.singleton_append,
      List.cons_append, List.nil_append] at e1 ⊢
    simp only [ne_eq, not_true_eq_false, if_false, e1, List.append_assoc,
      List.singleton_append, List.cons_append, List.nil_append]
  · intro t1 c h
    refine ⟨?_, fun i => w1c_after_and_low c 8 i⟩
    have e1 : (c &&& FME_PCIE1_ERROR_MASK) % U64_MOD = c &&& FME_PCIE1_ERROR_MASK :=
      and_mask_mod_u64 c _ (by decide)
    have e4 : FME_PCIE1_ERROR_MASK % U64_MOD = FME_PCIE1_ERROR_MASK := by decide
    have e5 : 0 % U64_MOD = 0 := by decide
    simp only [pcie1_errors_store, h, readq, writeq, mutex_lock, mutex_unlock, e4, e5,
      List.append_assoc, List.singleton_append, List.cons_append, List.nil_append]
    simp only [t1, c, List.append_assoc, List.singleton_append,
      List.cons_append, List.nil_append] at e1 ⊢
    simp only [ne_eq, not_true_eq_false, if_false, e1, List.append_assoc,
      List.singleton_append, List.cons_append, List.nil_append]
  · intro t1 c h
    refine ⟨?_, fun i => w1c_after_and_low c 1 i⟩
    have e1 : (c &&& FME_RAS_WERROR_MASK) % U64_MOD = c &&& FME_RAS_WERROR_MASK :=
      and_mask_mod_u64 c _ (by decide)
    have e4 : FME_RAS_WERROR_MASK % U64_MOD = FME_RAS_WERROR_MASK := by decide
    have e5 : 0 % U64_MOD = 0 := by decide
    simp only [warning_errors_store, h, readq, writeq, mutex_lock, mutex_unlock, e4, e5,
      List.append_assoc, List.singleton_append, List.cons_append, List.nil_append]
    simp only [t1, c, List.append_assoc, List.singleton_append,
      List.cons_append, List.nil_append] at e1 ⊢
    simp only [ne_eq, not_true_eq_false, if_false, e1, List.append_assoc,
      List.singleton_append, List.cons_append, List.nil_append]

/-- Witness for C4: the error register reads `0x41` and the text parses to
`0x41`. -/
theorem compare_and_clear_success_witness :
    clear_store (fun _ _ => 0x41) (fun _ => some 0x41) "0x41" 5 []
      = (5, [Event.mutex_lock, Event.writeq 0xFF Reg.fme_err_mask,
             Event.readq Reg.fme_err 0x41, Event.readq Reg.fme_first_err 0x41,
             Event.readq Reg.fme_next_err 0x41, Event.writeq 0x41 Reg.fme_err,
             Event.writeq 0x41 Reg.fme_first_err, Event.writeq 0x41 Reg.fme_next_err,
             Event.writeq 0x40 Reg.fme_err_mask, Event.mutex_unlock]) := by
  have h := ((compare_and_clear_success (fun _ _ => 0x41) (fun _ => some 0x41) "0x41" 5 []).1
    (by decide)).1
  rw [h]
  decide

/-- C5. Compare-and-clear, stale snapshot. When the text parses to a value `v`
different from the value `c` the error register returns inside the critical
section, each of `clear_store`, `pcie0_errors_store`, `pcie1_errors_store` and
`warning_errors_store` returns `-EBUSY`; its accesses are exactly: lock,
allow-clearing mask, the read of `c`, default mask, unlock; so nothing is
stored to the error register nor to the first-error or next-error register. -/
theorem compare_and_clear_conflict (hw : Hardware) (kstrtou64 : String → Option Nat)
    (buf : String) (count : Nat) (t : Trace) (v : Nat) (hv : kstrtou64 buf = some v) :
    (let t1 := t ++ [Event.mutex_lock, Event.writeq FME_ERROR0_MASK Reg.fme_err_mask]
     let c := hw t1 Reg.fme_err % U64_MOD
     v ≠ c →
       clear_store hw kstrtou64 buf count t
         = (-EBUSY, t1 ++ [Event.readq Reg.fme_err c,
                           Event.writeq FME_ERROR0_MASK_DEFAULT Reg.fme_err_mask,
                           Event.mutex_unlock]) ∧
       ∀ r, r = Reg.fme_err ∨ r = Reg.fme_first_err ∨ r = Reg.fme_next_err →
         writes_to r ((clear_store hw kstrtou64 buf count t).2.drop t.length) = []) ∧
    (let t1 := t ++ [Event.mutex_lock, Event.writeq FME_PCIE0_ERROR_MASK Reg.pcie0_err_mask]
     let c := hw t1 Reg.pcie0_err % U64_MOD
     v ≠ c →
       pcie0_errors_store hw kstrtou64 buf count t
         = (-EBUSY, t1 ++ [Event.readq Reg.pcie0_err c,
                           Event.writeq 0 Reg.pcie0_err_mask,
                           Event.mutex_unlock]) ∧
       ∀ r, r = Reg.pcie0_err ∨ r = Reg.fme_first_err ∨ r = Reg.fme_next_err →
         writes_to r ((pcie0_errors_store hw kstrtou64 buf count t).2.drop t.length) = []) ∧
    (let t1 := t ++ [Event.mutex_lock, Event.writeq FME_PCIE1_ERROR_MASK Reg.pcie1_err_mask]
     let c := hw t1 Reg.pcie1_err % U64_MOD
     v ≠ c →
       pcie1_errors_store hw kstrtou64 buf count t
         = (-EBUSY, t1 ++ [Event.readq Reg.pcie1_err c,
                           Event.writeq 0 Reg.pcie1_err_mask,
                           Event.mutex_unlock]) ∧
       ∀ r, r = Reg.pcie1_err ∨ r = Reg.fme_first_err ∨ r = Reg.fme_next_err →
         writes_to r ((pcie1_errors_store hw kstrtou64 buf count t).2.drop t.length) = []) ∧
    (let t1 := t ++ [Event.mutex_lock, Event.writeq FME_RAS_WERROR_MASK Reg.ras_werr_mask]
     let c := hw t1 Reg.ras_werr % U64_MOD
     v ≠ c →
       warning_errors_store hw kstrtou64 buf count t
         = (-EBUSY, t1 ++ [Event.readq Reg.ras_werr c,
                           Event.writeq 0 Reg.ras_werr_mask,
                           Event.mutex_unlock]) ∧
       ∀ r, r = Reg.ras_werr ∨ r = Reg.fme_first_err ∨ r = Reg.fme_next_err →
         writes_to r ((warning_errors_store hw kstrtou64 buf count t).2.drop t.length)
           = []) := by
  have e5 : FME_ERROR0_MASK_DEFAULT % U64_MOD = FME_ERROR0_MASK_DEFAULT := by decide
  have e6 : 0 % U64_MOD = 0 := by decide
  refine ⟨?_, ?_, ?_, ?_⟩
  · intro t1 c h
    have e4 : FME_ERROR0_MASK % U64_MOD = FME_ERROR0_MASK := by decide
    have key : clear_store hw kstrtou64 buf count t
         = (-EBUSY, t1 ++ [Event.readq Reg.fme_err c,
                           Event.writeq FME_ERROR0_MASK_DEFAULT Reg.fme_err_mask,
                           Event.mutex_unlock]) := by
      simp only [clear_store, hv, readq, writeq, mutex_lock, mutex_unlock, e4, e5,
        List.append_assoc, List.singleton_append, List.cons_append, List.nil_append]
      simp only [t1, c] at h ⊢
      simp only [ne_eq, h, not_false_eq_true, if_true, ssize_t_of_neg_EBUSY,
        List.append_assoc, List.singleton_append, List.cons_append, List.nil_append]
    refine ⟨key, ?_⟩
    rw [key]
    rintro r (rfl | rfl | rfl) <;> simp [t1, writes_to]
  · intro t1 c h
    have e4 : FME_PCIE0_ERROR_MASK % U64_MOD = FME_PCIE0_ERROR_MASK := by decide
    have key : pcie0_errors_store hw kstrtou64 buf count t
         = (-EBUSY, t1 ++ [Event.readq Reg.pcie0_err c,
                           Event.writeq 0 Reg.pcie0_err_mask,
                           Event.mutex_unlock]) := by
      simp only [pcie0_errors_store, hv, readq, writeq, mutex_lock, mutex_unlock, e4, e6,
        List.append_assoc, List.singleton_append, List.cons_append, List.nil_append]
      simp only [t1, c] at h ⊢
      simp only [ne_eq, h, not_false_eq_true, if_true, ssize_t_of_neg_EBUSY,
        List.append_assoc, List.singleton_append, List.cons_append, List.nil_append]
    refine ⟨key, ?_⟩
    rw [key]
    rintro r (rfl | rfl | rfl) <;> simp [t1, writes_to]
  · intro t1 c h
    have e4 : FME_PCIE1_ERROR_MASK % U64_MOD = FME_PCIE1_ERROR_MASK := by decide
    have key : pcie1_errors_store hw kstrtou64 buf count t
         = (-EBUSY, t1 ++ [Event.readq Reg.pcie1_err c,
                           Event.writeq 0 Reg.pcie1_err_mask,
                           Event.mutex_unlock]) := by
      simp only [pcie1_errors_store, hv, readq, writeq, mutex_lock, mutex_unlock, e4, e6,
        List.append_assoc, List.singleton_append, List.cons_append, List.nil_append]
      simp only [t1, c] at h ⊢
      simp only [ne_eq, h, not_false_eq_true, if_true, ssize_t_of_neg_EBUSY,
        List.append_assoc, List.singleton_append, List.cons_append, List.nil_append]
    refine ⟨key, ?_⟩
    rw [key]
    rintro r (rfl | rfl | rfl) <;> simp [t1, writes_to]
  · intro t1 c h
    have e4 : FME_RAS_WERROR_MASK % U64_MOD = FME_RAS_WERROR_MASK := by decide
    have key : warning_errors_store hw kstrtou64 buf count t
         = (-EBUSY, t1 ++ [Event.readq Reg.ras_werr c,
                           Event.writeq 0 Reg.ras_werr_mask,
                           Event.mutex_unlock]) := by
      simp only [warning_errors_store, hv, readq, writeq, mutex_lock, mutex_unlock, e4, e6,
        List.append_assoc, List.singleton_append, List.cons_append, List.nil_append]
      simp only [t1, c] at h ⊢
      simp only [ne_eq, h, not_false_eq_true, if_true, ssize_t_of_neg_EBUSY,
        List.append_assoc, List.singleton_append, List.cons_append, List.nil_append]
    refine ⟨key, ?_⟩
    rw [key]
    rintro r (rfl | rfl | rfl) <;> simp [t1, writes_to]

/-- Witness for C5: the error register reads `0x41` but the text parses to
`0x1`. -/
theorem compare_and_clear_conflict_witness :
    clear_store (fun _ _ => 0x41) (fun _ => some 0x1) "0x1" 3 []
      = (-EBUSY, [Event.mutex_lock, Event.writeq 0xFF Reg.fme_err_mask,
                  Event.readq Reg.fme_err 0x41, Event.writeq 0x40 Reg.fme_err_mask,
                  Event.mutex_unlock]) := by
  have h := ((compare_and_clear_conflict (fun _ _ => 0x41) (fun _ => some 0x1) "0x1" 3 []
    0x1 rfl).1 (by decide)).1
  rw [h]
  decide

/-! ## Theorems: the poll loop of the counter multiplexer -/

theorem reads_of_append (r : Reg) (t u : Trace) :
    reads_of r (t ++ u) = reads_of r t ++ reads_of r u := by
  simp [reads_of, List.filterMap_append]

theorem writes_to_append (r : Reg) (t u : Trace) :
    writes_to r (t ++ u) = writes_to r t ++ writes_to r u := by
  simp [writes_to, List.filterMap_append]

theorem all_writes_append (t u : Trace) :
    all_writes (t ++ u) = all_writes t ++ all_writes u := by
  simp [all_writes, List.filterMap_append]

theorem poll_history_succ (hw : Hardware) (r : Reg) (k : Nat) (t : Trace) :
    poll_history hw r (k + 1) t
      = poll_history hw r k (t ++ [Event.readq r (hw t r % U64_MOD), Event.udelay 1]) := by
  simp [poll_history, readq, udelay]

/-- The loop runs to the timeout when none of the polls it makes matches. -/
theorem wait_loop_timeout (hw : Hardware) (field : BitField) (expect : Nat) (reg : Reg)
    (T : Nat) :
    ∀ (n fuel w : Nat) (t : Trace), w + n = T + 1 → n < fuel →
      (∀ k < n, field.get expect
          ≠ field.get (hw (poll_history hw reg k t) reg % U64_MOD)) →
      fpga_wait_register_field_loop hw field expect reg T 1 fuel w t
        = some (-ETIMEDOUT, poll_history hw reg n t) := by
  intro n
  induction n with
  | zero =>
    intro fuel w t hw1 hf _
    obtain ⟨fuel', rfl⟩ : ∃ f, fuel = f + 1 := ⟨fuel - 1, by omega⟩
    have : ¬ w ≤ T := by omega
    simp [fpga_wait_register_field_loop, this, poll_history]
  | succ n ih =>
    intro fuel w t hw1 hf hk
    obtain ⟨fuel', rfl⟩ : ∃ f, fuel = f + 1 := ⟨fuel - 1, by omega⟩
    have hle : w ≤ T := by omega
    have h0 := hk 0 (by omega)
    simp only [poll_history] at h0
    rw [poll_history_succ]
    have hrec := ih fuel' (w + 1) (t ++ [Event.readq reg (hw t reg % U64_MOD), Event.udelay 1])
      (by omega) (by omega)
      (fun k hkn => by
        have := hk (k + 1) (by omega)
        rwa [poll_history_succ] at this)
    simp only [fpga_wait_register_field_loop, hle, if_true, readq, udelay, h0, if_false,
      List.append_assoc, List.singleton_append]
    simpa using hrec

/-- The loop ends with a match when the register shows the expected field from
its `(j+1)`-th load on (counted from entry to the loop); it has then loaded the
register at most `j + 1` times and stored nothing. -/
theorem wait_loop_success (hw : Hardware) (field : BitField) (expect : Nat) (reg : Reg)
    (T : Nat) :
    ∀ (j fuel w : Nat) (t : Trace), w + j ≤ T → j < fuel →
      (∀ t', (reads_of reg t).length + j ≤ (reads_of reg t').length →
          field.get expect = field.get (hw t' reg % U64_MOD)) →
      ∃ ext, fpga_wait_register_field_loop hw field expect reg T 1 fuel w t
          = some (0, t ++ ext) ∧
        1 ≤ (reads_of reg ext).length ∧ (reads_of reg ext).length ≤ j + 1 ∧
        all_writes ext = [] := by
  intro j
  induction j with
  | zero =>
    intro fuel w t hw1 hf hk
    obtain ⟨fuel', rfl⟩ : ∃ f, fuel = f + 1 := ⟨fuel - 1, by omega⟩
    have hle : w ≤ T := by omega
    have h0 := hk t (by omega)
    refine ⟨[Event.readq reg (hw t reg % U64_MOD)], ?_, ?_, ?_, ?_⟩
    · simp [fpga_wait_register_field_loop, hle, readq, h0]
    · simp [reads_of]
    · simp [reads_of]
    · simp [all_writes]
  | succ j ih =>
    intro fuel w t hw1 hf hk
    obtain ⟨fuel', rfl⟩ : ∃ f, fuel = f + 1 := ⟨fuel - 1, by omega⟩
    have hle : w ≤ T := by omega
    by_cases h0 : field.get expect = field.get (hw t reg % U64_MOD)
    · refine ⟨[Event.readq reg (hw t reg % U64_MOD)], ?_, ?_, ?_, ?_⟩
      · simp [fpga_wait_register_field_loop, hle, readq, h0]
      · simp [reads_of]
      · simp [reads_of]
      · simp [all_writes]
    · obtain ⟨ext, he, h1, h2, h3⟩ := ih fuel' (w + 1)
        (t ++ [Event.readq reg (hw t reg % U64_MOD), Event.udelay 1])
        (by omega) (by omega)
        (fun t' ht' => hk t' (by
          have : (reads_of reg (t ++ [Event.readq reg (hw t reg % U64_MOD), Event.udelay 1])).length
              = (reads_of reg t).length + 1 := by
            simp [reads_of, List.filterMap_append]
          omega))
      refine ⟨[Event.readq reg (hw t reg % U64_MOD), Event.udelay 1] ++ ext, ?_, ?_, ?_, ?_⟩
      · simp only [fpga_wait_register_field_loop, hle, if_true, readq, udelay, h0, if_false,
          List.append_assoc, List.singleton_append]
        simpa using he
      · rw [reads_of_append]; simp; omega
      · rw [reads_of_append]
        have : (reads_of reg [Event.readq reg (hw t reg % U64_MOD), Event.udelay 1]).length = 1 := by
          simp [reads_of]
        simp only [List.length_append, this]
        omega
      · rw [all_writes_append, h3]; simp [all_writes]

/-! ## Theorems: the three counter reads -/

theorem read_cache_counter_eq (fuel : Nat) (hw : Hardware) (channel event : Nat) (t : Trace) :
    read_cache_counter fuel hw channel event t
      = match fpga_wait_register_field_loop hw ch_ctr_event_code (ch_ctr_event_code.set 0 event)
            Reg.ch_ctr0 GPERF_TIMEOUT 1 fuel 0 (cache_select_history hw channel event t) with
        | none => none
        | some (ret, tw) =>
          if ret ≠ 0 then
            some { ret := -ETIMEDOUT, buf := none, trace := tw ++ [Event.mutex_unlock] }
          else
            some (show_0x_llx
              ((ch_ctr_cache_counter.get (hw tw Reg.ch_ctr0 % U64_MOD)
                + ch_ctr_cache_counter.get
                    (hw (tw ++ [Event.readq Reg.ch_ctr0 (hw tw Reg.ch_ctr0 % U64_MOD)])
                      Reg.ch_ctr1 % U64_MOD)) % 2 ^ 48)
              (tw ++ [Event.readq Reg.ch_ctr0 (hw tw Reg.ch_ctr0 % U64_MOD),
                      Event.readq Reg.ch_ctr1
                        (hw (tw ++ [Event.readq Reg.ch_ctr0 (hw tw Reg.ch_ctr0 % U64_MOD)])
                          Reg.ch_ctr1 % U64_MOD),
                      Event.mutex_unlock])) := by
  simp only [read_cache_counter, fpga_wait_register_field, cache_select_history, mutex_lock,
    mutex_unlock, readq, writeq, List.append_assoc, List.singleton_append, List.cons_append,
    List.nil_append]

theorem read_iommu_counter_eq (fuel : Nat) (hw : Hardware) (pobj_id : Int) (base_event : Nat)
    (t : Trace) :
    read_iommu_counter fuel hw pobj_id base_event t
      = match fpga_wait_register_field_loop hw vtd_ctr_event_code
            (vtd_ctr_event_code.set 0 (vtd_event base_event pobj_id))
            Reg.vtd_ctr GPERF_TIMEOUT 1 fuel 0
            (iommu_select_history hw (vtd_event base_event pobj_id) t) with
        | none => none
        | some (ret, tw) =>
          if ret ≠ 0 then
            some { ret := -ETIMEDOUT, buf := none, trace := tw ++ [Event.mutex_unlock] }
          else
            some (show_0x_llx (vtd_ctr_vtd_counter.get (hw tw Reg.vtd_ctr % U64_MOD))
              (tw ++ [Event.readq Reg.vtd_ctr (hw tw Reg.vtd_ctr % U64_MOD),
                      Event.mutex_unlock])) := by
  simp only [read_iommu_counter, fpga_wait_register_field, iommu_select_history, mutex_lock,
    mutex_unlock, readq, writeq, List.append_assoc, List.singleton_append, List.cons_append,
    List.nil_append]

theorem fabric_pobj_is_enabled_trace (hw : Hardware) (pobj_id : Int) (t : Trace) :
    (fabric_pobj_is_enabled hw pobj_id t).2
      = t ++ [Event.readq Reg.fab_ctl (hw t Reg.fab_ctl % U64_MOD)] := by
  simp only [fabric_pobj_is_enabled, readq]
  split <;> rfl

theorem read_fabric_counter_eq (fuel : Nat) (hw : Hardware) (pobj_id : Int) (fab_event : Nat)
    (t : Trace) (hen : (fabric_pobj_is_enabled hw pobj_id (t ++ [Event.mutex_lock])).1 = true) :
    read_fabric_counter fuel hw pobj_id fab_event t
      = match fpga_wait_register_field_loop hw fab_ctr_event_code
            (fab_ctr_event_code.set 0 fab_event)
            Reg.fab_ctr GPERF_TIMEOUT 1 fuel 0 (fabric_select_history hw fab_event t) with
        | none => none
        | some (ret, tw) =>
          if ret ≠ 0 then
            some { ret := -ETIMEDOUT, buf := none, trace := tw ++ [Event.mutex_unlock] }
          else
            some (show_0x_llx (fab_ctr_fab_cnt.get (hw tw Reg.fab_ctr % U64_MOD))
              (tw ++ [Event.readq Reg.fab_ctr (hw tw Reg.fab_ctr % U64_MOD),
                      Event.mutex_unlock])) := by
  have h2 : (fabric_pobj_is_enabled hw pobj_id (t ++ [Event.mutex_lock])).2
      = t ++ [Event.mutex_lock,
              Event.readq Reg.fab_ctl (hw (t ++ [Event.mutex_lock]) Reg.fab_ctl % U64_MOD)] := by
    rw [fabric_pobj_is_enabled_trace]; simp
  simp only [read_fabric_counter, mutex_lock, hen, h2, Bool.not_true, Bool.false_eq_true,
    if_false, fpga_wait_register_field, fabric_select_history,
    mutex_unlock, readq, writeq, List.append_assoc, List.singleton_append, List.cons_append,
    List.nil_append]

theorem event_code_expect (ev : Nat) :
    ch_ctr_event_code.get (ch_ctr_event_code.set 0 ev) = ev % 16 ∧
    vtd_ctr_event_code.get (vtd_ctr_event_code.set 0 ev) = ev % 16 ∧
    fab_ctr_event_code.get (fab_ctr_event_code.set 0 ev) = ev % 16 := by
  simp only [BitField.get, BitField.set, ch_ctr_event_code, vtd_ctr_event_code, fab_ctr_event_code]
  norm_num

theorem show_0x_llx_ret_pos (c : Nat) (t : Trace) : 0 < (show_0x_llx c t).ret := by
  simp only [show_0x_llx, fmt_0x_llx, String.length_append]
  have h1 : "0x".length = 2 := by decide
  have h2 : "\n".length = 1 := by decide
  rw [h1, h2]
  omega

theorem wait_success_from (hw : Hardware) (field : BitField) (expect : Nat) (reg : Reg)
    (T N fuel : Nat) (t pre : Trace) (hpre : reads_of reg pre = [])
    (hN1 : 1 ≤ N) (hN : N ≤ T + 1) (hfuel : N ≤ fuel)
    (H : ∀ t', (reads_of reg t).length + N ≤ (reads_of reg t').length + 1 →
      field.get expect = field.get (hw t' reg % U64_MOD)) :
    ∃ ext, fpga_wait_register_field_loop hw field expect reg T 1 fuel 0 (t ++ pre)
        = some (0, t ++ pre ++ ext) ∧
      1 ≤ (reads_of reg ext).length ∧ (reads_of reg ext).length ≤ N ∧
      all_writes ext = [] := by
  obtain ⟨ext, he, h1, h2, h3⟩ := wait_loop_success hw field expect reg T (N - 1) fuel 0
    (t ++ pre) (by omega) (by omega)
    (fun t' ht' => H t' (by
      rw [reads_of_append, hpre] at ht'
      simp only [List.append_nil] at ht'
      omega))
  exact ⟨ext, he, h1, by omega, h3⟩

theorem field_get_lt (f : BitField) (csr : Nat) : f.get csr < 2 ^ f.width :=
  Nat.mod_lt _ (by positivity)

theorem cache_counter_sum_lt (v0 v1 : Nat) :
    ch_ctr_cache_counter.get v0 + ch_ctr_cache_counter.get v1 < 2 ^ 49 := by
  have h0 := field_get_lt ch_ctr_cache_counter v0
  have h1 := field_get_lt ch_ctr_cache_counter v1
  simp only [ch_ctr_cache_counter] at h0 h1 ⊢
  omega

/-- C6 (amended). Counter-mux success within the poll budget. For every `N`
with `1 ≤ N ≤ GPERF_TIMEOUT + 1 = 31`: if the counter register shows the
requested event code in every load from its `N`-th on (loads counted from the
start of the read), then each of `read_cache_counter`, `read_iommu_counter` and
`read_fabric_counter` (on an enabled scope) succeeds: it returns the positive
length of the text it wrote, and the polled counter register was loaded at
most `N + 1` times during the read. The text of `read_iommu_counter` and of
`read_fabric_counter` is the counter field of the value the register returned
in the final load; the text of `read_cache_counter` is the sum of the counter
fields of the values `ch_ctr0` and `ch_ctr1` returned in the final loads
whenever that sum is below `2 ^ 48`. -/
theorem counter_mux_success_within_budget (fuel N : Nat) (hw : Hardware) (t : Trace)
    (hN1 : 1 ≤ N) (hN : N ≤ GPERF_TIMEOUT + 1) (hfuel : N ≤ fuel) :
    (∀ channel event : Nat,
      (∀ t', (reads_of Reg.ch_ctr0 t).length + N ≤ (reads_of Reg.ch_ctr0 t').length + 1 →
          ch_ctr_event_code.get (hw t' Reg.ch_ctr0 % U64_MOD) = event % 16) →
      ∃ tw v0 v1 c r,
        read_cache_counter fuel hw channel event t = some r ∧
        r = show_0x_llx c
              (tw ++ [Event.readq Reg.ch_ctr0 v0, Event.readq Reg.ch_ctr1 v1,
                      Event.mutex_unlock]) ∧
        v0 = hw tw Reg.ch_ctr0 % U64_MOD ∧
        v1 = hw (tw ++ [Event.readq Reg.ch_ctr0 v0]) Reg.ch_ctr1 % U64_MOD ∧
        (ch_ctr_cache_counter.get v0 + ch_ctr_cache_counter.get v1 < 2 ^ 48 →
          c = ch_ctr_cache_counter.get v0 + ch_ctr_cache_counter.get v1) ∧
        0 < r.ret ∧
        (reads_of Reg.ch_ctr0 r.trace).length ≤ (reads_of Reg.ch_ctr0 t).length + N + 1) ∧
    (∀ (pobj_id : Int) (base_event : Nat),
      (∀ t', (reads_of Reg.vtd_ctr t).length + N ≤ (reads_of Reg.vtd_ctr t').length + 1 →
          vtd_ctr_event_code.get (hw t' Reg.vtd_ctr % U64_MOD)
            = vtd_event base_event pobj_id % 16) →
      ∃ tw v r,
        read_iommu_counter fuel hw pobj_id base_event t = some r ∧
        r = show_0x_llx (vtd_ctr_vtd_counter.get v)
              (tw ++ [Event.readq Reg.vtd_ctr v, Event.mutex_unlock]) ∧
        v = hw tw Reg.vtd_ctr % U64_MOD ∧
        0 < r.ret ∧
        (reads_of Reg.vtd_ctr r.trace).length ≤ (reads_of Reg.vtd_ctr t).length + N + 1) ∧
    (∀ (pobj_id : Int) (fab_event : Nat),
      (fabric_pobj_is_enabled hw pobj_id (t ++ [Event.mutex_lock])).1 = true →
      (∀ t', (reads_of Reg.fab_ctr t).length + N ≤ (reads_of Reg.fab_ctr t').length + 1 →
          fab_ctr_event_code.get (hw t' Reg.fab_ctr % U64_MOD) = fab_event % 16) →
      ∃ tw v r,
        read_fabric_counter fuel hw pobj_id fab_event t = some r ∧
        r = show_0x_llx (fab_ctr_fab_cnt.get v)
              (tw ++ [Event.readq Reg.fab_ctr v, Event.mutex_unlock]) ∧
        v = hw tw Reg.fab_ctr % U64_MOD ∧
        0 < r.ret ∧
        (reads_of Reg.fab_ctr r.trace).length ≤ (reads_of Reg.fab_ctr t).length + N + 1) := by
  refine ⟨?_, ?_, ?_⟩
  · intro channel event H
    obtain ⟨ext, he, _, h2, _⟩ := wait_success_from hw ch_ctr_event_code
      (ch_ctr_event_code.set 0 event) Reg.ch_ctr0 GPERF_TIMEOUT N fuel t
      [Event.mutex_lock,
        Event.readq Reg.ch_ctl (hw (t ++ [Event.mutex_lock]) Reg.ch_ctl % U64_MOD),
        Event.writeq
          (ch_ctl_cache_event.set
            (ch_ctl_cci_chsel.set (hw (t ++ [Event.mutex_lock]) Reg.ch_ctl % U64_MOD) channel)
            event % U64_MOD)
          Reg.ch_ctl]
      (by simp [reads_of]) hN1 hN hfuel
      (fun t' ht' => by rw [(event_code_expect event).1]; exact (H t' ht').symm)
    have hsel : (reads_of Reg.ch_ctr0 (cache_select_history hw channel event t)).length
        = (reads_of Reg.ch_ctr0 t).length := by
      simp [cache_select_history, reads_of, List.filterMap_append]
    refine ⟨cache_select_history hw channel event t ++ ext, _, _, _, _, ?_, rfl, rfl, rfl,
      fun hlt => Nat.mod_eq_of_lt hlt, show_0x_llx_ret_pos _ _, ?_⟩
    · rw [read_cache_counter_eq]
      unfold cache_select_history
      rw [he]
      simp only [ne_eq, not_true_eq_false, if_false]
    · simp only [show_0x_llx, reads_of_append, List.length_append, hsel]
      simp [reads_of] at h2 ⊢
      omega
  · intro pobj_id base_event H
    obtain ⟨ext, he, _, h2, _⟩ := wait_success_from hw vtd_ctr_event_code
      (vtd_ctr_event_code.set 0 (vtd_event base_event pobj_id)) Reg.vtd_ctr GPERF_TIMEOUT N
      fuel t
      [Event.mutex_lock,
        Event.readq Reg.vtd_ctl (hw (t ++ [Event.mutex_lock]) Reg.vtd_ctl % U64_MOD),
        Event.writeq
          (vtd_ctl_vtd_evtcode.set (hw (t ++ [Event.mutex_lock]) Reg.vtd_ctl % U64_MOD)
            (vtd_event base_event pobj_id) % U64_MOD)
          Reg.vtd_ctl]
      (by simp [reads_of]) hN1 hN hfuel
      (fun t' ht' => by rw [(event_code_expect _).2.1]; exact (H t' ht').symm)
    have hsel : (reads_of Reg.vtd_ctr
        (iommu_select_history hw (vtd_event base_event pobj_id) t)).length
        = (reads_of Reg.vtd_ctr t).length := by
      simp [iommu_select_history, reads_of, List.filterMap_append]
    refine ⟨iommu_select_history hw (vtd_event base_event pobj_id) t ++ ext, _, _, ?_, rfl, rfl,
      show_0x_llx_ret_pos _ _, ?_⟩
    · rw [read_iommu_counter_eq]
      unfold iommu_select_history
      rw [he]
      simp only [ne_eq, not_true_eq_false, if_false]
    · simp only [show_0x_llx, reads_of_append, List.length_append, hsel]
      simp [reads_of] at h2 ⊢
      omega
  · intro pobj_id fab_event hen H
    obtain ⟨ext, he, _, h2, _⟩ := wait_success_from hw fab_ctr_event_code
      (fab_ctr_event_code.set 0 fab_event) Reg.fab_ctr GPERF_TIMEOUT N fuel t
      [Event.mutex_lock,
        Event.readq Reg.fab_ctl (hw (t ++ [Event.mutex_lock]) Reg.fab_ctl % U64_MOD),
        Event.readq Reg.fab_ctl
          (hw (t ++ [Event.mutex_lock,
            Event.readq Reg.fab_ctl (hw (t ++ [Event.mutex_lock]) Reg.fab_ctl % U64_MOD)])
            Reg.fab_ctl % U64_MOD),
        Event.writeq
          (fab_ctl_fab_evtcode.set
            (hw (t ++ [Event.mutex_lock,
              Event.readq Reg.fab_ctl (hw (t ++ [Event.mutex_lock]) Reg.fab_ctl % U64_MOD)])
              Reg.fab_ctl % U64_MOD)
            fab_event % U64_MOD)
          Reg.fab_ctl]
      (by simp [reads_of]) hN1 hN hfuel
      (fun t' ht' => by rw [(event_code_expect _).2.2]; exact (H t' ht').symm)
    have hsel : (reads_of Reg.fab_ctr (fabric_select_history hw fab_event t)).length
        = (reads_of Reg.fab_ctr t).length := by
      simp [fabric_select_history, reads_of, List.filterMap_append]
    have hsel2 : fabric_select_history hw fab_event t = t ++ [Event.mutex_lock,
        Event.readq Reg.fab_ctl (hw (t ++ [Event.mutex_lock]) Reg.fab_ctl % U64_MOD),
        Event.readq Reg.fab_ctl
          (hw (t ++ [Event.mutex_lock,
            Event.readq Reg.fab_ctl (hw (t ++ [Event.mutex_lock]) Reg.fab_ctl % U64_MOD)])
            Reg.fab_ctl % U64_MOD),
        Event.writeq
          (fab_ctl_fab_evtcode.set
            (hw (t ++ [Event.mutex_lock,
              Event.readq Reg.fab_ctl (hw (t ++ [Event.mutex_lock]) Reg.fab_ctl % U64_MOD)])
              Reg.fab_ctl % U64_MOD)
            fab_event % U64_MOD)
          Reg.fab_ctl] := by
      simp [fabric_select_history]
    refine ⟨fabric_select_history hw fab_event t ++ ext, _, _, ?_, rfl, rfl,
      show_0x_llx_ret_pos _ _, ?_⟩
    · rw [read_fabric_counter_eq _ _ _ _ _ hen, hsel2, he]
      simp only [ne_eq, not_true_eq_false, if_false]
    · simp only [show_0x_llx, reads_of_append, List.length_append, hsel]
      simp [reads_of] at h2 ⊢
      omega

theorem hw_echo_from_code (r : Reg) (n code other count : Nat) (t : Trace)
    (hc : code < 16) (hcount : count < 2 ^ 60)
    (hn : n ≤ (reads_of r t).length + 1) :
    (hw_echo_from r n code other count t r % U64_MOD) / 2 ^ 60 % 2 ^ 4 = code := by
  simp only [hw_echo_from, if_true, hn, U64_MOD]
  omega

/-- Witness for C6: the IOMMU counter register echoes event code 1 from its
third load on; translation unit 1 reads `VTD_AFU0_MEM_RD_TRANS + 1`. -/
theorem counter_mux_success_within_budget_witness :
    ∃ tw v r,
      read_iommu_counter 32 (hw_echo_from Reg.vtd_ctr 3 1 0 42) 1 0 [] = some r ∧
      r = show_0x_llx (vtd_ctr_vtd_counter.get v)
            (tw ++ [Event.readq Reg.vtd_ctr v, Event.mutex_unlock]) ∧
      v = hw_echo_from Reg.vtd_ctr 3 1 0 42 tw Reg.vtd_ctr % U64_MOD ∧
      0 < r.ret ∧
      (reads_of Reg.vtd_ctr r.trace).length ≤ (reads_of Reg.vtd_ctr []).length + 3 + 1 :=
  (counter_mux_success_within_budget 32 3 (hw_echo_from Reg.vtd_ctr 3 1 0 42) []
    (by decide) (by decide) (by decide)).2.1 1 0
    (fun t' ht' => by
      have h := hw_echo_from_code Reg.vtd_ctr 3 1 0 42 t' (by decide) (by decide)
        (by
        have e : (reads_of Reg.vtd_ctr ([] : Trace)).length = 0 := rfl
        rw [e] at ht'
        omega)
      simpa [BitField.get, vtd_ctr_event_code, vtd_event] using h)

/-- C6 as stated fails beyond the poll budget: a counter register that shows
the requested code from its 32nd load on satisfies the premise for `N = 32`,
yet `read_iommu_counter` gives up after 31 polls, returns `-ETIMEDOUT` and
writes no text. -/
theorem counter_mux_success_fails_beyond_budget :
    (∀ t', (reads_of Reg.vtd_ctr []).length + 32 ≤ (reads_of Reg.vtd_ctr t').length + 1 →
        vtd_ctr_event_code.get (hw_echo_from Reg.vtd_ctr 32 1 0 42 t' Reg.vtd_ctr % U64_MOD)
          = vtd_event 0 1 % 16) ∧
    (read_iommu_counter 64 (hw_echo_from Reg.vtd_ctr 32 1 0 42) 1 0 []).map
        (fun r => (r.ret, r.buf, (reads_of Reg.vtd_ctr r.trace).length))
      = some (-ETIMEDOUT, none, 31) := by
  constructor
  · intro t' ht'
    have h := hw_echo_from_code Reg.vtd_ctr 32 1 0 42 t' (by decide) (by decide)
      (by
        have e : (reads_of Reg.vtd_ctr ([] : Trace)).length = 0 := rfl
        rw [e] at ht'
        omega)
    simpa [BitField.get, vtd_ctr_event_code, vtd_event] using h
  · decide

theorem poll_history_counts (hw : Hardware) (r : Reg) :
    ∀ (k : Nat) (t : Trace),
      List.count Event.mutex_lock (poll_history hw r k t) = List.count Event.mutex_lock t ∧
      List.count Event.mutex_unlock (poll_history hw r k t)
        = List.count Event.mutex_unlock t ∧
      (reads_of r (poll_history hw r k t)).length = (reads_of r t).length + k ∧
      all_writes (poll_history hw r k t) = all_writes t := by
  intro k
  induction k with
  | zero => intro t; simp [poll_history]
  | succ k ih =>
    intro t
    rw [poll_history_succ]
    obtain ⟨h1, h2, h3, h4⟩ := ih (t ++ [Event.readq r (hw t r % U64_MOD), Event.udelay 1])
    refine ⟨?_, ?_, ?_, ?_⟩
    · rw [h1]; simp [List.count_append, List.count_cons]
    · rw [h2]; simp [List.count_append, List.count_cons]
    · rw [h3, reads_of_append]; simp [reads_of]; omega
    · rw [h4, all_writes_append]; simp [all_writes]

/-- C7. Counter-mux timeout. If none of the `GPERF_TIMEOUT + 1 = 31` polls of
the counter register shows the requested event code, each of
`read_cache_counter`, `read_iommu_counter` and `read_fabric_counter` (on an
enabled scope) returns `-ETIMEDOUT` and leaves the output buffer unwritten; its
history is the control-register select, the 31 polls, and the unlock as last
event, with exactly one lock and one unlock added. -/
theorem counter_mux_timeout (fuel : Nat) (hw : Hardware) (t : Trace)
    (hfuel : GPERF_TIMEOUT + 2 ≤ fuel) :
    (∀ channel event : Nat,
      (∀ k ≤ GPERF_TIMEOUT,
          ch_ctr_event_code.get
            (hw (poll_history hw Reg.ch_ctr0 k (cache_select_history hw channel event t))
              Reg.ch_ctr0 % U64_MOD) ≠ event % 16) →
      ∃ r, read_cache_counter fuel hw channel event t = some r ∧
        r.ret = -ETIMEDOUT ∧ r.buf = none ∧
        r.trace = poll_history hw Reg.ch_ctr0 (GPERF_TIMEOUT + 1)
                    (cache_select_history hw channel event t) ++ [Event.mutex_unlock] ∧
        List.count Event.mutex_lock r.trace = List.count Event.mutex_lock t + 1 ∧
        List.count Event.mutex_unlock r.trace = List.count Event.mutex_unlock t + 1 ∧
        (reads_of Reg.ch_ctr0 r.trace).length
          = (reads_of Reg.ch_ctr0 t).length + (GPERF_TIMEOUT + 1)) ∧
    (∀ (pobj_id : Int) (base_event : Nat),
      (∀ k ≤ GPERF_TIMEOUT,
          vtd_ctr_event_code.get
            (hw (poll_history hw Reg.vtd_ctr k
                  (iommu_select_history hw (vtd_event base_event pobj_id) t))
              Reg.vtd_ctr % U64_MOD) ≠ vtd_event base_event pobj_id % 16) →
      ∃ r, read_iommu_counter fuel hw pobj_id base_event t = some r ∧
        r.ret = -ETIMEDOUT ∧ r.buf = none ∧
        r.trace = poll_history hw Reg.vtd_ctr (GPERF_TIMEOUT + 1)
                    (iommu_select_history hw (vtd_event base_event pobj_id) t)
                  ++ [Event.mutex_unlock] ∧
        List.count Event.mutex_lock r.trace = List.count Event.mutex_lock t + 1 ∧
        List.count Event.mutex_unlock r.trace = List.count Event.mutex_unlock t + 1 ∧
        (reads_of Reg.vtd_ctr r.trace).length
          = (reads_of Reg.vtd_ctr t).length + (GPERF_TIMEOUT + 1)) ∧
    (∀ (pobj_id : Int) (fab_event : Nat),
      (fabric_pobj_is_enabled hw pobj_id (t ++ [Event.mutex_lock])).1 = true →
      (∀ k ≤ GPERF_TIMEOUT,
          fab_ctr_event_code.get
            (hw (poll_history hw Reg.fab_ctr k (fabric_select_history hw fab_event t))
              Reg.fab_ctr % U64_MOD) ≠ fab_event % 16) →
      ∃ r, read_fabric_counter fuel hw pobj_id fab_event t = some r ∧
        r.ret = -ETIMEDOUT ∧ r.buf = none ∧
        r.trace = poll_history hw Reg.fab_ctr (GPERF_TIMEOUT + 1)
                    (fabric_select_history hw fab_event t) ++ [Event.mutex_unlock] ∧
        List.count Event.mutex_lock r.trace = List.count Event.mutex_lock t + 1 ∧
        List.count Event.mutex_unlock r.trace = List.count Event.mutex_unlock t + 1 ∧
        (reads_of Reg.fab_ctr r.trace).length
          = (reads_of Reg.fab_ctr t).length + (GPERF_TIMEOUT + 1)) := by
  have hne : (-ETIMEDOUT : Int) ≠ 0 := by decide
  refine ⟨?_, ?_, ?_⟩
  · intro channel event H
    have hw1 := wait_loop_timeout hw ch_ctr_event_code (ch_ctr_event_code.set 0 event)
      Reg.ch_ctr0 GPERF_TIMEOUT (GPERF_TIMEOUT + 1) fuel 0
      (cache_select_history hw channel event t) (by omega) (by omega)
      (fun k hk => by
        rw [(event_code_expect event).1]
        exact fun h => H k (by omega) h.symm)
    obtain ⟨c1, c2, c3, _⟩ := poll_history_counts hw Reg.ch_ctr0 (GPERF_TIMEOUT + 1)
      (cache_select_history hw channel event t)
    have hres : read_cache_counter fuel hw channel event t
        = some { ret := -ETIMEDOUT, buf := none,
                 trace := poll_history hw Reg.ch_ctr0 (GPERF_TIMEOUT + 1) (cache_select_history hw channel event t)
                   ++ [Event.mutex_unlock] } := by
      rw [read_cache_counter_eq, hw1]
      simp only [hne, ne_eq, not_false_eq_true, if_true]
    refine ⟨_, hres, rfl, rfl, rfl, ?_, ?_, ?_⟩ <;>
      simp only [List.count_append, c1, c2, c3, reads_of_append, List.length_append]
    · simp [cache_select_history, List.count_append, List.count_cons]
    · simp [cache_select_history, List.count_append, List.count_cons]
    · simp [cache_select_history, reads_of, List.filterMap_append]
  · intro pobj_id base_event H
    have hw1 := wait_loop_timeout hw vtd_ctr_event_code (vtd_ctr_event_code.set 0 (vtd_event base_event pobj_id))
      Reg.vtd_ctr GPERF_TIMEOUT (GPERF_TIMEOUT + 1) fuel 0
      (iommu_select_history hw (vtd_event base_event pobj_id) t) (by omega) (by omega)
      (fun k hk => by
        rw [(event_code_expect (vtd_event base_event pobj_id)).2.1]
        exact fun h => H k (by omega) h.symm)
    obtain ⟨c1, c2, c3, _⟩ := poll_history_counts hw Reg.vtd_ctr (GPERF_TIMEOUT + 1)
      (iommu_select_history hw (vtd_event base_event pobj_id) t)
    have hres : read_iommu_counter fuel hw pobj_id base_event t
        = some { ret := -ETIMEDOUT, buf := none,
                 trace := poll_history hw Reg.vtd_ctr (GPERF_TIMEOUT + 1) (iommu_select_history hw (vtd_event base_event pobj_id) t)
                   ++ [Event.mutex_unlock] } := by
      rw [read_iommu_counter_eq, hw1]
      simp only [hne, ne_eq, not_false_eq_true, if_true]
    refine ⟨_, hres, rfl, rfl, rfl, ?_, ?_, ?_⟩ <;>
      simp only [List.count_append, c1, c2, c3, reads_of_append, List.length_append]
    · simp [iommu_select_history, List.count_append, List.count_cons]
    · simp [iommu_select_history, List.count_append, List.count_cons]
    · simp [iommu_select_history, reads_of, List.filterMap_append]
  · intro pobj_id fab_event hen H
    have hw1 := wait_loop_timeout hw fab_ctr_event_code (fab_ctr_event_code.set 0 fab_event)
      Reg.fab_ctr GPERF_TIMEOUT (GPERF_TIMEOUT + 1) fuel 0
      (fabric_select_history hw fab_event t) (by omega) (by omega)
      (fun k hk => by
        rw [(event_code_expect fab_event).2.2]
        exact fun h => H k (by omega) h.symm)
    obtain ⟨c1, c2, c3, _⟩ := poll_history_counts hw Reg.fab_ctr (GPERF_TIMEOUT + 1)
      (fabric_select_history hw fab_event t)
    have hres : read_fabric_counter fuel hw pobj_id fab_event t
        = some { ret := -ETIMEDOUT, buf := none,
                 trace := poll_history hw Reg.fab_ctr (GPERF_TIMEOUT + 1) (fabric_select_history hw fab_event t)
                   ++ [Event.mutex_unlock] } := by
      rw [read_fabric_counter_eq _ _ _ _ _ hen, hw1]
      simp only [hne, ne_eq, not_false_eq_true, if_true]
    refine ⟨_, hres, rfl, rfl, rfl, ?_, ?_, ?_⟩ <;>
      simp only [List.count_append, c1, c2, c3, reads_of_append, List.length_append]
    · simp [fabric_select_history, List.count_append, List.count_cons]
    · simp [fabric_select_history, List.count_append, List.count_cons]
    · simp [fabric_select_history, reads_of, List.filterMap_append]

/-- Witness for C7: every register reads 0, so the cache counter register
never shows event code 2. -/
theorem counter_mux_timeout_witness :
    ∃ r, read_cache_counter 32 (fun _ _ => 0) CACHE_CHANNEL_RD 2 [] = some r ∧
      r.ret = -ETIMEDOUT ∧ r.buf = none ∧
      r.trace = poll_history (fun _ _ => 0) Reg.ch_ctr0 (GPERF_TIMEOUT + 1)
                  (cache_select_history (fun _ _ => 0) CACHE_CHANNEL_RD 2 [])
                ++ [Event.mutex_unlock] ∧
      List.count Event.mutex_lock r.trace = List.count Event.mutex_lock [] + 1 ∧
      List.count Event.mutex_unlock r.trace = List.count Event.mutex_unlock [] + 1 ∧
      (reads_of Reg.ch_ctr0 r.trace).length
        = (reads_of Reg.ch_ctr0 []).length + (GPERF_TIMEOUT + 1) :=
  (counter_mux_timeout 32 (fun _ _ => 0) [] (by decide)).1 CACHE_CHANNEL_RD 2
    (fun k _ => by simp [BitField.get, ch_ctr_event_code, U64_MOD])

/-- The values the three reads report. When the poll loop has confirmed the
event code (it returned 0 with history `tw`), `read_cache_counter` reports
`(v0 % 2^48 + v1 % 2^48) % 2^48` of the values then loaded from `ch_ctr0` and
`ch_ctr1`, `read_iommu_counter` reports `v % 2^48` and `read_fabric_counter`
(enabled scope) `v % 2^60` of the value loaded from its counter register, so
bits 60..63 never enter the value. -/
theorem counter_values_reported (fuel : Nat) (hw : Hardware) (t tw : Trace) :
    (∀ channel event : Nat,
      fpga_wait_register_field fuel hw ch_ctr_event_code (ch_ctr_event_code.set 0 event)
          Reg.ch_ctr0 GPERF_TIMEOUT 1 (cache_select_history hw channel event t)
        = some (0, tw) →
      let v0 := hw tw Reg.ch_ctr0 % U64_MOD
      let v1 := hw (tw ++ [Event.readq Reg.ch_ctr0 v0]) Reg.ch_ctr1 % U64_MOD
      read_cache_counter fuel hw channel event t
        = some (show_0x_llx ((v0 % 2 ^ 48 + v1 % 2 ^ 48) % 2 ^ 48)
            (tw ++ [Event.readq Reg.ch_ctr0 v0, Event.readq Reg.ch_ctr1 v1,
                    Event.mutex_unlock]))) ∧
    (∀ (pobj_id : Int) (base_event : Nat),
      fpga_wait_register_field fuel hw vtd_ctr_event_code
          (vtd_ctr_event_code.set 0 (vtd_event base_event pobj_id))
          Reg.vtd_ctr GPERF_TIMEOUT 1
          (iommu_select_history hw (vtd_event base_event pobj_id) t)
        = some (0, tw) →
      let v := hw tw Reg.vtd_ctr % U64_MOD
      read_iommu_counter fuel hw pobj_id base_event t
        = some (show_0x_llx (v % 2 ^ 48)
            (tw ++ [Event.readq Reg.vtd_ctr v, Event.mutex_unlock]))) ∧
    (∀ (pobj_id : Int) (fab_event : Nat),
      (fabric_pobj_is_enabled hw pobj_id (t ++ [Event.mutex_lock])).1 = true →
      fpga_wait_register_field fuel hw fab_ctr_event_code (fab_ctr_event_code.set 0 fab_event)
          Reg.fab_ctr GPERF_TIMEOUT 1 (fabric_select_history hw fab_event t)
        = some (0, tw) →
      let v := hw tw Reg.fab_ctr % U64_MOD
      read_fabric_counter fuel hw pobj_id fab_event t
        = some (show_0x_llx (v % 2 ^ 60)
            (tw ++ [Event.readq Reg.fab_ctr v, Event.mutex_unlock]))) := by
  refine ⟨?_, ?_, ?_⟩
  · intro channel event hwait v0 v1
    have hg0 : ch_ctr_cache_counter.get v0 = v0 % 2 ^ 48 := by
      simp [BitField.get, ch_ctr_cache_counter]
    have hg1 : ch_ctr_cache_counter.get v1 = v1 % 2 ^ 48 := by
      simp [BitField.get, ch_ctr_cache_counter]
    unfold fpga_wait_register_field at hwait
    rw [read_cache_counter_eq, hwait]
    simp only [ne_eq, not_true_eq_false, if_false]
    rw [hg0.symm, hg1.symm]
  · intro pobj_id base_event hwait v
    have hg : vtd_ctr_vtd_counter.get v = v % 2 ^ 48 := by
      simp [BitField.get, vtd_ctr_vtd_counter]
    unfold fpga_wait_register_field at hwait
    rw [read_iommu_counter_eq, hwait]
    simp only [ne_eq, not_true_eq_false, if_false]
    rw [← hg]
  · intro pobj_id fab_event hen hwait v
    have hg : fab_ctr_fab_cnt.get v = v % 2 ^ 60 := by
      simp [BitField.get, fab_ctr_fab_cnt]
    unfold fpga_wait_register_field at hwait
    rw [read_fabric_counter_eq _ _ _ _ _ hen, hwait]
    simp only [ne_eq, not_true_eq_false, if_false]
    rw [← hg]

/-- C8: the code departs from the claim in the cache sum. Both channel
registers echo event code 2; `ch_ctr0` holds the count `2 ^ 48 - 1` and
`ch_ctr1` the count 1. The sum of the two 48-bit fields is `2 ^ 48`, whose text
is `0x1000000000000`, but `read_cache_counter` reports `0x0`: the bit-field
addition wrapped at 48 bits. -/
theorem cache_counter_sum_truncated :
    read_cache_counter 32 hw_cache_full CACHE_CHANNEL_RD 2 []
      = some { ret := 4, buf := some "0x0\n",
               trace := [Event.mutex_lock, Event.readq Reg.ch_ctl 0,
                 Event.writeq (2 * 2 ^ 16) Reg.ch_ctl,
                 Event.readq Reg.ch_ctr0 (2 * 2 ^ 60 + (2 ^ 48 - 1)),
                 Event.readq Reg.ch_ctr0 (2 * 2 ^ 60 + (2 ^ 48 - 1)),
                 Event.readq Reg.ch_ctr1 (2 * 2 ^ 60 + 1),
                 Event.mutex_unlock] } ∧
    ch_ctr_cache_counter.get (2 * 2 ^ 60 + (2 ^ 48 - 1))
      + ch_ctr_cache_counter.get (2 * 2 ^ 60 + 1) = 2 ^ 48 ∧
    fmt_0x_llx (2 ^ 48) = "0x1000000000000\n" := by
  decide

/-! ## Theorems: the fabric port filter -/

theorem fabric_pobj_is_enabled_val (hw : Hardware) (pobj_id : Int) (t : Trace) :
    (fabric_pobj_is_enabled hw pobj_id t).1
      = if fab_ctl_port_filter.get (hw t Reg.fab_ctl % U64_MOD) = 0 then
          decide (pobj_id = -1)
        else decide (pobj_id = (fab_ctl_port_id.get (hw t Reg.fab_ctl % U64_MOD) : Int)) := by
  simp only [fabric_pobj_is_enabled, readq, FAB_DISABLE_FILTER, PERF_OBJ_ROOT_ID]
  split <;> rfl

theorem held_value_append_nowrite (r : Reg) (init : Nat) (t ext : Trace)
    (h : writes_to r ext = []) :
    held_value r init (t ++ ext) = held_value r init t := by
  simp [held_value, writes_to_append, h]

theorem held_value_after_write (r : Reg) (init v : Nat) (t ext : Trace)
    (h : writes_to r ext = []) :
    held_value r init (t ++ [Event.writeq v r] ++ ext) = v := by
  have hw1 : writes_to r [Event.writeq v r] = [v] := by simp [writes_to]
  unfold held_value
  rw [writes_to_append, writes_to_append, h, hw1, List.append_nil]
  exact List.getLastD_concat _ _ _

theorem fab_filter_off (c : Nat) (hc : c < 2 ^ 64) :
    fab_ctl_port_filter.set c 0 < 2 ^ 64 ∧
    fab_ctl_port_filter.get (fab_ctl_port_filter.set c 0) = 0 := by
  simp only [BitField.get, BitField.set, fab_ctl_port_filter]
  norm_num
  omega

theorem fab_filter_on (c p : Nat) (hc : c < 2 ^ 64) (hp : p < 4) :
    fab_ctl_port_id.set (fab_ctl_port_filter.set c 1) p < 2 ^ 64 ∧
    fab_ctl_port_filter.get (fab_ctl_port_id.set (fab_ctl_port_filter.set c 1) p) = 1 ∧
    fab_ctl_port_id.get (fab_ctl_port_id.set (fab_ctl_port_filter.set c 1) p) = p := by
  simp only [BitField.get, BitField.set, fab_ctl_port_filter, fab_ctl_port_id]
  norm_num
  omega

/-- The value `fab_enable_store` stores to the control register for scope `s`,
given the value `c` it loaded. -/
theorem fab_enable_store_not_enabled (hw : Hardware) (strtobool : String → Option Bool)
    (buf : String) (n init : Nat) (t : Trace) (s : Int)
    (hlatch : ∀ t', hw t' Reg.fab_ctl = held_value Reg.fab_ctl init t')
    (hparse : strtobool buf = some true)
    (hoff : (fabric_pobj_is_enabled hw s t).1 = false) :
    fab_enable_store hw strtobool s buf n t
      = (ssize_t_of n,
         t ++ [Event.readq Reg.fab_ctl (held_value Reg.fab_ctl init t % U64_MOD),
               Event.mutex_lock,
               Event.readq Reg.fab_ctl (held_value Reg.fab_ctl init t % U64_MOD),
               Event.writeq
                 ((if s = PERF_OBJ_ROOT_ID then
                     fab_ctl_port_filter.set (held_value Reg.fab_ctl init t % U64_MOD)
                       FAB_DISABLE_FILTER
                   else
                     fab_ctl_port_id.set
                       (fab_ctl_port_filter.set (held_value Reg.fab_ctl init t % U64_MOD)
                         FAB_ENABLE_FILTER)
                       (s % 4).toNat) % U64_MOD)
                 Reg.fab_ctl,
               Event.mutex_unlock]) := by
  have h1 : hw (t ++ [Event.readq Reg.fab_ctl (hw t Reg.fab_ctl % U64_MOD)] ++ [Event.mutex_lock])
      Reg.fab_ctl = held_value Reg.fab_ctl init t := by
    rw [hlatch, List.append_assoc, held_value_append_nowrite _ _ _ _ (by simp [writes_to])]
  simp only [fab_enable_store, hparse, hoff, fabric_pobj_is_enabled_trace, mutex_lock,
    mutex_unlock, readq, writeq, Bool.not_true, Bool.false_eq_true, if_false, h1]
  simp only [hlatch t, List.append_assoc, List.singleton_append, List.cons_append,
    List.nil_append]

theorem fab_enable_store_effect (hw : Hardware) (strtobool : String → Option Bool)
    (buf : String) (n init : Nat) (t : Trace) (s : Int)
    (hlatch : ∀ t', hw t' Reg.fab_ctl = held_value Reg.fab_ctl init t')
    (hs : s = PERF_OBJ_ROOT_ID ∨ s = 0 ∨ s = 1)
    (hparse : strtobool buf = some true)
    (hoff : (fabric_pobj_is_enabled hw s t).1 = false) :
    (fab_enable_store hw strtobool s buf n t).1 = ssize_t_of n ∧
    (∃ v, all_writes ((fab_enable_store hw strtobool s buf n t).2.drop t.length)
        = [(v, Reg.fab_ctl)]) ∧
    (∀ (ext : Trace) (s' : Int), writes_to Reg.fab_ctl ext = [] →
      (fabric_pobj_is_enabled hw s' ((fab_enable_store hw strtobool s buf n t).2 ++ ext)).1
        = decide (s' = s)) := by
  rw [fab_enable_store_not_enabled hw strtobool buf n init t s hlatch hparse hoff]
  have hc : held_value Reg.fab_ctl init t % U64_MOD < 2 ^ 64 :=
    Nat.mod_lt _ (by decide)
  refine ⟨rfl, ⟨_, by simp only [List.drop_left]; rfl⟩, ?_⟩
  intro ext s' hext
  rw [fabric_pobj_is_enabled_val, hlatch]
  have hh : ∀ v, held_value Reg.fab_ctl init
      ((ssize_t_of n,
        t ++ [Event.readq Reg.fab_ctl (held_value Reg.fab_ctl init t % U64_MOD),
              Event.mutex_lock,
              Event.readq Reg.fab_ctl (held_value Reg.fab_ctl init t % U64_MOD),
              Event.writeq v Reg.fab_ctl,
              Event.mutex_unlock]).2 ++ ext) = v := by
    intro v
    have := held_value_after_write Reg.fab_ctl init v
      (t ++ [Event.readq Reg.fab_ctl (held_value Reg.fab_ctl init t % U64_MOD),
              Event.mutex_lock,
              Event.readq Reg.fab_ctl (held_value Reg.fab_ctl init t % U64_MOD)])
      ([Event.mutex_unlock] ++ ext)
      (by rw [writes_to_append, hext]; simp [writes_to])
    simpa using this
  rw [hh]
  rcases hs with rfl | rfl | rfl
  · obtain ⟨h1, h2⟩ := fab_filter_off _ hc
    simp only [PERF_OBJ_ROOT_ID, if_true, FAB_DISABLE_FILTER, mod_u64_of_lt _ h1,
      Nat.mod_mod, h2]
  · obtain ⟨h1, h2, h3⟩ := fab_filter_on _ 0 hc (by decide)
    have e : ((0 : Int) % 4).toNat = 0 := by decide
    have hne : ¬ ((0 : Int) = PERF_OBJ_ROOT_ID) := by decide
    simp only [hne, if_false, FAB_ENABLE_FILTER, e, mod_u64_of_lt _ h1, Nat.mod_mod, h2, h3,
      one_ne_zero, Nat.cast_zero]
  · obtain ⟨h1, h2, h3⟩ := fab_filter_on _ 1 hc (by decide)
    have e : ((1 : Int) % 4).toNat = 1 := by decide
    have hne : ¬ ((1 : Int) = PERF_OBJ_ROOT_ID) := by decide
    simp only [hne, if_false, FAB_ENABLE_FILTER, e, mod_u64_of_lt _ h1, Nat.mod_mod, h2, h3,
      one_ne_zero, Nat.cast_one]

theorem fab_enable_store_then_enabled (hw : Hardware) (strtobool : String → Option Bool)
    (buf : String) (n init : Nat) (t : Trace) (s : Int)
    (hlatch : ∀ t', hw t' Reg.fab_ctl = held_value Reg.fab_ctl init t')
    (hs : s = PERF_OBJ_ROOT_ID ∨ s = 0 ∨ s = 1)
    (hparse : strtobool buf = some true) (ext : Trace) (s' : Int)
    (hext : writes_to Reg.fab_ctl ext = []) :
    (fabric_pobj_is_enabled hw s' ((fab_enable_store hw strtobool s buf n t).2 ++ ext)).1
      = decide (s' = s) := by
  cases hon : (fabric_pobj_is_enabled hw s t).1 with
  | false =>
    exact (fab_enable_store_effect hw strtobool buf n init t s hlatch hs hparse hon).2.2
      ext s' hext
  | true =>
    have hst : (fab_enable_store hw strtobool s buf n t).2
        = t ++ [Event.readq Reg.fab_ctl (hw t Reg.fab_ctl % U64_MOD)] := by
      simp only [fab_enable_store, hparse, hon, fabric_pobj_is_enabled_trace, Bool.not_true,
        Bool.false_eq_true, if_false, if_true]
    have hv : hw ((fab_enable_store hw strtobool s buf n t).2 ++ ext) Reg.fab_ctl
        = hw t Reg.fab_ctl := by
      rw [hst, hlatch, hlatch, List.append_assoc,
        held_value_append_nowrite _ _ _ _ (by rw [writes_to_append, hext]; simp [writes_to])]
    rw [fabric_pobj_is_enabled_val] at hon ⊢
    rw [hv]
    by_cases hf : fab_ctl_port_filter.get (hw t Reg.fab_ctl % U64_MOD) = 0
    · simp only [hf, if_true, decide_eq_true_eq] at hon ⊢
      rw [hon]
    · simp only [hf, if_false, decide_eq_true_eq] at hon ⊢
      rw [hon]

/-- C9. Fabric filter mutual exclusion, on a control register that latches
stores. For every held control value and every scope `s` among root, port 0 and
port 1 that is not the active filter, `fab_enable_store s` with a text parsing
to true succeeds and makes exactly one store, to the control register; from
then on (until the next store to that register) `fabric_pobj_is_enabled` is
true for `s` and false for every other scope id. In particular enabling port 1
after port 0 leaves port 0 disabled and port 1 enabled with one store. -/
theorem fabric_filter_mutual_exclusion (hw : Hardware) (strtobool : String → Option Bool)
    (buf : String) (n init : Nat) (t : Trace) (s : Int)
    (hlatch : ∀ t', hw t' Reg.fab_ctl = held_value Reg.fab_ctl init t')
    (hs : s = PERF_OBJ_ROOT_ID ∨ s = 0 ∨ s = 1)
    (hparse : strtobool buf = some true)
    (hoff : (fabric_pobj_is_enabled hw s t).1 = false) :
    (fab_enable_store hw strtobool s buf n t).1 = ssize_t_of n ∧
    (∃ v, all_writes ((fab_enable_store hw strtobool s buf n t).2.drop t.length)
        = [(v, Reg.fab_ctl)]) ∧
    (∀ (ext : Trace) (s' : Int), writes_to Reg.fab_ctl ext = [] →
      (fabric_pobj_is_enabled hw s' ((fab_enable_store hw strtobool s buf n t).2 ++ ext)).1
        = decide (s' = s)) ∧
    ((fabric_pobj_is_enabled hw 0
        (fab_enable_store hw strtobool 1 buf n
          (fab_enable_store hw strtobool 0 buf n t).2).2).1 = false ∧
     (fabric_pobj_is_enabled hw 1
        (fab_enable_store hw strtobool 1 buf n
          (fab_enable_store hw strtobool 0 buf n t).2).2).1 = true ∧
     ∃ v, all_writes ((fab_enable_store hw strtobool 1 buf n
            (fab_enable_store hw strtobool 0 buf n t).2).2.drop
              (fab_enable_store hw strtobool 0 buf n t).2.length)
          = [(v, Reg.fab_ctl)]) := by
  obtain ⟨h1, h2, h3⟩ := fab_enable_store_effect hw strtobool buf n init t s hlatch hs hparse hoff
  refine ⟨h1, h2, h3, ?_⟩
  have h10 : (fabric_pobj_is_enabled hw 1 (fab_enable_store hw strtobool 0 buf n t).2).1
      = false := by
    have := fab_enable_store_then_enabled hw strtobool buf n init t 0 hlatch
      (Or.inr (Or.inl rfl)) hparse [] 1 rfl
    simpa using this
  obtain ⟨_, g2, g3⟩ := fab_enable_store_effect hw strtobool buf n init
    (fab_enable_store hw strtobool 0 buf n t).2 1 hlatch (Or.inr (Or.inr rfl)) hparse h10
  refine ⟨?_, ?_, g2⟩
  · have := g3 [] 0 rfl
    simpa using this
  · have := g3 [] 1 rfl
    simpa using this

/-- Witness for C9: from the reset value 0 (filter off, root active), enabling
port 1 makes port 1 active and the root scope inactive. -/
theorem fabric_filter_mutual_exclusion_witness :
    (fabric_pobj_is_enabled (hw_latch 0) 1 []).1 = false ∧
    (fabric_pobj_is_enabled (hw_latch 0) 1
      (fab_enable_store (hw_latch 0) (fun _ => some true) 1 "1" 1 []).2).1 = true ∧
    (fabric_pobj_is_enabled (hw_latch 0) PERF_OBJ_ROOT_ID
      (fab_enable_store (hw_latch 0) (fun _ => some true) 1 "1" 1 []).2).1 = false := by
  have hoff : (fabric_pobj_is_enabled (hw_latch 0) 1 []).1 = false := by decide
  have h := (fabric_filter_mutual_exclusion (hw_latch 0) (fun _ => some true) "1" 1 0 [] 1
    (fun _ => rfl) (Or.inr (Or.inr rfl)) rfl hoff).2.2.1
  refine ⟨hoff, ?_, ?_⟩
  · have := h [] 1 rfl
    simpa using this
  · have := h [] PERF_OBJ_ROOT_ID rfl
    simpa [PERF_OBJ_ROOT_ID] using this

/-- C10. The is-enabled query as a function of the control value `ctl` it
loads: the root scope is reported enabled exactly when `port_filter` (bit 23)
is 0; a scope with an id `p` other than the root id is reported enabled exactly
when `port_filter` is 1 and `port_id` (bits 20..21) equals `p`; so two scopes
reported enabled by the same control value have the same id. -/
theorem fabric_is_enabled_query (hw : Hardware) (t : Trace) (p q : Int) :
    ((fabric_pobj_is_enabled hw PERF_OBJ_ROOT_ID t).1 = true
      ↔ (hw t Reg.fab_ctl % U64_MOD) / 2 ^ 23 % 2 = FAB_DISABLE_FILTER) ∧
    (p ≠ PERF_OBJ_ROOT_ID →
      ((fabric_pobj_is_enabled hw p t).1 = true
        ↔ (hw t Reg.fab_ctl % U64_MOD) / 2 ^ 23 % 2 = FAB_ENABLE_FILTER ∧
          (((hw t Reg.fab_ctl % U64_MOD) / 2 ^ 20 % 4 : Nat) : Int) = p)) ∧
    ((fabric_pobj_is_enabled hw p t).1 = true → (fabric_pobj_is_enabled hw q t).1 = true →
      p = q) ∧
    (fabric_pobj_is_enabled hw p t).2
      = t ++ [Event.readq Reg.fab_ctl (hw t Reg.fab_ctl % U64_MOD)] := by
  have hf : fab_ctl_port_filter.get (hw t Reg.fab_ctl % U64_MOD)
      = (hw t Reg.fab_ctl % U64_MOD) / 2 ^ 23 % 2 := by
    simp [BitField.get, fab_ctl_port_filter]
  have hp : fab_ctl_port_id.get (hw t Reg.fab_ctl % U64_MOD)
      = (hw t Reg.fab_ctl % U64_MOD) / 2 ^ 20 % 4 := by
    simp [BitField.get, fab_ctl_port_id]
  simp only [fabric_pobj_is_enabled_val, fabric_pobj_is_enabled_trace, hf, hp,
    FAB_DISABLE_FILTER, FAB_ENABLE_FILTER, PERF_OBJ_ROOT_ID]
  have hx2 : (hw t Reg.fab_ctl % U64_MOD) / 2 ^ 23 % 2 < 2 := Nat.mod_lt _ (by decide)
  generalize (hw t Reg.fab_ctl % U64_MOD) / 2 ^ 23 % 2 = x at hx2 ⊢
  generalize (hw t Reg.fab_ctl % U64_MOD) / 2 ^ 20 % 4 = y
  have hy : ((y : Nat) : Int) ≠ -1 := by omega
  refine ⟨?_, ?_, ?_, trivial⟩
  · by_cases h : x = 0
    · simp only [h, if_true, decide_eq_true_eq]
    · simp only [h, if_false, decide_eq_true_eq, iff_false]
      exact fun e => hy e.symm
  · intro hpr
    by_cases h : x = 0
    · simp only [h, if_true, decide_eq_true_eq, hpr, false_iff]
      omega
    · have h1 : x = 1 := by omega
      subst h1
      simp only [one_ne_zero, if_false, decide_eq_true_eq, true_and]
      exact eq_comm
  · by_cases h : x = 0
    · simp only [h, if_true, decide_eq_true_eq]
      intro a b; rw [a, b]
    · simp only [h, if_false, decide_eq_true_eq]
      intro a b; rw [a, b]

/-! ## Theorems: stores that are refused -/

/-- C11. No explicit disable. For every scope and hardware, `fab_enable_store`
with a text that parses to false returns `-EINVAL` without any register access;
with a text that parses to true on a scope that is already the active filter it
returns the byte count after the single load made by the query, with no store;
hence a store to the hardware only ever comes from enabling a scope that is
not the active filter. -/
theorem fab_enable_store_no_disable (hw : Hardware) (strtobool : String → Option Bool)
    (pobj_id : Int) (buf : String) (n : Nat) (t : Trace) :
    (strtobool buf = some false →
      fab_enable_store hw strtobool pobj_id buf n t = (-EINVAL, t)) ∧
    (strtobool buf = some true → (fabric_pobj_is_enabled hw pobj_id t).1 = true →
      fab_enable_store hw strtobool pobj_id buf n t
        = (ssize_t_of n, t ++ [Event.readq Reg.fab_ctl (hw t Reg.fab_ctl % U64_MOD)]) ∧
      all_writes ((fab_enable_store hw strtobool pobj_id buf n t).2.drop t.length) = []) ∧
    (all_writes ((fab_enable_store hw strtobool pobj_id buf n t).2.drop t.length) ≠ [] →
      strtobool buf = some true ∧ (fabric_pobj_is_enabled hw pobj_id t).1 = false) := by
  have hon : strtobool buf = some true → (fabric_pobj_is_enabled hw pobj_id t).1 = true →
      fab_enable_store hw strtobool pobj_id buf n t
        = (ssize_t_of n, t ++ [Event.readq Reg.fab_ctl (hw t Reg.fab_ctl % U64_MOD)]) := by
    intro hp he
    simp only [fab_enable_store, hp, he, fabric_pobj_is_enabled_trace, Bool.not_true,
      Bool.false_eq_true, if_false, if_true]
  refine ⟨?_, ?_, ?_⟩
  · intro hp
    simp only [fab_enable_store, hp, Bool.not_false, if_true]
  · intro hp he
    refine ⟨hon hp he, ?_⟩
    rw [hon hp he]
    simp [all_writes]
  · intro hw1
    cases hp : strtobool buf with
    | none =>
      exfalso; apply hw1
      simp [fab_enable_store, hp, all_writes]
    | some state =>
      cases state with
      | false =>
        exfalso; apply hw1
        simp [fab_enable_store, hp, all_writes]
      | true =>
        refine ⟨rfl, ?_⟩
        cases he : (fabric_pobj_is_enabled hw pobj_id t).1 with
        | false => rfl
        | true =>
          exfalso; apply hw1
          rw [hon hp he]
          simp [all_writes]

/-- Witness for C11: on a latching register with reset value 0 the root scope
is the active filter; a `false` write is refused and a `true` write to the root
scope stores nothing. -/
theorem fab_enable_store_no_disable_witness :
    fab_enable_store (hw_latch 0) (fun _ => some false) PERF_OBJ_ROOT_ID "0" 1 []
      = (-EINVAL, []) ∧
    fab_enable_store (hw_latch 0) (fun _ => some true) PERF_OBJ_ROOT_ID "1" 1 []
      = (ssize_t_of 1, [Event.readq Reg.fab_ctl 0]) :=
  ⟨(fab_enable_store_no_disable (hw_latch 0) (fun _ => some false) PERF_OBJ_ROOT_ID "0" 1 []).1
      rfl,
   ((fab_enable_store_no_disable (hw_latch 0) (fun _ => some true) PERF_OBJ_ROOT_ID "1" 1 []).2.1
      rfl (by decide)).1⟩

/-- C16 (amended). Unparseable write. A text that fails to parse makes every
store return without any register store: `clear_store`, `pcie0_errors_store`,
`pcie1_errors_store`, `warning_errors_store` (parser `kstrtou64`) and the
freeze and enable stores (parser `strtobool`) return `-EINVAL` before touching
the device; the stores that parse with `kstrtou8` (thermal threshold1,
threshold2, threshold1_policy, power threshold1, threshold2, inject_error)
take the lock, load their register, release the lock and return the error code
of `kstrtou8` unchanged. -/
theorem unparseable_write_refused (hw : Hardware) (kstrtou64 : String → Option Nat)
    (kstrtou8 : String → Int × Nat) (strtobool : String → Option Bool) (pobj_id : Int)
    (buf : String) (count : Nat) (t : Trace) :
    (kstrtou64 buf = none →
      clear_store hw kstrtou64 buf count t = (-EINVAL, t) ∧
      pcie0_errors_store hw kstrtou64 buf count t = (-EINVAL, t) ∧
      pcie1_errors_store hw kstrtou64 buf count t = (-EINVAL, t) ∧
      warning_errors_store hw kstrtou64 buf count t = (-EINVAL, t)) ∧
    (strtobool buf = none →
      freeze_store hw strtobool buf count t = (-EINVAL, t) ∧
      vtd_freeze_store hw strtobool buf count t = (-EINVAL, t) ∧
      fab_freeze_store hw strtobool buf count t = (-EINVAL, t) ∧
      fab_enable_store hw strtobool pobj_id buf count t = (-EINVAL, t)) ∧
    ((kstrtou8 buf).1 ≠ 0 →
      thermal_threshold1_store hw kstrtou8 buf count t
        = ((kstrtou8 buf).1,
           t ++ [Event.mutex_lock,
                 Event.readq Reg.tmp_threshold (hw (t ++ [Event.mutex_lock]) Reg.tmp_threshold % U64_MOD),
                 Event.mutex_unlock]) ∧
      thermal_threshold2_store hw kstrtou8 buf count t
        = ((kstrtou8 buf).1,
           t ++ [Event.mutex_lock,
                 Event.readq Reg.tmp_threshold (hw (t ++ [Event.mutex_lock]) Reg.tmp_threshold % U64_MOD),
                 Event.mutex_unlock]) ∧
      thermal_threshold1_policy_store hw kstrtou8 buf count t
        = ((kstrtou8 buf).1,
           t ++ [Event.mutex_lock,
                 Event.readq Reg.tmp_threshold (hw (t ++ [Event.mutex_lock]) Reg.tmp_threshold % U64_MOD),
                 Event.mutex_unlock]) ∧
      pwr_threshold1_store hw kstrtou8 buf count t
        = ((kstrtou8 buf).1,
           t ++ [Event.mutex_lock,
                 Event.readq Reg.pm_ap_threshold (hw (t ++ [Event.mutex_lock]) Reg.pm_ap_threshold % U64_MOD),
                 Event.mutex_unlock]) ∧
      pwr_threshold2_store hw kstrtou8 buf count t
        = ((kstrtou8 buf).1,
           t ++ [Event.mutex_lock,
                 Event.readq Reg.pm_ap_threshold (hw (t ++ [Event.mutex_lock]) Reg.pm_ap_threshold % U64_MOD),
                 Event.mutex_unlock]) ∧
      inject_error_store hw kstrtou8 buf count t
        = ((kstrtou8 buf).1,
           t ++ [Event.mutex_lock,
                 Event.readq Reg.ras_error_inj (hw (t ++ [Event.mutex_lock]) Reg.ras_error_inj % U64_MOD),
                 Event.mutex_unlock])) := by
  refine ⟨?_, ?_, ?_⟩
  · intro h
    simp only [clear_store, pcie0_errors_store, pcie1_errors_store, warning_errors_store, h,
      and_self]
  · intro h
    simp only [freeze_store, vtd_freeze_store, fab_freeze_store, fab_enable_store, h,
      and_self]
  · intro h
    simp only [thermal_threshold1_store, thermal_threshold2_store,
      thermal_threshold1_policy_store, pwr_threshold1_store, pwr_threshold2_store,
      inject_error_store, h, ne_eq, not_false_eq_true, if_true, mutex_lock, mutex_unlock,
      readq, List.append_assoc, List.singleton_append, List.cons_append, List.nil_append,
      and_self]

/-- Witness for C16: the text `abc` is refused by the decimal test double with
`-EINVAL`, and power threshold1 returns that code after one load. -/
theorem unparseable_write_refused_witness :
    pwr_threshold1_store (fun _ _ => 0) kstrtou8_decimal "abc" 3 []
      = (-EINVAL, [Event.mutex_lock, Event.readq Reg.pm_ap_threshold 0,
                   Event.mutex_unlock]) := by
  have h := ((unparseable_write_refused (fun _ _ => 0) (fun _ => none) kstrtou8_decimal
    (fun _ => none) 0 "abc" 3 []).2.2 (by decide)).2.2.2.1
  rw [h]
  decide

/-- C16 as stated fails for the stores that parse with `kstrtou8`: the text
`256` fails to parse (the parser reports `-ERANGE`), and
`thermal_threshold1_store` returns `-ERANGE`, which is not `-EINVAL`. -/
theorem unparseable_write_not_always_einval :
    (kstrtou8_decimal "256").1 ≠ 0 ∧
    (thermal_threshold1_store (fun _ _ => 0) kstrtou8_decimal "256" 3 []).1 = -ERANGE ∧
    (thermal_threshold1_store (fun _ _ => 0) kstrtou8_decimal "256" 3 []).1 ≠ -EINVAL := by
  decide

/-! ## Theorems: control requests -/

theorem handler_slots_mem (features : List feature) :
    ∀ (slot : Nat) (p : Nat × (Nat → Nat → Int)),
      p ∈ handler_slots features slot ↔
        slot ≤ p.1 ∧ ∃ f, features[p.1 - slot]? = some f ∧ feature_handler f = some p.2 := by
  induction features with
  | nil => intro slot p; simp [handler_slots]
  | cons f fs ih =>
    intro slot p
    have key : (slot + 1 ≤ p.1 ∧ ∃ g, fs[p.1 - (slot + 1)]? = some g ∧
          feature_handler g = some p.2)
        ↔ (slot < p.1 ∧ ∃ g, (f :: fs)[p.1 - slot]? = some g ∧
          feature_handler g = some p.2) := by
      constructor
      · rintro ⟨h1, g, h2, h3⟩
        refine ⟨h1, g, ?_, h3⟩
        have e : p.1 - slot = (p.1 - (slot + 1)) + 1 := by omega
        rw [e, List.getElem?_cons_succ]; exact h2
      · rintro ⟨h1, g, h2, h3⟩
        refine ⟨h1, g, ?_, h3⟩
        have e : p.1 - slot = (p.1 - (slot + 1)) + 1 := by omega
        rw [e, List.getElem?_cons_succ] at h2; exact h2
    cases hf : feature_handler f with
    | none =>
      simp only [handler_slots, hf]
      rw [ih, key]
      constructor
      · rintro ⟨h1, h2⟩; exact ⟨by omega, h2⟩
      · rintro ⟨h1, g, h2, h3⟩
        rcases Nat.eq_or_lt_of_le h1 with he | hl
        · rw [← he, Nat.sub_self, List.getElem?_cons_zero] at h2
          cases h2
          rw [hf] at h3; cases h3
        · exact ⟨hl, g, h2, h3⟩
    | some ioctl =>
      simp only [handler_slots, hf, List.mem_cons]
      rw [ih, key]
      constructor
      · rintro (rfl | ⟨h1, h2⟩)
        · exact ⟨le_refl _, f, by simp, hf⟩
        · exact ⟨by omega, h2⟩
      · rintro ⟨h1, g, h2, h3⟩
        rcases Nat.eq_or_lt_of_le h1 with he | hl
        · left
          rw [← he, Nat.sub_self, List.getElem?_cons_zero] at h2
          cases h2
          rw [hf] at h3
          cases h3
          exact Prod.ext he.symm rfl
        · exact Or.inr ⟨hl, g, h2, h3⟩

theorem handler_slots_increasing (features : List feature) :
    ∀ slot : Nat, (handler_slots features slot).Pairwise (fun a b => a.1 < b.1) := by
  induction features with
  | nil => intro slot; simp [handler_slots]
  | cons f fs ih =>
    intro slot
    cases hf : feature_handler f with
    | none => simp only [handler_slots, hf]; exact ih _
    | some ioctl =>
      simp only [handler_slots, hf, List.pairwise_cons]
      refine ⟨?_, ih _⟩
      intro p hp
      have := ((handler_slots_mem fs (slot + 1) p).1 hp).1
      show slot < p.1
      omega

theorem fme_ioctl_features_eq (cmd arg : Nat) (features : List feature) :
    ∀ (slot : Nat) (log : List IoctlEvent),
      fme_ioctl_features cmd arg features slot log
        = (((handler_slots features slot).dropWhile
              (fun p => decide (p.2 cmd arg = -ENODEV))).head?.map (fun p => p.2 cmd arg),
           log ++ (((handler_slots features slot).takeWhile
                      (fun p => decide (p.2 cmd arg = -ENODEV)))
                    ++ ((handler_slots features slot).dropWhile
                      (fun p => decide (p.2 cmd arg = -ENODEV))).head?.toList).map
                  (fun p => IoctlEvent.feature_ioctl p.1 cmd arg)) := by
  induction features with
  | nil => intro slot log; simp [fme_ioctl_features, handler_slots]
  | cons f fs ih =>
    intro slot log
    cases hops : f.ops with
    | none =>
      have hf : feature_handler f = none := by simp [feature_handler, hops]
      simp only [fme_ioctl_features, hops, handler_slots, hf]
      exact ih _ _
    | some ops =>
      cases hio : ops.ioctl with
      | none =>
        have hf : feature_handler f = none := by simp [feature_handler, hops, hio]
        simp only [fme_ioctl_features, hops, hio, handler_slots, hf]
        exact ih _ _
      | some ioctl =>
        have hf : feature_handler f = some ioctl := by simp [feature_handler, hops, hio]
        simp only [fme_ioctl_features, hops, hio, handler_slots, hf]
        by_cases hr : ioctl cmd arg = -ENODEV
        · simp only [hr, if_true, List.dropWhile_cons, List.takeWhile_cons, decide_True]
          rw [ih]
          simp [List.append_assoc]
        · simp [hr, List.dropWhile_cons, List.takeWhile_cons]

theorem fme_ioctl_default (h : intel_fpga_h) (hw : Hardware) (um : UserMem)
    (fme_capability : Nat) (config_port : Nat → Bool → Int) (features : List feature)
    (cmd arg : Nat) (t : Trace) (log : List IoctlEvent) (hcmd : not_builtin h cmd) :
    fme_ioctl h hw um fme_capability config_port features cmd arg t log
      = (match (fme_ioctl_features cmd arg features 0 log).1 with
         | some ret => ret
         | none => -EINVAL,
         t, (fme_ioctl_features cmd arg features 0 log).2) := by
  obtain ⟨h1, h2, h3, h4, h5⟩ := hcmd
  simp only [fme_ioctl, h1, h2, h3, h4, h5, if_false]
  rcases hr : fme_ioctl_features cmd arg features 0 log with ⟨_ | ret, log'⟩ <;> rfl

/-- C12. Dispatch chain order. For a command outside the five built-in codes,
`fme_ioctl` calls the handlers of the table slots that have one (slots without
ops or without an `ioctl` handler are skipped), in increasing slot order, for
as long as they return `-ENODEV`; it returns the result of the first handler
that returns something else, and that handler is the last one called; when
every handler returns `-ENODEV` all of them are called and the result is
`-EINVAL`. -/
theorem dispatch_chain_order (h : intel_fpga_h) (hw : Hardware) (um : UserMem)
    (fme_capability : Nat) (config_port : Nat → Bool → Int) (features : List feature)
    (cmd arg : Nat) (t : Trace) (log : List IoctlEvent) (hcmd : not_builtin h cmd) :
    fme_ioctl h hw um fme_capability config_port features cmd arg t log
      = (match ((handler_slots features 0).dropWhile
                  (fun p => decide (p.2 cmd arg = -ENODEV))).head? with
         | some p => p.2 cmd arg
         | none => -EINVAL,
         t,
         log ++ (((handler_slots features 0).takeWhile
                    (fun p => decide (p.2 cmd arg = -ENODEV)))
                  ++ ((handler_slots features 0).dropWhile
                    (fun p => decide (p.2 cmd arg = -ENODEV))).head?.toList).map
                (fun p => IoctlEvent.feature_ioctl p.1 cmd arg)) ∧
    (∀ p : Nat × (Nat → Nat → Int), p ∈ handler_slots features 0 ↔
      ∃ f, features[p.1]? = some f ∧ feature_handler f = some p.2) ∧
    (handler_slots features 0).Pairwise (fun a b => a.1 < b.1) := by
  refine ⟨?_, ?_, handler_slots_increasing features 0⟩
  · rw [fme_ioctl_default h hw um fme_capability config_port features cmd arg t log hcmd,
      fme_ioctl_features_eq]
    cases ((handler_slots features 0).dropWhile
      (fun p => decide (p.2 cmd arg = -ENODEV))).head? <;> rfl
  · intro p
    rw [handler_slots_mem]
    simp

/-- Witness for C12: in the sample table the handler of slot 1 declares the
command not its own, slot 3 answers 7, and slot 4 is never called. -/
theorem dispatch_chain_order_witness :
    fme_ioctl intel_fpga_h_sample (fun _ _ => 0) (user_mem_sample 16) 0 (fun _ _ => 0)
        features_sample 100 5 [] []
      = (7, [], [IoctlEvent.feature_ioctl 1 100 5, IoctlEvent.feature_ioctl 3 100 5]) := by
  have h := (dispatch_chain_order intel_fpga_h_sample (fun _ _ => 0) (user_mem_sample 16) 0
    (fun _ _ => 0) features_sample 100 5 [] [] (by simp [not_builtin, intel_fpga_h_sample])).1
  rw [h]
  decide

/-- C13. Unclaimed command. For a command outside the built-in codes, when
every table slot either has no handler or its handler returns `-ENODEV`,
`fme_ioctl` fails: it returns `-EINVAL` (the value the driver uses for a
command nobody supports), having called every handler once, in slot order. -/
theorem unclaimed_command (h : intel_fpga_h) (hw : Hardware) (um : UserMem)
    (fme_capability : Nat) (config_port : Nat → Bool → Int) (features : List feature)
    (cmd arg : Nat) (t : Trace) (log : List IoctlEvent) (hcmd : not_builtin h cmd)
    (hun : ∀ f ∈ features, ∀ ioctl, feature_handler f = some ioctl →
      ioctl cmd arg = -ENODEV) :
    fme_ioctl h hw um fme_capability config_port features cmd arg t log
      = (-EINVAL, t,
         log ++ (handler_slots features 0).map
           (fun p => IoctlEvent.feature_ioctl p.1 cmd arg)) ∧
    (fme_ioctl h hw um fme_capability config_port features cmd arg t log).1 < 0 := by
  have hall : ∀ p ∈ handler_slots features 0,
      (fun p : Nat × (Nat → Nat → Int) => decide (p.2 cmd arg = -ENODEV)) p = true := by
    intro p hp
    obtain ⟨_, f, hf, hh⟩ := (handler_slots_mem features 0 p).1 hp
    have hmem : f ∈ features := List.getElem?_mem hf
    simpa using hun f hmem p.2 hh
  have hd : (handler_slots features 0).dropWhile
      (fun p => decide (p.2 cmd arg = -ENODEV)) = [] :=
    List.dropWhile_eq_nil_iff.2 hall
  have ht : (handler_slots features 0).takeWhile
      (fun p => decide (p.2 cmd arg = -ENODEV)) = handler_slots features 0 :=
    List.takeWhile_eq_self_iff.2 hall
  have key : fme_ioctl h hw um fme_capability config_port features cmd arg t log
      = (-EINVAL, t,
         log ++ (handler_slots features 0).map
           (fun p => IoctlEvent.feature_ioctl p.1 cmd arg)) := by
    rw [fme_ioctl_default h hw um fme_capability config_port features cmd arg t log hcmd,
      fme_ioctl_features_eq, hd, ht]
    simp
  refine ⟨key, ?_⟩
  rw [key]
  show -EINVAL < 0
  decide

/-- Witness for C13: a table whose only handler declares the command not its
own. -/
theorem unclaimed_command_witness :
    fme_ioctl intel_fpga_h_sample (fun _ _ => 0) (user_mem_sample 16) 0 (fun _ _ => 0)
        (features_sample.take 3) 100 5 [] []
      = (-EINVAL, [], [IoctlEvent.feature_ioctl 1 100 5]) := by
  have h := (unclaimed_command intel_fpga_h_sample (fun _ _ => 0) (user_mem_sample 16) 0
    (fun _ _ => 0) (features_sample.take 3) 100 5 [] [] (by simp [not_builtin, intel_fpga_h_sample])
    (by
      intro f hf ioctl hh
      simp only [features_sample, List.take, List.mem_cons, List.mem_singleton,
        List.not_mem_nil, or_false] at hf
      rcases hf with rfl | rfl | rfl <;> simp [feature_handler] at hh
      subst hh
      rfl)).1
  rw [h]
  decide

/-- C14. Argument-size validation. For a readable argument block whose
`argsz` is below the request's minimum size, get-info, release-port and
assign-port each return `-EINVAL` with no register access, no call of the
port-configuration callback and no copy to the caller. With `argsz` at or
above the minimum the check is passed: get-info goes on to fill the block and
copy it out, release-port and assign-port go on to `fme_ioctl_config_port`. -/
theorem argument_size_validation (h : intel_fpga_h) (hw : Hardware) (um : UserMem)
    (fme_capability : Nat) (config_port : Nat → Bool → Int) (arg : Nat) (t : Trace)
    (log : List IoctlEvent) :
    (∀ info, um.read_info arg = some info →
      (info.argsz < h.fpga_fme_info_minsz →
        fme_ioctl_get_info h um fme_capability arg t log = (-EINVAL, t, log)) ∧
      (h.fpga_fme_info_minsz ≤ info.argsz →
        fme_ioctl_get_info h um fme_capability arg t log
          = (if um.write_ok arg then 0 else -EFAULT,
             t ++ [Event.mutex_lock, Event.mutex_unlock],
             log ++ [IoctlEvent.copy_to_user arg
               { argsz := info.argsz, flags := 0, capability := fme_capability }]))) ∧
    (∀ release, um.read_release arg = some release →
      (release.argsz < h.fpga_fme_port_release_minsz →
        fme_ioctl_release_port h hw um config_port arg t log = (-EINVAL, t, log)) ∧
      (h.fpga_fme_port_release_minsz ≤ release.argsz →
        fme_ioctl_release_port h hw um config_port arg t log
          = fme_ioctl_config_port hw config_port release.port_id release.flags true t log)) ∧
    (∀ assign, um.read_assign arg = some assign →
      (assign.argsz < h.fpga_fme_port_assign_minsz →
        fme_ioctl_assign_port h hw um config_port arg t log = (-EINVAL, t, log)) ∧
      (h.fpga_fme_port_assign_minsz ≤ assign.argsz →
        fme_ioctl_assign_port h hw um config_port arg t log
          = fme_ioctl_config_port hw config_port assign.port_id assign.flags false t log)) := by
  refine ⟨?_, ?_, ?_⟩
  · intro info hr
    refine ⟨?_, ?_⟩
    · intro hlt
      simp only [fme_ioctl_get_info, hr, hlt, if_true]
    · intro hge
      have hlt : ¬ info.argsz < h.fpga_fme_info_minsz := by omega
      simp only [fme_ioctl_get_info, hr, hlt, if_false, mutex_lock, mutex_unlock,
        List.append_assoc, List.singleton_append]
      cases um.write_ok arg <;> simp
  · intro release hr
    refine ⟨?_, ?_⟩
    · intro hlt
      simp only [fme_ioctl_release_port, hr, hlt, if_true]
    · intro hge
      have hlt : ¬ release.argsz < h.fpga_fme_port_release_minsz := by omega
      simp only [fme_ioctl_release_port, hr, hlt, if_false]
  · intro assign hr
    refine ⟨?_, ?_⟩
    · intro hlt
      simp only [fme_ioctl_assign_port, hr, hlt, if_true]
    · intro hge
      have hlt : ¬ assign.argsz < h.fpga_fme_port_assign_minsz := by omega
      simp only [fme_ioctl_assign_port, hr, hlt, if_false]

/-- Witness for C14: a release request with `argsz = 11` against a minimum of
12 is refused before the callback. -/
theorem argument_size_validation_witness :
    fme_ioctl_release_port intel_fpga_h_sample (fun _ _ => 2 * 2 ^ 17) (user_mem_sample 11)
        (fun _ _ => 0) 5 [] []
      = (-EINVAL, [], []) :=
  ((argument_size_validation intel_fpga_h_sample (fun _ _ => 2 * 2 ^ 17) (user_mem_sample 11)
      0 (fun _ _ => 0) 5 [] []).2.1 { argsz := 11, flags := 0, port_id := 1 } rfl).1
    (by decide)

/-- C15. Port-index validation. With `num_ports` the field (bits 17..19) of the
capability value that `fme_ioctl_config_port` loads: non-zero `flags` give
`-EINVAL` before any register access; `port_id ≥ num_ports` gives `-EINVAL`
after the load; in both cases the callback is not called. Otherwise the
callback is called once with `port_id` and the release flag and its result is
returned unchanged. Release-port passes `true`, assign-port passes `false`. -/
theorem port_index_validation (hw : Hardware) (config_port : Nat → Bool → Int)
    (port_id flags : Nat) (is_release : Bool) (t : Trace) (log : List IoctlEvent) :
    (flags ≠ 0 →
      fme_ioctl_config_port hw config_port port_id flags is_release t log
        = (-EINVAL, t, log)) ∧
    (flags = 0 → (hw t Reg.capability % U64_MOD) / 2 ^ 17 % 8 ≤ port_id →
      fme_ioctl_config_port hw config_port port_id flags is_release t log
        = (-EINVAL, t ++ [Event.readq Reg.capability (hw t Reg.capability % U64_MOD)], log)) ∧
    (flags = 0 → port_id < (hw t Reg.capability % U64_MOD) / 2 ^ 17 % 8 →
      fme_ioctl_config_port hw config_port port_id flags is_release t log
        = (config_port port_id is_release,
           t ++ [Event.readq Reg.capability (hw t Reg.capability % U64_MOD)],
           log ++ [IoctlEvent.config_port port_id is_release])) ∧
    (∀ (h : intel_fpga_h) (um : UserMem) (arg : Nat) (release : fpga_fme_port_release),
      um.read_release arg = some release →
      h.fpga_fme_port_release_minsz ≤ release.argsz →
      fme_ioctl_release_port h hw um config_port arg t log
        = fme_ioctl_config_port hw config_port release.port_id release.flags true t log) ∧
    (∀ (h : intel_fpga_h) (um : UserMem) (arg : Nat) (assign : fpga_fme_port_assign),
      um.read_assign arg = some assign →
      h.fpga_fme_port_assign_minsz ≤ assign.argsz →
      fme_ioctl_assign_port h hw um config_port arg t log
        = fme_ioctl_config_port hw config_port assign.port_id assign.flags false t log) := by
  have hn : capability_num_ports.get (hw t Reg.capability % U64_MOD)
      = (hw t Reg.capability % U64_MOD) / 2 ^ 17 % 8 := by
    simp [BitField.get, capability_num_ports]
  refine ⟨?_, ?_, ?_, ?_, ?_⟩
  · intro hf
    simp only [fme_ioctl_config_port, hf, ne_eq, not_false_eq_true, if_true]
  · intro hf hge
    simp only [fme_ioctl_config_port, hf, ne_eq, not_true_eq_false, if_false, readq, hn,
      ge_iff_le, hge, if_true]
  · intro hf hlt
    have hge : ¬ (hw t Reg.capability % U64_MOD) / 2 ^ 17 % 8 ≤ port_id := by omega
    simp only [fme_ioctl_config_port, hf, ne_eq, not_true_eq_false, if_false, readq, hn,
      ge_iff_le, hge]
  · intro h um arg release hr hge
    have hlt : ¬ release.argsz < h.fpga_fme_port_release_minsz := by omega
    simp only [fme_ioctl_release_port, hr, hlt, if_false]
  · intro h um arg assign hr hge
    have hlt : ¬ assign.argsz < h.fpga_fme_port_assign_minsz := by omega
    simp only [fme_ioctl_assign_port, hr, hlt, if_false]

/-- Witness for C15: with two ports, releasing port 1 reaches the callback and
port 2 is refused. -/
theorem port_index_validation_witness :
    fme_ioctl_config_port (fun _ _ => 2 * 2 ^ 17) (fun p r => if r then p + 40 else 0)
        1 0 true [] []
      = (41, [Event.readq Reg.capability (2 * 2 ^ 17)], [IoctlEvent.config_port 1 true]) ∧
    fme_ioctl_config_port (fun _ _ => 2 * 2 ^ 17) (fun p r => if r then p + 40 else 0)
        2 0 true [] []
      = (-EINVAL, [Event.readq Reg.capability (2 * 2 ^ 17)], []) :=
  ⟨(port_index_validation (fun _ _ => 2 * 2 ^ 17) (fun p r => if r then p + 40 else 0)
      1 0 true [] []).2.2.1 rfl (by decide),
   (port_index_validation (fun _ _ => 2 * 2 ^ 17) (fun p r => if r then p + 40 else 0)
      2 0 true [] []).2.1 rfl (by decide)⟩

/-! ## Theorems: the counter object tree -/

theorem created_nodes_append (l m : List PerfEvent) :
    created_nodes (l ++ m) = created_nodes l ++ created_nodes m := by
  simp [created_nodes, List.filterMap_append]

theorem released_nodes_append (l m : List PerfEvent) :
    released_nodes (l ++ m) = released_nodes l ++ released_nodes m := by
  simp [released_nodes, List.filterMap_append]

theorem created_nodes_group_events (kobj : Nat) (f : attribute_group → PerfEvent)
    (hf : ∀ g, (∃ r, f g = PerfEvent.sysfs_create_group kobj g r)
      ∨ f g = PerfEvent.sysfs_remove_group kobj g) (gs : List attribute_group) :
    created_nodes (gs.map f) = [] ∧ released_nodes (gs.map f) = [] := by
  induction gs with
  | nil => simp [created_nodes, released_nodes]
  | cons g gs ih =>
    rcases hf g with ⟨r, h⟩ | h <;>
      simp [created_nodes, released_nodes, h] <;>
      exact ⟨by simpa [created_nodes] using ih.1, by simpa [released_nodes] using ih.2⟩

theorem sysfs_create_groups_loop_ok (env : KernelEnv) (kobj : Nat) :
    ∀ (gs created : List attribute_group) (log : List PerfEvent),
      (gs.map (env.sysfs_create_group kobj)).find? (fun r => decide (r ≠ 0)) = none →
      sysfs_create_groups_loop env kobj gs created log
        = (0, log ++ gs.map (fun g => PerfEvent.sysfs_create_group kobj g 0)) := by
  intro gs
  induction gs with
  | nil => intro created log _; simp [sysfs_create_groups_loop]
  | cons g gs ih =>
    intro created log h
    simp only [List.map_cons, List.find?_cons] at h
    by_cases h0 : env.sysfs_create_group kobj g = 0
    · simp only [h0, ne_eq, not_true_eq_false, decide_False] at h
      simp only [sysfs_create_groups_loop, h0, ne_eq, not_true_eq_false, if_false]
      rw [ih _ _ h]
      simp
    · simp [h0] at h

theorem sysfs_create_groups_loop_fail (env : KernelEnv) (kobj : Nat) :
    ∀ (gs created : List attribute_group) (log : List PerfEvent) (e : Int),
      (gs.map (env.sysfs_create_group kobj)).find? (fun r => decide (r ≠ 0)) = some e →
      e ≠ 0 ∧
      (sysfs_create_groups_loop env kobj gs created log).1 = e ∧
      created_nodes (sysfs_create_groups_loop env kobj gs created log).2 = created_nodes log ∧
      released_nodes (sysfs_create_groups_loop env kobj gs created log).2
        = released_nodes log := by
  intro gs
  induction gs with
  | nil => intro created log e h; simp at h
  | cons g gs ih =>
    intro created log e h
    simp only [List.map_cons, List.find?_cons] at h
    by_cases h0 : env.sysfs_create_group kobj g = 0
    · simp only [h0, ne_eq, not_true_eq_false, decide_False] at h
      obtain ⟨h1, h2, h3, h4⟩ := ih (g :: created)
        (log ++ [PerfEvent.sysfs_create_group kobj g 0]) e h
      simp only [sysfs_create_groups_loop, h0, ne_eq, not_true_eq_false, if_false]
      refine ⟨h1, h2, ?_, ?_⟩
      · rw [h3, created_nodes_append]; simp [created_nodes]
      · rw [h4, released_nodes_append]; simp [released_nodes]
    · simp only [ne_eq, h0, not_false_eq_true, decide_True, Option.some.injEq] at h
      subst h
      have hg := created_nodes_group_events kobj (PerfEvent.sysfs_remove_group kobj)
        (fun g => Or.inr rfl) created
      have hl : sysfs_create_groups_loop env kobj (g :: gs) created log
          = (env.sysfs_create_group kobj g,
             log ++ [PerfEvent.sysfs_create_group kobj g (env.sysfs_create_group kobj g)]
               ++ created.map (PerfEvent.sysfs_remove_group kobj)) := by
        simp only [sysfs_create_groups_loop, ne_eq, h0, not_false_eq_true, if_true]
      rw [hl]
      refine ⟨h0, rfl, ?_, ?_⟩
      · rw [created_nodes_append, created_nodes_append, hg.1]; simp [created_nodes]
      · rw [released_nodes_append, released_nodes_append, hg.2]; simp [released_nodes]

theorem sysfs_create_groups_loop_log (env : KernelEnv) (kobj : Nat) :
    ∀ (gs created : List attribute_group) (log : List PerfEvent),
      (sysfs_create_groups_loop env kobj gs created log).2
        = log ++ (sysfs_create_groups_loop env kobj gs created []).2 := by
  intro gs
  induction gs with
  | nil => intro created log; simp [sysfs_create_groups_loop]
  | cons g gs ih =>
    intro created log
    simp only [sysfs_create_groups_loop]
    by_cases h0 : env.sysfs_create_group kobj g = 0
    · simp only [h0, ne_eq, not_true_eq_false, if_false, List.nil_append]
      rw [ih (g :: created) (log ++ [PerfEvent.sysfs_create_group kobj g 0]),
        ih (g :: created) [PerfEvent.sysfs_create_group kobj g 0]]
      simp
    · simp [h0]

theorem created_nodes_remove_events (kobj : Nat) (gs : List attribute_group) :
    created_nodes (gs.map (PerfEvent.sysfs_remove_group kobj)) = [] ∧
    released_nodes (gs.map (PerfEvent.sysfs_remove_group kobj)) = [] :=
  created_nodes_group_events kobj _ (fun _ => Or.inr rfl) gs

theorem created_nodes_create_events (kobj : Nat) (gs : List attribute_group) :
    created_nodes (gs.map (fun g => PerfEvent.sysfs_create_group kobj g 0)) = [] ∧
    released_nodes (gs.map (fun g => PerfEvent.sysfs_create_group kobj g 0)) = [] :=
  created_nodes_group_events kobj _ (fun _ => Or.inl ⟨0, rfl⟩) gs

theorem create_perf_obj_ok (env : KernelEnv) (parent : Option Nat) (id : Int)
    (gs : List attribute_group) (name : String) (s : perf_state)
    (h : creation_error env s.next gs = none) :
    create_perf_obj env parent id (some gs) name s
      = (Except.ok s.next,
         { objs := s.objs ++ [(s.next,
             { id := id, attr_groups := some gs,
               kobj_name := if id ≠ PERF_OBJ_ROOT_ID then name ++ toString id else name,
               kobj_parent := parent, children := [] })],
           next := s.next + 1,
           log := s.log ++ [PerfEvent.kzalloc s.next, PerfEvent.kobject_init_and_add s.next 0]
                    ++ gs.map (fun g => PerfEvent.sysfs_create_group s.next g 0) }) := by
  unfold creation_error at h
  by_cases hk : env.kzalloc_ok s.next = true
  · by_cases hr : env.kobject_init_and_add s.next = 0
    · simp only [hk, Bool.not_true, Bool.false_eq_true, if_false, hr, ne_eq,
        not_true_eq_false] at h
      simp only [create_perf_obj, hk, Bool.not_true, Bool.false_eq_true, if_false, hr, ne_eq,
        not_true_eq_false, sysfs_create_groups, sysfs_create_groups_loop_ok env s.next gs [] _ h,
        List.append_assoc, List.singleton_append]
    · simp [hk, hr] at h
  · simp [hk] at h

theorem create_perf_obj_fail (env : KernelEnv) (parent : Option Nat) (id : Int)
    (gs : List attribute_group) (name : String) (s : perf_state) (e : Int)
    (h : creation_error env s.next gs = some e) (hfresh : ∀ p ∈ s.objs, p.1 ≠ s.next) :
    create_perf_obj env parent id (some gs) name s
      = (Except.error e,
         { objs := s.objs,
           next := if env.kzalloc_ok s.next then s.next + 1 else s.next,
           log := s.log ++ creation_fail_events env s.next gs }) := by
  have hfilter : List.filter (fun p : Nat × perf_object => decide (p.1 ≠ s.next)) s.objs
      = s.objs := List.filter_eq_self.2 (fun p hp => by simpa using hfresh p hp)
  unfold creation_error at h
  by_cases hk : env.kzalloc_ok s.next = true
  · by_cases hr : env.kobject_init_and_add s.next = 0
    · simp only [hk, Bool.not_true, Bool.false_eq_true, if_false, hr, ne_eq,
        not_true_eq_false] at h
      obtain ⟨hne, h1, _, _⟩ := sysfs_create_groups_loop_fail env s.next gs []
        (s.log ++ [PerfEvent.kzalloc s.next, PerfEvent.kobject_init_and_add s.next 0]) e h
      have hlog := sysfs_create_groups_loop_log env s.next gs []
        (s.log ++ [PerfEvent.kzalloc s.next, PerfEvent.kobject_init_and_add s.next 0])
      simp only [List.append_assoc, List.singleton_append, List.cons_append,
        List.nil_append] at h1 hlog
      simp only [create_perf_obj, hk, Bool.not_true, Bool.false_eq_true, if_false, hr, ne_eq,
        not_true_eq_false, sysfs_create_groups, h1, hne, not_false_eq_true, if_true,
        kobject_put, creation_fail_events, List.filter_append, hfilter, hlog,
        List.append_assoc, List.singleton_append, List.cons_append, List.nil_append]
      simp
    · simp only [hk, Bool.not_true, Bool.false_eq_true, if_false, hr, ne_eq,
        not_false_eq_true, if_true, Option.some.injEq] at h
      subst h
      simp only [create_perf_obj, hk, Bool.not_true, Bool.false_eq_true, if_false, hr, ne_eq,
        not_false_eq_true, if_true, kobject_put, creation_fail_events, List.filter_append,
        hfilter, List.append_assoc, List.singleton_append, List.cons_append, List.nil_append]
      simp
  · have hk' : env.kzalloc_ok s.next = false := by simpa using hk
    simp only [hk', Bool.not_false, if_true, Option.some.injEq] at h
    subst h
    simp [create_perf_obj, hk', creation_fail_events]

theorem creation_error_ne_zero (env : KernelEnv) (a : Nat) (gs : List attribute_group)
    (e : Int) (h : creation_error env a gs = some e) : e ≠ 0 := by
  unfold creation_error at h
  by_cases hk : env.kzalloc_ok a = true
  · by_cases hr : env.kobject_init_and_add a = 0
    · simp only [hk, Bool.not_true, Bool.false_eq_true, if_false, hr, ne_eq,
        not_true_eq_false] at h
      have := List.find?_some h
      simpa using this
    · simp only [hk, Bool.not_true, Bool.false_eq_true, if_false, hr, ne_eq,
        not_false_eq_true, if_true, Option.some.injEq] at h
      rw [← h]; exact hr
  · have hk' : env.kzalloc_ok a = false := by simpa using hk
    simp only [hk', Bool.not_false, if_true, Option.some.injEq] at h
    rw [← h]; decide

theorem creation_fail_events_nodes (env : KernelEnv) (a : Nat) (gs : List attribute_group) :
    created_nodes (creation_fail_events env a gs) = (if env.kzalloc_ok a then [a] else []) ∧
    released_nodes (creation_fail_events env a gs)
      = (if env.kzalloc_ok a then [a] else []) := by
  unfold creation_fail_events
  by_cases hk : env.kzalloc_ok a = true
  · have hloop : created_nodes (sysfs_create_groups_loop env a gs [] []).2 = [] ∧
        released_nodes (sysfs_create_groups_loop env a gs [] []).2 = [] := by
      cases hf : (gs.map (env.sysfs_create_group a)).find? (fun r => decide (r ≠ 0)) with
      | none =>
        rw [sysfs_create_groups_loop_ok env a gs [] [] hf]
        simpa using created_nodes_create_events a gs
      | some e =>
        obtain ⟨_, _, h3, h4⟩ := sysfs_create_groups_loop_fail env a gs [] [] e hf
        exact ⟨by rw [h3]; rfl, by rw [h4]; rfl⟩
    by_cases hr : env.kobject_init_and_add a = 0
    · simp only [hk, Bool.not_true, Bool.false_eq_true, if_false, hr, ne_eq,
        not_true_eq_false, if_true, created_nodes_append, released_nodes_append, hloop.1,
        hloop.2]
      simp [created_nodes, released_nodes]
    · simp [hk, hr, created_nodes, released_nodes]
  · have hk' : env.kzalloc_ok a = false := by simpa using hk
    simp [hk', created_nodes, released_nodes]

theorem created_nodes_nil : created_nodes [] = [] := rfl

theorem released_nodes_nil : released_nodes [] = [] := rfl

theorem created_nodes_cons (e : PerfEvent) (l : List PerfEvent) :
    created_nodes (e :: l)
      = (match e with
         | PerfEvent.kzalloc a => [a]
         | _ => []) ++ created_nodes l := by
  cases e <;> simp [created_nodes, List.filterMap_cons]

theorem released_nodes_cons (e : PerfEvent) (l : List PerfEvent) :
    released_nodes (e :: l)
      = (match e with
         | PerfEvent.kobject_put a => [a]
         | _ => []) ++ released_nodes l := by
  cases e <;> simp [released_nodes, List.filterMap_cons]

theorem create_perf_obj_ok_at (env : KernelEnv) (parent : Option Nat) (id : Int)
    (gs : List attribute_group) (name : String) (objs : List (Nat × perf_object)) (n : Nat)
    (log : List PerfEvent) (h : creation_error env n gs = none) :
    create_perf_obj env parent id (some gs) name { objs := objs, next := n, log := log }
      = (Except.ok n,
         { objs := objs ++ [(n,
             { id := id, attr_groups := some gs,
               kobj_name := if id ≠ PERF_OBJ_ROOT_ID then name ++ toString id else name,
               kobj_parent := parent, children := [] })],
           next := n + 1,
           log := log ++ [PerfEvent.kzalloc n, PerfEvent.kobject_init_and_add n 0]
                    ++ gs.map (fun g => PerfEvent.sysfs_create_group n g 0) }) :=
  create_perf_obj_ok env parent id gs name { objs := objs, next := n, log := log } h

theorem create_perf_obj_fail_at (env : KernelEnv) (parent : Option Nat) (id : Int)
    (gs : List attribute_group) (name : String) (objs : List (Nat × perf_object)) (n : Nat)
    (log : List PerfEvent) (e : Int)
    (h : creation_error env n gs = some e) (hfresh : ∀ p ∈ objs, p.1 ≠ n) :
    create_perf_obj env parent id (some gs) name { objs := objs, next := n, log := log }
      = (Except.error e,
         { objs := objs,
           next := if env.kzalloc_ok n then n + 1 else n,
           log := log ++ creation_fail_events env n gs }) :=
  create_perf_obj_fail env parent id gs name { objs := objs, next := n, log := log } e h hfresh

theorem creation_error_cases (env : KernelEnv) (a : Nat) (gs : List attribute_group) (e : Int)
    (h : creation_error env a gs = some e) :
    e = -ENOMEM ∨ e = env.kobject_init_and_add a ∨ ∃ g, e = env.sysfs_create_group a g := by
  unfold creation_error at h
  by_cases hk : env.kzalloc_ok a = true
  · by_cases hr : env.kobject_init_and_add a = 0
    · simp only [hk, Bool.not_true, Bool.false_eq_true, if_false, hr, ne_eq,
        not_true_eq_false] at h
      have hm := List.mem_of_find?_eq_some h
      rw [List.mem_map] at hm
      obtain ⟨g, _, hg⟩ := hm
      exact Or.inr (Or.inr ⟨g, hg.symm⟩)
    · simp only [hk, Bool.not_true, Bool.false_eq_true, if_false, ne_eq, hr, not_false_eq_true,
        if_true, Option.some.injEq] at h
      exact Or.inr (Or.inl h.symm)
  · simp only [Bool.not_eq_true] at hk
    simp only [hk, Bool.not_false, if_true, Option.some.injEq] at h
    exact Or.inl h.symm

theorem first_creation_error_cases (env : KernelEnv) :
    ∀ (l : List (List attribute_group)) (a : Nat) (e : Int),
      first_creation_error env l a = some e → ∃ b gs, creation_error env b gs = some e := by
  intro l
  induction l with
  | nil => intro a e h; simp [first_creation_error] at h
  | cons gs rest ih =>
    intro a e h
    simp only [first_creation_error] at h
    rcases hc : creation_error env a gs with _ | e1
    · rw [hc] at h
      exact ih (a + 1) e h
    · rw [hc] at h
      simp only [Option.some.injEq] at h
      exact ⟨a, gs, by rw [hc, h]⟩

theorem creation_error_errno (env : KernelEnv) (herrno : env.returns_errno) (b : Nat)
    (gs : List attribute_group) (e : Int) (h : creation_error env b gs = some e) :
    -MAX_ERRNO ≤ e ∧ e < 0 := by
  have hne := creation_error_ne_zero _ _ _ _ h
  rcases creation_error_cases env b gs e h with he | he | ⟨g, he⟩
  · subst he
    decide
  · have hb := herrno.1 b
    rw [← he] at hb
    exact ⟨hb.1, lt_of_le_of_ne hb.2 hne⟩
  · have hb := herrno.2 b g
    rw [← he] at hb
    exact ⟨hb.1, lt_of_le_of_ne hb.2 hne⟩

theorem env_enomem_at_returns_errno (k : Nat) : (env_enomem_at k).returns_errno :=
  ⟨fun _ => by simp [env_enomem_at, MAX_ERRNO], fun _ _ => by simp [env_enomem_at, MAX_ERRNO]⟩

theorem fme_perf_init_outcome (f : Nat) (env : KernelEnv) (hw : Hardware) (t : Trace)
    (pd : Option Nat) :
    ∃ r, fme_perf_init (f + 3) env hw t perf_state_empty pd = some r ∧
      (∀ e, first_creation_error env (planned_nodes (iommu_supported hw t)) 0 = some e →
        r.ret = e ∧ e ≠ 0 ∧ r.state.objs = [] ∧ r.perf_dev = pd ∧
        released_nodes r.state.log = (created_nodes r.state.log).reverse) ∧
      (first_creation_error env (planned_nodes (iommu_supported hw t)) 0 = none →
        r.ret = 0 ∧ r.perf_dev = some 0 ∧
        r.trace = t ++ [Event.readq Reg.capability (hw t Reg.capability % U64_MOD)] ∧
        r.state.objs = (if iommu_supported hw t then perf_tree_iommu else perf_tree_plain) ∧
        created_nodes r.state.log
          = (if iommu_supported hw t then [0, 1, 2, 3, 4, 5, 6] else [0, 1, 2, 3]) ∧
        released_nodes r.state.log = []) := by
  rcases h0 : creation_error env 0 perf_dev_attr_groups with _ | e0
  · by_cases hi : capability_iommu_support.get (hw t Reg.capability % U64_MOD) = 0
    · rcases h1 : creation_error env 1 fabric_top_attr_groups with _ | e1
      · rcases h2 : creation_error env 2 fabric_attr_groups with _ | e2
        · rcases h3 : creation_error env 3 fabric_attr_groups with _ | e3
          · simp [fme_perf_init, create_perf_dev, perf_state_empty, create_perf_obj_ok_at,
      create_perf_obj_fail_at, create_perf_iommu_obj, readq, list_add, create_perf_children,
      PERF_MAX_PORT_NUM, create_perf_fabric_obj, PERF_OBJ_ROOT_ID, destroy_perf_obj,
      perf_state.find, list_del, kobject_put, sysfs_remove_groups, List.foldlM,
      released_nodes_append, created_nodes_append, created_nodes_cons, released_nodes_cons,
      created_nodes_nil, released_nodes_nil, (created_nodes_create_events _ _).1,
      (created_nodes_create_events _ _).2, (created_nodes_remove_events _ _).1,
      (created_nodes_remove_events _ _).2, first_creation_error, planned_nodes,
      iommu_supported, perf_tree_iommu, perf_tree_plain,
              h0, hi, h1, h2, h3]
          · have hne := creation_error_ne_zero _ _ _ _ h3
            have hn := creation_fail_events_nodes env 3 fabric_attr_groups
            simp [fme_perf_init, create_perf_dev, perf_state_empty, create_perf_obj_ok_at,
      create_perf_obj_fail_at, create_perf_iommu_obj, readq, list_add, create_perf_children,
      PERF_MAX_PORT_NUM, create_perf_fabric_obj, PERF_OBJ_ROOT_ID, destroy_perf_obj,
      perf_state.find, list_del, kobject_put, sysfs_remove_groups, List.foldlM,
      released_nodes_append, created_nodes_append, created_nodes_cons, released_nodes_cons,
      created_nodes_nil, released_nodes_nil, (created_nodes_create_events _ _).1,
      (created_nodes_create_events _ _).2, (created_nodes_remove_events _ _).1,
      (created_nodes_remove_events _ _).2, first_creation_error, planned_nodes,
      iommu_supported, perf_tree_iommu, perf_tree_plain,
              h0, hi, h1, h2, h3, hne, hn.1, hn.2]
            split <;> rfl
        · have hne := creation_error_ne_zero _ _ _ _ h2
          have hn := creation_fail_events_nodes env 2 fabric_attr_groups
          simp [fme_perf_init, create_perf_dev, perf_state_empty, create_perf_obj_ok_at,
      create_perf_obj_fail_at, create_perf_iommu_obj, readq, list_add, create_perf_children,
      PERF_MAX_PORT_NUM, create_perf_fabric_obj, PERF_OBJ_ROOT_ID, destroy_perf_obj,
      perf_state.find, list_del, kobject_put, sysfs_remove_groups, List.foldlM,
      released_nodes_append, created_nodes_append, created_nodes_cons, released_nodes_cons,
      created_nodes_nil, released_nodes_nil, (created_nodes_create_events _ _).1,
      (created_nodes_create_events _ _).2, (created_nodes_remove_events _ _).1,
      (created_nodes_remove_events _ _).2, first_creation_error, planned_nodes,
      iommu_supported, perf_tree_iommu, perf_tree_plain,
            h0, hi, h1, h2, hne, hn.1, hn.2]
          split <;> rfl
      · have hne := creation_error_ne_zero _ _ _ _ h1
        have hn := creation_fail_events_nodes env 1 fabric_top_attr_groups
        simp [fme_perf_init, create_perf_dev, perf_state_empty, create_perf_obj_ok_at,
      create_perf_obj_fail_at, create_perf_iommu_obj, readq, list_add, create_perf_children,
      PERF_MAX_PORT_NUM, create_perf_fabric_obj, PERF_OBJ_ROOT_ID, destroy_perf_obj,
      perf_state.find, list_del, kobject_put, sysfs_remove_groups, List.foldlM,
      released_nodes_append, created_nodes_append, created_nodes_cons, released_nodes_cons,
      created_nodes_nil, released_nodes_nil, (created_nodes_create_events _ _).1,
      (created_nodes_create_events _ _).2, (created_nodes_remove_events _ _).1,
      (created_nodes_remove_events _ _).2, first_creation_error, planned_nodes,
      iommu_supported, perf_tree_iommu, perf_tree_plain,
          h0, hi, h1, hne, hn.1, hn.2]
        split <;> rfl
    · rcases h1 : creation_error env 1 iommu_top_attr_groups with _ | e1
      · rcases h2 : creation_error env 2 iommu_attr_groups with _ | e2
        · rcases h3 : creation_error env 3 iommu_attr_groups with _ | e3
          · rcases h4 : creation_error env 4 fabric_top_attr_groups with _ | e4
            · rcases h5 : creation_error env 5 fabric_attr_groups with _ | e5
              · rcases h6 : creation_error env 6 fabric_attr_groups with _ | e6
                · simp [fme_perf_init, create_perf_dev, perf_state_empty, create_perf_obj_ok_at,
      create_perf_obj_fail_at, create_perf_iommu_obj, readq, list_add, create_perf_children,
      PERF_MAX_PORT_NUM, create_perf_fabric_obj, PERF_OBJ_ROOT_ID, destroy_perf_obj,
      perf_state.find, list_del, kobject_put, sysfs_remove_groups, List.foldlM,
      released_nodes_append, created_nodes_append, created_nodes_cons, released_nodes_cons,
      created_nodes_nil, released_nodes_nil, (created_nodes_create_events _ _).1,
      (created_nodes_create_events _ _).2, (created_nodes_remove_events _ _).1,
      (created_nodes_remove_events _ _).2, first_creation_error, planned_nodes,
      iommu_supported, perf_tree_iommu, perf_tree_plain,
                    h0, hi, h1, h2, h3, h4, h5, h6]
                · have hne := creation_error_ne_zero _ _ _ _ h6
                  have hn := creation_fail_events_nodes env 6 fabric_attr_groups
                  simp [fme_perf_init, create_perf_dev, perf_state_empty, create_perf_obj_ok_at,
      create_perf_obj_fail_at, create_perf_iommu_obj, readq, list_add, create_perf_children,
      PERF_MAX_PORT_NUM, create_perf_fabric_obj, PERF_OBJ_ROOT_ID, destroy_perf_obj,
      perf_state.find, list_del, kobject_put, sysfs_remove_groups, List.foldlM,
      released_nodes_append, created_nodes_append, created_nodes_cons, released_nodes_cons,
      created_nodes_nil, released_nodes_nil, (created_nodes_create_events _ _).1,
      (created_nodes_create_events _ _).2, (created_nodes_remove_events _ _).1,
      (created_nodes_remove_events _ _).2, first_creation_error, planned_nodes,
      iommu_supported, perf_tree_iommu, perf_tree_plain,
                    h0, hi, h1, h2, h3, h4, h5, h6, hne, hn.1, hn.2]
                  split <;> rfl
              · have hne := creation_error_ne_zero _ _ _ _ h5
                have hn := creation_fail_events_nodes env 5 fabric_attr_groups
                simp [fme_perf_init, create_perf_dev, perf_state_empty, create_perf_obj_ok_at,
      create_perf_obj_fail_at, create_perf_iommu_obj, readq, list_add, create_perf_children,
      PERF_MAX_PORT_NUM, create_perf_fabric_obj, PERF_OBJ_ROOT_ID, destroy_perf_obj,
      perf_state.find, list_del, kobject_put, sysfs_remove_groups, List.foldlM,
      released_nodes_append, created_nodes_append, created_nodes_cons, released_nodes_cons,
      created_nodes_nil, released_nodes_nil, (created_nodes_create_events _ _).1,
      (created_nodes_create_events _ _).2, (created_nodes_remove_events _ _).1,
      (created_nodes_remove_events _ _).2, first_creation_error, planned_nodes,
      iommu_supported, perf_tree_iommu, perf_tree_plain,
                  h0, hi, h1, h2, h3, h4, h5, hne, hn.1, hn.2]
                split <;> rfl
            · have hne := creation_error_ne_zero _ _ _ _ h4
              have hn := creation_fail_events_nodes env 4 fabric_top_attr_groups
              simp [fme_perf_init, create_perf_dev, perf_state_empty, create_perf_obj_ok_at,
      create_perf_obj_fail_at, create_perf_iommu_obj, readq, list_add, create_perf_children,
      PERF_MAX_PORT_NUM, create_perf_fabric_obj, PERF_OBJ_ROOT_ID, destroy_perf_obj,
      perf_state.find, list_del, kobject_put, sysfs_remove_groups, List.foldlM,
      released_nodes_append, created_nodes_append, created_nodes_cons, released_nodes_cons,
      created_nodes_nil, released_nodes_nil, (created_nodes_create_events _ _).1,
      (created_nodes_create_events _ _).2, (created_nodes_remove_events _ _).1,
      (created_nodes_remove_events _ _).2, first_creation_error, planned_nodes,
      iommu_supported, perf_tree_iommu, perf_tree_plain,
                h0, hi, h1, h2, h3, h4, hne, hn.1, hn.2]
              split <;> rfl
          · have hne := creation_error_ne_zero _ _ _ _ h3
            have hn := creation_fail_events_nodes env 3 iommu_attr_groups
            simp [fme_perf_init, create_perf_dev, perf_state_empty, create_perf_obj_ok_at,
      create_perf_obj_fail_at, create_perf_iommu_obj, readq, list_add, create_perf_children,
      PERF_MAX_PORT_NUM, create_perf_fabric_obj, PERF_OBJ_ROOT_ID, destroy_perf_obj,
      perf_state.find, list_del, kobject_put, sysfs_remove_groups, List.foldlM,
      released_nodes_append, created_nodes_append, created_nodes_cons, released_nodes_cons,
      created_nodes_nil, released_nodes_nil, (created_nodes_create_events _ _).1,
      (created_nodes_create_events _ _).2, (created_nodes_remove_events _ _).1,
      (created_nodes_remove_events _ _).2, first_creation_error, planned_nodes,
      iommu_supported, perf_tree_iommu, perf_tree_plain,
              h0, hi, h1, h2, h3, hne, hn.1, hn.2]
            split <;> rfl
        · have hne := creation_error_ne_zero _ _ _ _ h2
          have hn := creation_fail_events_nodes env 2 iommu_attr_groups
          simp [fme_perf_init, create_perf_dev, perf_state_empty, create_perf_obj_ok_at,
      create_perf_obj_fail_at, create_perf_iommu_obj, readq, list_add, create_perf_children,
      PERF_MAX_PORT_NUM, create_perf_fabric_obj, PERF_OBJ_ROOT_ID, destroy_perf_obj,
      perf_state.find, list_del, kobject_put, sysfs_remove_groups, List.foldlM,
      released_nodes_append, created_nodes_append, created_nodes_cons, released_nodes_cons,
      created_nodes_nil, released_nodes_nil, (created_nodes_create_events _ _).1,
      (created_nodes_create_events _ _).2, (created_nodes_remove_events _ _).1,
      (created_nodes_remove_events _ _).2, first_creation_error, planned_nodes,
      iommu_supported, perf_tree_iommu, perf_tree_plain,
            h0, hi, h1, h2, hne, hn.1, hn.2]
          split <;> rfl
      · have hne := creation_error_ne_zero _ _ _ _ h1
        have hn := creation_fail_events_nodes env 1 iommu_top_attr_groups
        simp [fme_perf_init, create_perf_dev, perf_state_empty, create_perf_obj_ok_at,
      create_perf_obj_fail_at, create_perf_iommu_obj, readq, list_add, create_perf_children,
      PERF_MAX_PORT_NUM, create_perf_fabric_obj, PERF_OBJ_ROOT_ID, destroy_perf_obj,
      perf_state.find, list_del, kobject_put, sysfs_remove_groups, List.foldlM,
      released_nodes_append, created_nodes_append, created_nodes_cons, released_nodes_cons,
      created_nodes_nil, released_nodes_nil, (created_nodes_create_events _ _).1,
      (created_nodes_create_events _ _).2, (created_nodes_remove_events _ _).1,
      (created_nodes_remove_events _ _).2, first_creation_error, planned_nodes,
      iommu_supported, perf_tree_iommu, perf_tree_plain,
          h0, hi, h1, hne, hn.1, hn.2]
        split <;> rfl
  · have hne := creation_error_ne_zero _ _ _ _ h0
    have hn := creation_fail_events_nodes env 0 perf_dev_attr_groups
    simp [fme_perf_init, create_perf_dev, perf_state_empty, create_perf_obj_ok_at,
      create_perf_obj_fail_at, create_perf_iommu_obj, readq, list_add, create_perf_children,
      PERF_MAX_PORT_NUM, create_perf_fabric_obj, PERF_OBJ_ROOT_ID, destroy_perf_obj,
      perf_state.find, list_del, kobject_put, sysfs_remove_groups, List.foldlM,
      released_nodes_append, created_nodes_append, created_nodes_cons, released_nodes_cons,
      created_nodes_nil, released_nodes_nil, (created_nodes_create_events _ _).1,
      (created_nodes_create_events _ _).2, (created_nodes_remove_events _ _).1,
      (created_nodes_remove_events _ _).2, first_creation_error, planned_nodes,
      iommu_supported, perf_tree_iommu, perf_tree_plain,
      h0, hne, hn.1, hn.2]
    split <;> rfl

theorem destroy_perf_tree_iommu (f n : Nat) (log : List PerfEvent) :
    (destroy_perf_obj (f + 3) 0 { objs := perf_tree_iommu, next := n, log := log }).map
        (fun s => (s.objs, s.next, created_nodes s.log, released_nodes s.log))
      = some ([], n, created_nodes log, released_nodes log ++ [6, 5, 4, 3, 2, 1, 0]) := by
  simp [destroy_perf_obj, perf_tree_iommu, perf_state.find, list_del, kobject_put,
    sysfs_remove_groups, List.foldlM, released_nodes_append, created_nodes_append,
    created_nodes_cons, released_nodes_cons, created_nodes_nil, released_nodes_nil,
    (created_nodes_remove_events _ _).1, (created_nodes_remove_events _ _).2]

theorem destroy_perf_tree_plain (f n : Nat) (log : List PerfEvent) :
    (destroy_perf_obj (f + 3) 0 { objs := perf_tree_plain, next := n, log := log }).map
        (fun s => (s.objs, s.next, created_nodes s.log, released_nodes s.log))
      = some ([], n, created_nodes log, released_nodes log ++ [3, 2, 1, 0]) := by
  simp [destroy_perf_obj, perf_tree_plain, perf_state.find, list_del, kobject_put,
    sysfs_remove_groups, List.foldlM, released_nodes_append, created_nodes_append,
    created_nodes_cons, released_nodes_cons, created_nodes_nil, released_nodes_nil,
    (created_nodes_remove_events _ _).1, (created_nodes_remove_events _ _).2]

/-- What a run of `fme_perf_init` that returned 0 has built. -/
theorem fme_perf_init_success (f : Nat) (env : KernelEnv) (hw : Hardware) (t : Trace)
    (pd : Option Nat) (r : PerfResult)
    (hinit : fme_perf_init (f + 3) env hw t perf_state_empty pd = some r) (hret : r.ret = 0) :
    r.perf_dev = some 0 ∧
    r.state.objs = (if iommu_supported hw t then perf_tree_iommu else perf_tree_plain) ∧
    created_nodes r.state.log
      = (if iommu_supported hw t then [0, 1, 2, 3, 4, 5, 6] else [0, 1, 2, 3]) ∧
    released_nodes r.state.log = [] := by
  obtain ⟨r1, hr1, hfail, hok⟩ := fme_perf_init_outcome f env hw t pd
  rw [hr1] at hinit
  cases hinit
  rcases hfce : first_creation_error env (planned_nodes (iommu_supported hw t)) 0 with _ | e
  · obtain ⟨_, hpd, _, hobjs, hcr, hrel⟩ := hok hfce
    exact ⟨hpd, hobjs, hcr, hrel⟩
  · obtain ⟨he, hne, _⟩ := hfail e hfce
    exact absurd (he.symm.trans hret) hne

/-- C18: failed tree construction leaves nothing behind. Starting with no
counter objects and a kernel whose services return 0 or a negative errno, if
the creation of one of the planned objects fails (the root; with the IOMMU bit
set the iommu node and its two children; the fabric node and its two
children), then `fme_perf_init` returns, its return value is the error of the
first creation that fails, a negative errno, no live object remains,
`fme->perf_dev` is left as it was, and the addresses released are those
allocated, in reverse order. -/
theorem failed_perf_init_leaves_nothing (fuel : Nat) (hfuel : 3 ≤ fuel) (env : KernelEnv)
    (herrno : env.returns_errno) (hw : Hardware) (t : Trace) (perf_dev : Option Nat) (e : Int)
    (hfail : first_creation_error env (planned_nodes (iommu_supported hw t)) 0 = some e) :
    ∃ r, fme_perf_init fuel env hw t perf_state_empty perf_dev = some r ∧
      r.ret = e ∧ -MAX_ERRNO ≤ e ∧ e < 0 ∧ r.state.objs = [] ∧ r.perf_dev = perf_dev ∧
      released_nodes r.state.log = (created_nodes r.state.log).reverse := by
  obtain ⟨f, rfl⟩ : ∃ f, fuel = f + 3 := ⟨fuel - 3, by omega⟩
  obtain ⟨r, hr, hf, _⟩ := fme_perf_init_outcome f env hw t perf_dev
  obtain ⟨b, gs, hb⟩ := first_creation_error_cases env _ _ e hfail
  obtain ⟨h1, _, h3, h4, h5⟩ := hf e hfail
  obtain ⟨hlo, hhi⟩ := creation_error_errno env herrno b gs e hb
  exact ⟨r, hr, h1, hlo, hhi, h3, h4, h5⟩

theorem failed_perf_init_leaves_nothing_witness :
    (env_enomem_at 2).returns_errno ∧
    first_creation_error (env_enomem_at 2) (planned_nodes (iommu_supported hw_iommu [])) 0
      = some (-ENOMEM) ∧
    ∃ r, fme_perf_init 3 (env_enomem_at 2) hw_iommu [] perf_state_empty none = some r ∧
      r.ret = -ENOMEM ∧ -MAX_ERRNO ≤ -ENOMEM ∧ -ENOMEM < 0 ∧ r.state.objs = [] ∧
      r.perf_dev = none ∧
      released_nodes r.state.log = (created_nodes r.state.log).reverse :=
  ⟨env_enomem_at_returns_errno 2, by decide,
   failed_perf_init_leaves_nothing 3 (by decide) (env_enomem_at 2)
     (env_enomem_at_returns_errno 2) hw_iommu [] none (-ENOMEM) (by decide)⟩

/-- C19: tree build / destroy round trip. Whatever the capability register
reads, if `fme_perf_init` (from no counter objects) returned 0, then
`fme_perf_uinit` on the state it left returns, no live object remains,
`fme->perf_dev` is NULL, the teardown allocates nothing, the number of
releases equals the number of allocations (7 with the IOMMU bit set, 4
without), the releases are the allocations in reverse order, and every child
is released before its parent. -/
theorem perf_tree_round_trip (fuel fuel2 : Nat) (hfuel : 3 ≤ fuel) (hfuel2 : 3 ≤ fuel2)
    (env : KernelEnv) (hw : Hardware) (t : Trace) (perf_dev : Option Nat) (r : PerfResult)
    (hinit : fme_perf_init fuel env hw t perf_state_empty perf_dev = some r)
    (hret : r.ret = 0) :
    ∃ r2, fme_perf_uinit fuel2 r.trace r.state r.perf_dev = some r2 ∧
      r2.state.objs = [] ∧ r2.perf_dev = none ∧
      created_nodes r2.state.log = created_nodes r.state.log ∧
      created_nodes r2.state.log
        = (if iommu_supported hw t then [0, 1, 2, 3, 4, 5, 6] else [0, 1, 2, 3]) ∧
      (released_nodes r2.state.log).length = (created_nodes r2.state.log).length ∧
      released_nodes r2.state.log = (created_nodes r2.state.log).reverse ∧
      ∀ p ∈ r.state.objs, ∀ c ∈ p.2.children,
        (released_nodes r2.state.log).indexOf c < (released_nodes r2.state.log).indexOf p.1 := by
  obtain ⟨f, rfl⟩ : ∃ f, fuel = f + 3 := ⟨fuel - 3, by omega⟩
  obtain ⟨f2, rfl⟩ : ∃ f, fuel2 = f + 3 := ⟨fuel2 - 3, by omega⟩
  obtain ⟨hpd, hobjs, hcr, hrel⟩ := fme_perf_init_success f env hw t perf_dev r hinit hret
  rcases r with ⟨ret, tr, ⟨objs, next, log⟩, pd⟩
  simp only at hpd hobjs hcr hrel
  subst hpd
  cases hbit : iommu_supported hw t
  · simp only [hbit, Bool.false_eq_true, if_false] at hobjs hcr
    subst hobjs
    have hd := destroy_perf_tree_plain f2 next log
    rw [Option.map_eq_some'] at hd
    obtain ⟨s, hs, hg⟩ := hd
    simp only [Prod.mk.injEq] at hg
    obtain ⟨h1, _, h3, h4⟩ := hg
    refine ⟨{ ret := 0, trace := tr, state := s, perf_dev := none }, ?_, h1, rfl, ?_, ?_, ?_, ?_,
      ?_⟩
    · simp only [fme_perf_uinit, hs, Option.map_some']
    · simp only [h3]
    · simp only [h3, hcr, Bool.false_eq_true, if_false]
    · simp [h3, h4, hcr, hrel]
    · simp [h3, h4, hcr, hrel]
    · simp only [h4, hrel, List.nil_append]
      decide
  · simp only [hbit, if_true] at hobjs hcr
    subst hobjs
    have hd := destroy_perf_tree_iommu f2 next log
    rw [Option.map_eq_some'] at hd
    obtain ⟨s, hs, hg⟩ := hd
    simp only [Prod.mk.injEq] at hg
    obtain ⟨h1, _, h3, h4⟩ := hg
    refine ⟨{ ret := 0, trace := tr, state := s, perf_dev := none }, ?_, h1, rfl, ?_, ?_, ?_, ?_,
      ?_⟩
    · simp only [fme_perf_uinit, hs, Option.map_some']
    · simp only [h3]
    · simp only [h3, hcr, if_true]
    · simp [h3, h4, hcr, hrel]
    · simp [h3, h4, hcr, hrel]
    · simp only [h4, hrel, List.nil_append]
      decide

theorem perf_tree_round_trip_witness :
    ∃ r, fme_perf_init 3 env_ok hw_iommu [] perf_state_empty none = some r ∧ r.ret = 0 ∧
      ∃ r2, fme_perf_uinit 3 r.trace r.state r.perf_dev = some r2 ∧
        r2.state.objs = [] ∧ r2.perf_dev = none ∧
        created_nodes r2.state.log = created_nodes r.state.log ∧
        created_nodes r2.state.log = [0, 1, 2, 3, 4, 5, 6] ∧
        (released_nodes r2.state.log).length = (created_nodes r2.state.log).length ∧
        released_nodes r2.state.log = (created_nodes r2.state.log).reverse ∧
        ∀ p ∈ r.state.objs, ∀ c ∈ p.2.children,
          (released_nodes r2.state.log).indexOf c
            < (released_nodes r2.state.log).indexOf p.1 :=
  ⟨_, rfl, rfl,
   perf_tree_round_trip 3 3 (by decide) (by decide) env_ok hw_iommu [] none _ rfl rfl⟩

/-- C20: tree shape. If `fme_perf_init` (from no counter objects) returned 0,
`fme->perf_dev` is the root and the live objects are, by address with name,
id, parent, children and entries: the root "perf" (root id) with the clock and
cache entries; a "fabric" node (root id) under the root, showing the eight
fabric counters, enable and freeze, with exactly two children "port0" and
"port1" (ids 0 and 1) showing the eight fabric counters and enable; and, exactly
when the capability register read has its `iommu_support` bit set, an "iommu"
node (root id) under the root showing freeze only, with exactly two children
"afu0" and "afu1" (ids 0 and 1) showing the four transaction and TLB
counters. -/
theorem perf_tree_shape (fuel : Nat) (hfuel : 3 ≤ fuel) (env : KernelEnv) (hw : Hardware)
    (t : Trace) (perf_dev : Option Nat) (r : PerfResult)
    (hinit : fme_perf_init fuel env hw t perf_state_empty perf_dev = some r)
    (hret : r.ret = 0) :
    r.perf_dev = some 0 ∧
    (iommu_supported hw t = true
      ↔ capability_iommu_support.get (hw t Reg.capability % U64_MOD) = 1) ∧
    node_table r.state.objs =
      (if iommu_supported hw t then
        [(0, "perf", PERF_OBJ_ROOT_ID, none, [4, 1],
            ["revision", "clock", "read_hit", "read_miss", "write_hit", "write_miss",
             "hold_request", "data_write_port_contention", "tag_write_port_contention",
             "tx_req_stall", "rx_req_stall", "rx_eviction", "freeze"]),
         (1, "iommu", PERF_OBJ_ROOT_ID, some 0, [3, 2], ["freeze"]),
         (2, "afu0", 0, some 1, [],
            ["read_transaction", "write_transaction", "tlb_read_hit", "tlb_write_hit"]),
         (3, "afu1", 1, some 1, [],
            ["read_transaction", "write_transaction", "tlb_read_hit", "tlb_write_hit"]),
         (4, "fabric", PERF_OBJ_ROOT_ID, some 0, [6, 5],
            ["pcie0_read", "pcie0_write", "pcie1_read", "pcie1_write", "upi_read",
             "upi_write", "mmio_read", "mmio_write", "enable", "freeze"]),
         (5, "port0", 0, some 4, [],
            ["pcie0_read", "pcie0_write", "pcie1_read", "pcie1_write", "upi_read",
             "upi_write", "mmio_read", "mmio_write", "enable"]),
         (6, "port1", 1, some 4, [],
            ["pcie0_read", "pcie0_write", "pcie1_read", "pcie1_write", "upi_read",
             "upi_write", "mmio_read", "mmio_write", "enable"])]
      else
        [(0, "perf", PERF_OBJ_ROOT_ID, none, [1],
            ["revision", "clock", "read_hit", "read_miss", "write_hit", "write_miss",
             "hold_request", "data_write_port_contention", "tag_write_port_contention",
             "tx_req_stall", "rx_req_stall", "rx_eviction", "freeze"]),
         (1, "fabric", PERF_OBJ_ROOT_ID, some 0, [3, 2],
            ["pcie0_read", "pcie0_write", "pcie1_read", "pcie1_write", "upi_read",
             "upi_write", "mmio_read", "mmio_write", "enable", "freeze"]),
         (2, "port0", 0, some 1, [],
            ["pcie0_read", "pcie0_write", "pcie1_read", "pcie1_write", "upi_read",
             "upi_write", "mmio_read", "mmio_write", "enable"]),
         (3, "port1", 1, some 1, [],
            ["pcie0_read", "pcie0_write", "pcie1_read", "pcie1_write", "upi_read",
             "upi_write", "mmio_read", "mmio_write", "enable"])]) := by
  obtain ⟨f, rfl⟩ : ∃ f, fuel = f + 3 := ⟨fuel - 3, by omega⟩
  obtain ⟨hpd, hobjs, _, _⟩ := fme_perf_init_success f env hw t perf_dev r hinit hret
  refine ⟨hpd, ?_, ?_⟩
  · have hlt : capability_iommu_support.get (hw t Reg.capability % U64_MOD) < 2 := by
      simp only [BitField.get, capability_iommu_support]
      norm_num
      omega
    simp only [iommu_supported, readq, decide_eq_true_eq]
    omega
  · rw [hobjs]
    cases iommu_supported hw t
    · rfl
    · rfl

theorem perf_tree_shape_witness :
    ∃ r, fme_perf_init 3 env_ok hw_iommu [] perf_state_empty none = some r ∧ r.ret = 0 ∧
      r.perf_dev = some 0 ∧
      (node_table r.state.objs).map (fun n => (n.1, n.2.1, n.2.2.1))
        = [(0, "perf", -1), (1, "iommu", -1), (2, "afu0", 0), (3, "afu1", 1),
           (4, "fabric", -1), (5, "port0", 0), (6, "port1", 1)] :=
  ⟨_, rfl, rfl,
   (perf_tree_shape 3 (by decide) env_ok hw_iommu [] none _ rfl rfl).1,
   by rw [(perf_tree_shape 3 (by decide) env_ok hw_iommu [] none _ rfl rfl).2.2]; decide⟩

/-! ## Theorems: bit-field assignment and the poll loop in general -/

/-- The value of a register after a bit-field assignment, by its three parts:
the bits above the field, the new field, the bits below the field. -/
theorem BitField.set_eq (f : BitField) (csr v : Nat) :
    f.set csr v
      = 2 ^ f.lo * (2 ^ f.width * (csr / 2 ^ f.lo / 2 ^ f.width) + v % 2 ^ f.width)
        + csr % 2 ^ f.lo := by
  unfold BitField.set BitField.get
  have h1 := Nat.div_add_mod csr (2 ^ f.lo)
  have h2 := Nat.div_add_mod (csr / 2 ^ f.lo) (2 ^ f.width)
  have h3 : csr = 2 ^ f.lo * (2 ^ f.width * (csr / 2 ^ f.lo / 2 ^ f.width))
      + 2 ^ f.lo * (csr / 2 ^ f.lo % 2 ^ f.width) + csr % 2 ^ f.lo := by
    rw [← Nat.mul_add, h2, h1]
  have h4 : csr - csr / 2 ^ f.lo % 2 ^ f.width * 2 ^ f.lo
      = 2 ^ f.lo * (2 ^ f.width * (csr / 2 ^ f.lo / 2 ^ f.width)) + csr % 2 ^ f.lo := by
    conv_lhs => lhs; rw [h3]
    rw [Nat.mul_comm (csr / 2 ^ f.lo % 2 ^ f.width) (2 ^ f.lo)]
    omega
  rw [h4, Nat.mul_add, Nat.mul_comm (v % 2 ^ f.width) (2 ^ f.lo)]
  omega

theorem BitField.get_set (f : BitField) (csr v : Nat) :
    f.get (f.set csr v) = v % 2 ^ f.width := by
  rw [BitField.set_eq]
  unfold BitField.get
  have hpos : 0 < 2 ^ f.lo := by positivity
  have hlt : csr % 2 ^ f.lo < 2 ^ f.lo := Nat.mod_lt _ hpos
  rw [Nat.mul_add_div hpos, Nat.div_eq_of_lt hlt, Nat.add_zero, Nat.mul_add_mod,
    Nat.mod_mod]

theorem BitField.testBit_set_of_lt (f : BitField) (csr v i : Nat) (h : i < f.lo) :
    (f.set csr v).testBit i = csr.testBit i := by
  rw [BitField.set_eq]
  have hlt : csr % 2 ^ f.lo < 2 ^ f.lo := Nat.mod_lt _ (by positivity)
  rw [Nat.testBit_mul_pow_two_add _ hlt]
  simp [h, Nat.testBit_mod_two_pow]

theorem BitField.testBit_set_of_ge (f : BitField) (csr v i : Nat) (h : f.lo + f.width ≤ i) :
    (f.set csr v).testBit i = csr.testBit i := by
  rw [BitField.set_eq]
  have hlt : csr % 2 ^ f.lo < 2 ^ f.lo := Nat.mod_lt _ (by positivity)
  have hlt2 : v % 2 ^ f.width < 2 ^ f.width := Nat.mod_lt _ (by positivity)
  rw [Nat.testBit_mul_pow_two_add _ hlt]
  have h1 : ¬ i < f.lo := by omega
  simp only [h1, if_false]
  rw [Nat.testBit_mul_pow_two_add _ hlt2]
  have h2 : ¬ i - f.lo < f.width := by omega
  simp only [h2, if_false]
  rw [← Nat.shiftRight_eq_div_pow, ← Nat.shiftRight_eq_div_pow, Nat.testBit_shiftRight,
    Nat.testBit_shiftRight]
  congr 1
  omega

theorem BitField.set_lt (f : BitField) (csr v n : Nat) (hcsr : csr < 2 ^ n)
    (hf : f.lo + f.width ≤ n) : f.set csr v < 2 ^ n := by
  apply Nat.lt_pow_two_of_testBit
  intro i hi
  rw [BitField.testBit_set_of_ge f csr v i (by omega)]
  exact Nat.testBit_lt_two_pow (lt_of_lt_of_le hcsr (Nat.pow_le_pow_right (by decide) hi))

theorem poll_history_ext (hw : Hardware) (r : Reg) :
    ∀ (k : Nat) (t : Trace), ∃ ext, poll_history hw r k t = t ++ ext ∧
      (∀ e ∈ ext, e = Event.udelay 1 ∨ ∃ v, e = Event.readq r v) ∧
      (reads_of r ext).length = k := by
  intro k
  induction k with
  | zero => intro t; exact ⟨[], by simp [poll_history], by simp, by simp [reads_of]⟩
  | succ k ih =>
    intro t
    obtain ⟨ext, he, hev, hlen⟩ := ih (t ++ [Event.readq r (hw t r % U64_MOD), Event.udelay 1])
    refine ⟨[Event.readq r (hw t r % U64_MOD), Event.udelay 1] ++ ext, ?_, ?_, ?_⟩
    · rw [poll_history_succ, he, List.append_assoc]
    · intro e hmem
      rcases List.mem_append.1 hmem with h | h
      · simp only [List.mem_cons, List.mem_singleton, List.not_mem_nil, or_false] at h
        rcases h with h | h
        · exact Or.inr ⟨_, h⟩
        · exact Or.inl h
      · exact hev e h
    · rw [reads_of_append, List.length_append, hlen]
      simp [reads_of]
      omega

/-- What the poll loop does, entered with `n` polls left in its budget: either
some poll `j < n` is the first that matches and the loop returns 0 right after
that load, or none of the `n` polls matches and it returns `-ETIMEDOUT`. -/
theorem wait_loop_outcome (hw : Hardware) (field : BitField) (expect : Nat) (reg : Reg)
    (T : Nat) :
    ∀ (n fuel w : Nat) (t : Trace), w + n = T + 1 → n < fuel →
      (∃ j, j < n ∧
        (∀ k < j, field.get expect ≠ field.get (hw (poll_history hw reg k t) reg % U64_MOD)) ∧
        field.get expect = field.get (hw (poll_history hw reg j t) reg % U64_MOD) ∧
        fpga_wait_register_field_loop hw field expect reg T 1 fuel w t
          = some (0, poll_history hw reg j t
              ++ [Event.readq reg (hw (poll_history hw reg j t) reg % U64_MOD)])) ∨
      ((∀ k < n, field.get expect ≠ field.get (hw (poll_history hw reg k t) reg % U64_MOD)) ∧
        fpga_wait_register_field_loop hw field expect reg T 1 fuel w t
          = some (-ETIMEDOUT, poll_history hw reg n t)) := by
  intro n
  induction n with
  | zero =>
    intro fuel w t hw1 hf
    obtain ⟨fuel1, rfl⟩ : ∃ f, fuel = f + 1 := ⟨fuel - 1, by omega⟩
    have : ¬ w ≤ T := by omega
    exact Or.inr ⟨fun k hk => absurd hk (Nat.not_lt_zero k),
      by simp [fpga_wait_register_field_loop, this, poll_history]⟩
  | succ n ih =>
    intro fuel w t hw1 hf
    obtain ⟨fuel1, rfl⟩ : ∃ f, fuel = f + 1 := ⟨fuel - 1, by omega⟩
    have hle : w ≤ T := by omega
    by_cases h0 : field.get expect = field.get (hw t reg % U64_MOD)
    · refine Or.inl ⟨0, by omega, fun k hk => absurd hk (Nat.not_lt_zero k), ?_, ?_⟩
      · simpa [poll_history] using h0
      · simp [fpga_wait_register_field_loop, hle, readq, h0, poll_history]
    · have hstep : fpga_wait_register_field_loop hw field expect reg T 1 (fuel1 + 1) w t
          = fpga_wait_register_field_loop hw field expect reg T 1 fuel1 (w + 1)
              (t ++ [Event.readq reg (hw t reg % U64_MOD), Event.udelay 1]) := by
        simp only [fpga_wait_register_field_loop, hle, if_true, readq, udelay, h0, if_false,
          List.append_assoc, List.singleton_append]
      rcases ih fuel1 (w + 1) (t ++ [Event.readq reg (hw t reg % U64_MOD), Event.udelay 1])
        (by omega) (by omega) with ⟨j, hj, hno, hyes, hres⟩ | ⟨hno, hres⟩
      · refine Or.inl ⟨j + 1, by omega, ?_, ?_, ?_⟩
        · intro k hk
          cases k with
          | zero => simpa [poll_history] using h0
          | succ k =>
            rw [poll_history_succ]
            exact hno k (by omega)
        · rw [poll_history_succ]; exact hyes
        · rw [hstep, hres, poll_history_succ]
      · refine Or.inr ⟨?_, ?_⟩
        · intro k hk
          cases k with
          | zero => simpa [poll_history] using h0
          | succ k =>
            rw [poll_history_succ]
            exact hno k (by omega)
        · rw [hstep, hres, poll_history_succ]

/-- With enough fuel the poll loop returns; it returns 0 or `-ETIMEDOUT`, and
what it adds to the history are loads of the polled register and delays, at
most `T + 1` loads. -/
theorem wait_loop_ext (hw : Hardware) (field : BitField) (expect : Nat) (reg : Reg)
    (T fuel : Nat) (t : Trace) (hfuel : T + 2 ≤ fuel) :
    ∃ ret ext, fpga_wait_register_field_loop hw field expect reg T 1 fuel 0 t
        = some (ret, t ++ ext) ∧
      (ret = 0 ∨ ret = -ETIMEDOUT) ∧
      (∀ e ∈ ext, e = Event.udelay 1 ∨ ∃ v, e = Event.readq reg v) ∧
      (reads_of reg ext).length ≤ T + 1 := by
  rcases wait_loop_outcome hw field expect reg T (T + 1) fuel 0 t (by omega) (by omega) with
    ⟨j, hj, _, _, hres⟩ | ⟨_, hres⟩
  · obtain ⟨ext, he, hev, hlen⟩ := poll_history_ext hw reg j t
    refine ⟨0, ext ++ [Event.readq reg (hw (poll_history hw reg j t) reg % U64_MOD)], ?_,
      Or.inl rfl, ?_, ?_⟩
    · rw [hres, he, List.append_assoc]
    · intro e hmem
      rcases List.mem_append.1 hmem with h | h
      · exact hev e h
      · exact Or.inr ⟨_, List.mem_singleton.1 h⟩
    · rw [reads_of_append, List.length_append, hlen]
      simp [reads_of]
      omega
  · obtain ⟨ext, he, hev, hlen⟩ := poll_history_ext hw reg (T + 1) t
    exact ⟨-ETIMEDOUT, ext, by rw [hres, he], Or.inr rfl, hev, by omega⟩

theorem all_writes_of_polls (reg : Reg) (ext : Trace)
    (h : ∀ e ∈ ext, e = Event.udelay 1 ∨ ∃ v, e = Event.readq reg v) : all_writes ext = [] := by
  induction ext with
  | nil => rfl
  | cons e ext ih =>
    have ht := ih (fun e1 h1 => h e1 (List.mem_cons_of_mem _ h1))
    rcases h e (List.mem_cons_self _ _) with he | ⟨v, he⟩ <;>
      · subst he
        simpa [all_writes] using ht

/-! ## Theorems: frames of the register writes -/

theorem cache_select_value (v channel event : Nat) (hv : v < 2 ^ 64) :
    let w := ch_ctl_cache_event.set (ch_ctl_cci_chsel.set v channel) event
    w % U64_MOD = w ∧
    ch_ctl_cache_event.get w = event % 16 ∧
    ch_ctl_cci_chsel.get w = channel % 2 ∧
    (∀ i, i < 16 ∨ 21 ≤ i → w.testBit i = v.testBit i) := by
  intro w
  have h1 : ch_ctl_cci_chsel.set v channel < 2 ^ 64 :=
    BitField.set_lt _ _ _ 64 hv (by decide)
  have h2 : w < 2 ^ 64 := BitField.set_lt _ _ _ 64 h1 (by decide)
  refine ⟨mod_u64_of_lt w h2, ?_, ?_, ?_⟩
  · exact BitField.get_set ch_ctl_cache_event _ event
  · show ch_ctl_cci_chsel.get (ch_ctl_cache_event.set (ch_ctl_cci_chsel.set v channel) event)
        = channel % 2
    have h3 := BitField.get_set ch_ctl_cci_chsel v channel
    rw [BitField.set_eq ch_ctl_cache_event]
    simp only [BitField.get, ch_ctl_cci_chsel, ch_ctl_cache_event] at h3 ⊢
    norm_num at h3 ⊢
    omega
  · intro i hi
    show (ch_ctl_cache_event.set (ch_ctl_cci_chsel.set v channel) event).testBit i = v.testBit i
    rcases hi with hi | hi
    · rw [BitField.testBit_set_of_lt _ _ _ _ (by simpa [ch_ctl_cache_event] using hi),
        BitField.testBit_set_of_lt _ _ _ _ (by simp only [ch_ctl_cci_chsel]; omega)]
    · rw [BitField.testBit_set_of_ge _ _ _ _ (by simp only [ch_ctl_cache_event]; omega),
        BitField.testBit_set_of_ge _ _ _ _ (by simpa [ch_ctl_cci_chsel] using hi)]

theorem evtcode_select_value (f : BitField) (hf : f = ⟨16, 4⟩) (v event : Nat)
    (hv : v < 2 ^ 64) :
    f.set v event % U64_MOD = f.set v event ∧
    f.get (f.set v event) = event % 16 ∧
    (∀ i, i < 16 ∨ 20 ≤ i → (f.set v event).testBit i = v.testBit i) := by
  subst hf
  refine ⟨mod_u64_of_lt _ (BitField.set_lt _ _ _ 64 hv (by decide)), ?_, ?_⟩
  · exact BitField.get_set _ _ event
  · intro i hi
    rcases hi with hi | hi
    · exact BitField.testBit_set_of_lt _ _ _ _ hi
    · exact BitField.testBit_set_of_ge _ _ _ _ hi

theorem readq_lt (hw : Hardware) (t : Trace) (r : Reg) : hw t r % U64_MOD < 2 ^ 64 :=
  Nat.mod_lt _ (by decide)

theorem freeze_reset_kept (v w : Nat) (h : ∀ i, i < 16 ∨ 21 ≤ i → w.testBit i = v.testBit i) :
    w / 2 ^ 8 % 2 = v / 2 ^ 8 % 2 ∧ w / 2 ^ 0 % 2 = v / 2 ^ 0 % 2 := by
  have h8 := h 8 (Or.inl (by decide))
  have h0 := h 0 (Or.inl (by decide))
  simp only [Nat.testBit_to_div_mod] at h8 h0
  have a8 : w / 2 ^ 8 % 2 < 2 := Nat.mod_lt _ (by decide)
  have b8 : v / 2 ^ 8 % 2 < 2 := Nat.mod_lt _ (by decide)
  have a0 : w / 2 ^ 0 % 2 < 2 := Nat.mod_lt _ (by decide)
  have b0 : v / 2 ^ 0 % 2 < 2 := Nat.mod_lt _ (by decide)
  constructor
  · by_cases c : v / 2 ^ 8 % 2 = 1
    · simp [c] at h8; omega
    · simp [c] at h8; omega
  · by_cases c : v / 2 ^ 0 % 2 = 1
    · simp [c] at h0; omega
    · simp [c] at h0; omega

/-- C21: the control-register write of a counter read is a framed
read-modify-write. With enough fuel each of `read_cache_counter`,
`read_iommu_counter` and `read_fabric_counter` (on an enabled scope) returns,
and its history is: the lock, the load of the control register (for the fabric
domain after the load made by the is-enabled query), then the store to the
control register of the value `w` made from the value `v` just loaded, then
events without any store. In `w` the event selector (bits 16..19) is the
requested code modulo 16, for the cache domain the channel select (bit 20) is
the requested channel modulo 2, and every other bit of `w` is the bit of `v`;
in particular the freeze bit (bit 8) and the reset bit (bit 0) are kept. -/
theorem control_write_is_framed (fuel : Nat) (hfuel : GPERF_TIMEOUT + 2 ≤ fuel)
    (hw : Hardware) (t : Trace) :
    (∀ channel event : Nat,
      let v := hw (t ++ [Event.mutex_lock]) Reg.ch_ctl % U64_MOD
      let w := ch_ctl_cache_event.set (ch_ctl_cci_chsel.set v channel) event
      (∃ r rest, read_cache_counter fuel hw channel event t = some r ∧
        r.trace = t ++ [Event.mutex_lock, Event.readq Reg.ch_ctl v,
                        Event.writeq w Reg.ch_ctl] ++ rest ∧
        all_writes rest = []) ∧
      ch_ctl_cache_event.get w = event % 16 ∧
      ch_ctl_cci_chsel.get w = channel % 2 ∧
      (∀ i, i < 16 ∨ 21 ≤ i → w.testBit i = v.testBit i) ∧
      ch_ctl_freeze.get w = ch_ctl_freeze.get v ∧
      ch_ctl_reset_counters.get w = ch_ctl_reset_counters.get v) ∧
    (∀ (pobj_id : Int) (base_event : Nat),
      let v := hw (t ++ [Event.mutex_lock]) Reg.vtd_ctl % U64_MOD
      let w := vtd_ctl_vtd_evtcode.set v (vtd_event base_event pobj_id)
      (∃ r rest, read_iommu_counter fuel hw pobj_id base_event t = some r ∧
        r.trace = t ++ [Event.mutex_lock, Event.readq Reg.vtd_ctl v,
                        Event.writeq w Reg.vtd_ctl] ++ rest ∧
        all_writes rest = []) ∧
      vtd_ctl_vtd_evtcode.get w = vtd_event base_event pobj_id % 16 ∧
      (∀ i, i < 16 ∨ 20 ≤ i → w.testBit i = v.testBit i) ∧
      vtd_ctl_freeze.get w = vtd_ctl_freeze.get v ∧
      vtd_ctl_reset_counters.get w = vtd_ctl_reset_counters.get v) ∧
    (∀ (pobj_id : Int) (fab_event : Nat),
      (fabric_pobj_is_enabled hw pobj_id (t ++ [Event.mutex_lock])).1 = true →
      let t1 := t ++ [Event.mutex_lock,
        Event.readq Reg.fab_ctl (hw (t ++ [Event.mutex_lock]) Reg.fab_ctl % U64_MOD)]
      let v := hw t1 Reg.fab_ctl % U64_MOD
      let w := fab_ctl_fab_evtcode.set v fab_event
      (∃ r rest, read_fabric_counter fuel hw pobj_id fab_event t = some r ∧
        r.trace = t1 ++ [Event.readq Reg.fab_ctl v, Event.writeq w Reg.fab_ctl] ++ rest ∧
        all_writes rest = []) ∧
      fab_ctl_fab_evtcode.get w = fab_event % 16 ∧
      (∀ i, i < 16 ∨ 20 ≤ i → w.testBit i = v.testBit i) ∧
      fab_ctl_freeze.get w = fab_ctl_freeze.get v ∧
      fab_ctl_reset_counters.get w = fab_ctl_reset_counters.get v ∧
      fab_ctl_port_id.get w = fab_ctl_port_id.get v ∧
      fab_ctl_port_filter.get w = fab_ctl_port_filter.get v) := by
  refine ⟨?_, ?_, ?_⟩
  · intro channel event v w
    obtain ⟨hmod, hev, hch, hbits⟩ := cache_select_value v channel event (readq_lt hw _ _)
    have hfr := freeze_reset_kept v w (fun i hi => hbits i hi)
    refine ⟨?_, hev, hch, hbits, hfr.1, hfr.2⟩
    obtain ⟨ret, ext, hloop, hret, hpolls, _⟩ := wait_loop_ext hw ch_ctr_event_code
      (ch_ctr_event_code.set 0 event) Reg.ch_ctr0 GPERF_TIMEOUT fuel
      (cache_select_history hw channel event t) hfuel
    have hnw := all_writes_of_polls _ ext hpolls
    have hcsh : cache_select_history hw channel event t
        = t ++ [Event.mutex_lock, Event.readq Reg.ch_ctl v, Event.writeq w Reg.ch_ctl] := by
      simp only [cache_select_history]
      rw [hmod]
    obtain ⟨tw, htw⟩ : ∃ tw, tw = cache_select_history hw channel event t ++ ext := ⟨_, rfl⟩
    rw [← htw] at hloop
    rw [read_cache_counter_eq, hloop]
    rcases hret with h0 | h0
    · subst h0
      refine ⟨_, ext ++ [Event.readq Reg.ch_ctr0 (hw tw Reg.ch_ctr0 % U64_MOD),
        Event.readq Reg.ch_ctr1
          (hw (tw ++ [Event.readq Reg.ch_ctr0 (hw tw Reg.ch_ctr0 % U64_MOD)]) Reg.ch_ctr1
            % U64_MOD),
        Event.mutex_unlock], rfl, ?_, ?_⟩
      · simp only [show_0x_llx, htw, hcsh, List.append_assoc]
      · rw [all_writes_append, hnw]; simp [all_writes]
    · subst h0
      refine ⟨_, ext ++ [Event.mutex_unlock], rfl, ?_, ?_⟩
      · simp only [htw, hcsh, List.append_assoc]
      · rw [all_writes_append, hnw]; simp [all_writes]
  · intro pobj_id base_event v w
    obtain ⟨hmod, hev, hbits⟩ := evtcode_select_value vtd_ctl_vtd_evtcode rfl v
      (vtd_event base_event pobj_id) (readq_lt hw _ _)
    have hfr := freeze_reset_kept v w (fun i hi => hbits i (by omega))
    refine ⟨?_, hev, hbits, hfr.1, hfr.2⟩
    obtain ⟨ret, ext, hloop, hret, hpolls, _⟩ := wait_loop_ext hw vtd_ctr_event_code
      (vtd_ctr_event_code.set 0 (vtd_event base_event pobj_id)) Reg.vtd_ctr GPERF_TIMEOUT fuel
      (iommu_select_history hw (vtd_event base_event pobj_id) t) hfuel
    have hnw := all_writes_of_polls _ ext hpolls
    have hcsh : iommu_select_history hw (vtd_event base_event pobj_id) t
        = t ++ [Event.mutex_lock, Event.readq Reg.vtd_ctl v, Event.writeq w Reg.vtd_ctl] := by
      simp only [iommu_select_history]
      rw [hmod]
    obtain ⟨tw, htw⟩ : ∃ tw, tw = iommu_select_history hw (vtd_event base_event pobj_id) t
        ++ ext := ⟨_, rfl⟩
    rw [← htw] at hloop
    rw [read_iommu_counter_eq, hloop]
    rcases hret with h0 | h0
    · subst h0
      refine ⟨_, ext ++ [Event.readq Reg.vtd_ctr (hw tw Reg.vtd_ctr % U64_MOD),
        Event.mutex_unlock], rfl, ?_, ?_⟩
      · simp only [show_0x_llx, htw, hcsh, List.append_assoc]
      · rw [all_writes_append, hnw]; simp [all_writes]
    · subst h0
      refine ⟨_, ext ++ [Event.mutex_unlock], rfl, ?_, ?_⟩
      · simp only [htw, hcsh, List.append_assoc]
      · rw [all_writes_append, hnw]; simp [all_writes]
  · intro pobj_id fab_event hen t1 v w
    obtain ⟨hmod, hev, hbits⟩ := evtcode_select_value fab_ctl_fab_evtcode rfl v fab_event
      (readq_lt hw _ _)
    have hfr := freeze_reset_kept v w (fun i hi => hbits i (by omega))
    have hport : fab_ctl_port_id.get w = fab_ctl_port_id.get v ∧
        fab_ctl_port_filter.get w = fab_ctl_port_filter.get v := by
      show fab_ctl_port_id.get (fab_ctl_fab_evtcode.set v fab_event) = fab_ctl_port_id.get v ∧
        fab_ctl_port_filter.get (fab_ctl_fab_evtcode.set v fab_event)
          = fab_ctl_port_filter.get v
      rw [BitField.set_eq]
      simp only [BitField.get, fab_ctl_port_id, fab_ctl_port_filter, fab_ctl_fab_evtcode]
      norm_num
      omega
    refine ⟨?_, hev, hbits, hfr.1, hfr.2, hport.1, hport.2⟩
    obtain ⟨ret, ext, hloop, hret, hpolls, _⟩ := wait_loop_ext hw fab_ctr_event_code
      (fab_ctr_event_code.set 0 fab_event) Reg.fab_ctr GPERF_TIMEOUT fuel
      (fabric_select_history hw fab_event t) hfuel
    have hnw := all_writes_of_polls _ ext hpolls
    have hcsh : fabric_select_history hw fab_event t
        = t1 ++ [Event.readq Reg.fab_ctl v, Event.writeq w Reg.fab_ctl] := by
      simp only [fabric_select_history]
      rw [hmod]
    obtain ⟨tw, htw⟩ : ∃ tw, tw = fabric_select_history hw fab_event t ++ ext := ⟨_, rfl⟩
    rw [← htw] at hloop
    rw [read_fabric_counter_eq fuel hw pobj_id fab_event t hen, hloop]
    rcases hret with h0 | h0
    · subst h0
      refine ⟨_, ext ++ [Event.readq Reg.fab_ctr (hw tw Reg.fab_ctr % U64_MOD),
        Event.mutex_unlock], rfl, ?_, ?_⟩
      · simp only [show_0x_llx, htw, hcsh, List.append_assoc]
      · rw [all_writes_append, hnw]; simp [all_writes]
    · subst h0
      refine ⟨_, ext ++ [Event.mutex_unlock], rfl, ?_, ?_⟩
      · simp only [htw, hcsh, List.append_assoc]
      · rw [all_writes_append, hnw]; simp [all_writes]

theorem control_write_is_framed_witness :
    (∃ r rest, read_cache_counter 32 hw_cache_sample 1 2 [] = some r ∧
      r.trace = [Event.mutex_lock, Event.readq Reg.ch_ctl 0,
                 Event.writeq (2 ^ 20 + 2 * 2 ^ 16) Reg.ch_ctl] ++ rest ∧
      all_writes rest = []) :=
  ((control_write_is_framed 32 (by decide) hw_cache_sample []).1 1 2).1

/-- C22: mask bracket of compare-and-clear. For a text that parses, on the
match path as on the mismatch path, the history of each of `clear_store`,
`pcie0_errors_store`, `pcie1_errors_store` and `warning_errors_store` is: the
lock, the store of the class's allow-clearing mask to the mask register, the
load of the error register, a middle part without lock, unlock or store to the
mask register, the store of the default mask (`FME_ERROR0_MASK_DEFAULT` for the
FME error class, 0 for the others) to the mask register, the unlock. -/
theorem mask_bracket (hw : Hardware) (kstrtou64 : String → Option Nat) (buf : String)
    (count : Nat) (t : Trace) (val : Nat) (hparse : kstrtou64 buf = some val) :
    (let t1 := t ++ [Event.mutex_lock, Event.writeq FME_ERROR0_MASK Reg.fme_err_mask]
     ∃ mid, (clear_store hw kstrtou64 buf count t).2
         = t1 ++ [Event.readq Reg.fme_err (hw t1 Reg.fme_err % U64_MOD)] ++ mid
             ++ [Event.writeq FME_ERROR0_MASK_DEFAULT Reg.fme_err_mask, Event.mutex_unlock] ∧
       Event.mutex_lock ∉ mid ∧ Event.mutex_unlock ∉ mid ∧
       writes_to Reg.fme_err_mask mid = []) ∧
    (let t1 := t ++ [Event.mutex_lock, Event.writeq FME_PCIE0_ERROR_MASK Reg.pcie0_err_mask]
     ∃ mid, (pcie0_errors_store hw kstrtou64 buf count t).2
         = t1 ++ [Event.readq Reg.pcie0_err (hw t1 Reg.pcie0_err % U64_MOD)] ++ mid
             ++ [Event.writeq 0 Reg.pcie0_err_mask, Event.mutex_unlock] ∧
       Event.mutex_lock ∉ mid ∧ Event.mutex_unlock ∉ mid ∧
       writes_to Reg.pcie0_err_mask mid = []) ∧
    (let t1 := t ++ [Event.mutex_lock, Event.writeq FME_PCIE1_ERROR_MASK Reg.pcie1_err_mask]
     ∃ mid, (pcie1_errors_store hw kstrtou64 buf count t).2
         = t1 ++ [Event.readq Reg.pcie1_err (hw t1 Reg.pcie1_err % U64_MOD)] ++ mid
             ++ [Event.writeq 0 Reg.pcie1_err_mask, Event.mutex_unlock] ∧
       Event.mutex_lock ∉ mid ∧ Event.mutex_unlock ∉ mid ∧
       writes_to Reg.pcie1_err_mask mid = []) ∧
    (let t1 := t ++ [Event.mutex_lock, Event.writeq FME_RAS_WERROR_MASK Reg.ras_werr_mask]
     ∃ mid, (warning_errors_store hw kstrtou64 buf count t).2
         = t1 ++ [Event.readq Reg.ras_werr (hw t1 Reg.ras_werr % U64_MOD)] ++ mid
             ++ [Event.writeq 0 Reg.ras_werr_mask, Event.mutex_unlock] ∧
       Event.mutex_lock ∉ mid ∧ Event.mutex_unlock ∉ mid ∧
       writes_to Reg.ras_werr_mask mid = []) := by
  have e1 : FME_ERROR0_MASK % U64_MOD = FME_ERROR0_MASK := by decide
  have e2 : FME_ERROR0_MASK_DEFAULT % U64_MOD = FME_ERROR0_MASK_DEFAULT := by decide
  have e3 : FME_PCIE0_ERROR_MASK % U64_MOD = FME_PCIE0_ERROR_MASK := by decide
  have e4 : FME_PCIE1_ERROR_MASK % U64_MOD = FME_PCIE1_ERROR_MASK := by decide
  have e5 : FME_RAS_WERROR_MASK % U64_MOD = FME_RAS_WERROR_MASK := by decide
  have e6 : 0 % U64_MOD = 0 := by decide
  refine ⟨?_, ?_, ?_, ?_⟩
  · intro t1
    by_cases h : val = hw t1 Reg.fme_err % U64_MOD
    · let c := hw t1 Reg.fme_err % U64_MOD
      let t2 := t1 ++ [Event.readq Reg.fme_err c]
      let f := hw t2 Reg.fme_first_err % U64_MOD
      let t3 := t2 ++ [Event.readq Reg.fme_first_err f]
      let n := hw t3 Reg.fme_next_err % U64_MOD
      refine ⟨[Event.readq Reg.fme_first_err f, Event.readq Reg.fme_next_err n,
        Event.writeq ((c &&& FME_ERROR0_MASK) % U64_MOD) Reg.fme_err,
        Event.writeq ((f &&& FME_FIRST_ERROR_MASK) % U64_MOD) Reg.fme_first_err,
        Event.writeq ((n &&& FME_NEXT_ERROR_MASK) % U64_MOD) Reg.fme_next_err], ?_,
        by simp, by simp, by simp [writes_to]⟩
      simp only [clear_store, hparse, readq, writeq, mutex_lock, mutex_unlock, e1, e2,
        List.append_assoc, List.singleton_append, List.cons_append, List.nil_append]
      simp only [t1] at h
      simp only [ne_eq, h, not_true_eq_false, if_false, t1, t2, t3, c, f, n,
        List.append_assoc, List.singleton_append, List.cons_append, List.nil_append]
    · refine ⟨[], ?_, by simp, by simp, rfl⟩
      simp only [clear_store, hparse, readq, writeq, mutex_lock, mutex_unlock, e1, e2,
        List.append_assoc, List.singleton_append, List.cons_append, List.nil_append]
      simp only [t1] at h
      simp only [ne_eq, h, not_false_eq_true, if_true, t1,
        List.append_assoc, List.singleton_append, List.cons_append, List.nil_append]
  · intro t1
    by_cases h : val = hw t1 Reg.pcie0_err % U64_MOD
    · refine ⟨[Event.writeq ((hw t1 Reg.pcie0_err % U64_MOD &&& FME_PCIE0_ERROR_MASK) % U64_MOD)
        Reg.pcie0_err], ?_, by simp, by simp, by simp [writes_to]⟩
      simp only [pcie0_errors_store, hparse, readq, writeq, mutex_lock, mutex_unlock, e3, e6,
        List.append_assoc, List.singleton_append, List.cons_append, List.nil_append]
      simp only [t1] at h
      simp only [ne_eq, h, not_true_eq_false, if_false, t1,
        List.append_assoc, List.singleton_append, List.cons_append, List.nil_append]
    · refine ⟨[], ?_, by simp, by simp, rfl⟩
      simp only [pcie0_errors_store, hparse, readq, writeq, mutex_lock, mutex_unlock, e3, e6,
        List.append_assoc, List.singleton_append, List.cons_append, List.nil_append]
      simp only [t1] at h
      simp only [ne_eq, h, not_false_eq_true, if_true, t1,
        List.append_assoc, List.singleton_append, List.cons_append, List.nil_append]
  · intro t1
    by_cases h : val = hw t1 Reg.pcie1_err % U64_MOD
    · refine ⟨[Event.writeq ((hw t1 Reg.pcie1_err % U64_MOD &&& FME_PCIE1_ERROR_MASK) % U64_MOD)
        Reg.pcie1_err], ?_, by simp, by simp, by simp [writes_to]⟩
      simp only [pcie1_errors_store, hparse, readq, writeq, mutex_lock, mutex_unlock, e4, e6,
        List.append_assoc, List.singleton_append, List.cons_append, List.nil_append]
      simp only [t1] at h
      simp only [ne_eq, h, not_true_eq_false, if_false, t1,
        List.append_assoc, List.singleton_append, List.cons_append, List.nil_append]
    · refine ⟨[], ?_, by simp, by simp, rfl⟩
      simp only [pcie1_errors_store, hparse, readq, writeq, mutex_lock, mutex_unlock, e4, e6,
        List.append_assoc, List.singleton_append, List.cons_append, List.nil_append]
      simp only [t1] at h
      simp only [ne_eq, h, not_false_eq_true, if_true, t1,
        List.append_assoc, List.singleton_append, List.cons_append, List.nil_append]
  · intro t1
    by_cases h : val = hw t1 Reg.ras_werr % U64_MOD
    · refine ⟨[Event.writeq ((hw t1 Reg.ras_werr % U64_MOD &&& FME_RAS_WERROR_MASK) % U64_MOD)
        Reg.ras_werr], ?_, by simp, by simp, by simp [writes_to]⟩
      simp only [warning_errors_store, hparse, readq, writeq, mutex_lock, mutex_unlock, e5, e6,
        List.append_assoc, List.singleton_append, List.cons_append, List.nil_append]
      simp only [t1] at h
      simp only [ne_eq, h, not_true_eq_false, if_false, t1,
        List.append_assoc, List.singleton_append, List.cons_append, List.nil_append]
    · refine ⟨[], ?_, by simp, by simp, rfl⟩
      simp only [warning_errors_store, hparse, readq, writeq, mutex_lock, mutex_unlock, e5, e6,
        List.append_assoc, List.singleton_append, List.cons_append, List.nil_append]
      simp only [t1] at h
      simp only [ne_eq, h, not_false_eq_true, if_true, t1,
        List.append_assoc, List.singleton_append, List.cons_append, List.nil_append]

theorem mask_bracket_witness :
    ∃ mid, (clear_store (fun _ _ => 0x41) (fun _ => some 0x41) "0x41" 4 []).2
        = [Event.mutex_lock, Event.writeq FME_ERROR0_MASK Reg.fme_err_mask]
            ++ [Event.readq Reg.fme_err 0x41] ++ mid
            ++ [Event.writeq 0x40 Reg.fme_err_mask, Event.mutex_unlock] ∧
      Event.mutex_lock ∉ mid ∧ Event.mutex_unlock ∉ mid ∧
      writes_to Reg.fme_err_mask mid = [] :=
  (mask_bracket (fun _ _ => 0x41) (fun _ => some 0x41) "0x41" 4 [] 0x41 rfl).1

theorem BitField.testBit_get (f : BitField) (csr i : Nat) :
    (f.get csr).testBit i = (decide (i < f.width) && csr.testBit (f.lo + i)) := by
  unfold BitField.get
  rw [Nat.testBit_mod_two_pow, ← Nat.shiftRight_eq_div_pow, Nat.testBit_shiftRight]

/-- An assignment to one bit-field leaves every field that does not overlap it
as it was. -/
theorem BitField.get_set_of_disjoint (f g : BitField) (csr v : Nat)
    (h : g.lo + g.width ≤ f.lo ∨ f.lo + f.width ≤ g.lo) :
    g.get (f.set csr v) = g.get csr := by
  apply Nat.eq_of_testBit_eq
  intro i
  rw [BitField.testBit_get, BitField.testBit_get]
  by_cases hi : i < g.width
  · simp only [hi, decide_True, Bool.true_and]
    rcases h with h | h
    · exact BitField.testBit_set_of_lt f csr v _ (by omega)
    · exact BitField.testBit_set_of_ge f csr v _ (by omega)
  · simp [hi]

theorem freeze_set_value (f : BitField) (hf : f = ⟨8, 1⟩) (v : Nat) (hv : v < 2 ^ 64)
    (b : Bool) :
    f.set v (if b then 1 else 0) % U64_MOD = f.set v (if b then 1 else 0) ∧
    f.get (f.set v (if b then 1 else 0)) = (if b then 1 else 0) ∧
    (∀ i, i ≠ 8 → (f.set v (if b then 1 else 0)).testBit i = v.testBit i) := by
  subst hf
  refine ⟨mod_u64_of_lt _ (BitField.set_lt _ _ _ 64 hv (by decide)), ?_, ?_⟩
  · rw [BitField.get_set]
    cases b <;> rfl
  · intro i hi
    rcases Nat.lt_or_ge i 8 with h | h
    · exact BitField.testBit_set_of_lt _ _ _ _ h
    · exact BitField.testBit_set_of_ge _ _ _ _ (by show 8 + 1 ≤ i; omega)

theorem fmt_d_bit (b : Bool) : fmt_d (if b then 1 else 0) = (if b then "1\n" else "0\n") := by
  cases b <;> decide

/-- C23: freeze toggle frame and round trip. For a text that parses to the
boolean `b`, each of `freeze_store`, `vtd_freeze_store` and `fab_freeze_store`
returns the byte count and its history is exactly: lock, load of the control
register (value `v`), store of `w` to the control register, unlock; so it
polls no counter register. In `w` the freeze bit (bit 8) is `b` and every
other bit is the bit of `v`; in particular the event selector, the channel
select, the port id and the port filter are kept. On registers that latch
stores the matching show function then prints `b`. -/
theorem freeze_toggle (hw : Hardware) (strtobool : String → Option Bool) (buf : String)
    (n : Nat) (t : Trace) (b : Bool) (hparse : strtobool buf = some b) :
    (let v := hw (t ++ [Event.mutex_lock]) Reg.ch_ctl % U64_MOD
     let w := ch_ctl_freeze.set v (if b then 1 else 0)
     freeze_store hw strtobool buf n t
       = (ssize_t_of n, t ++ [Event.mutex_lock, Event.readq Reg.ch_ctl v,
                              Event.writeq w Reg.ch_ctl, Event.mutex_unlock]) ∧
     ch_ctl_freeze.get w = (if b then 1 else 0) ∧
     (∀ i, i ≠ 8 → w.testBit i = v.testBit i) ∧
     ch_ctl_cache_event.get w = ch_ctl_cache_event.get v ∧
     ch_ctl_cci_chsel.get w = ch_ctl_cci_chsel.get v ∧
     ch_ctl_reset_counters.get w = ch_ctl_reset_counters.get v) ∧
    (let v := hw (t ++ [Event.mutex_lock]) Reg.vtd_ctl % U64_MOD
     let w := vtd_ctl_freeze.set v (if b then 1 else 0)
     vtd_freeze_store hw strtobool buf n t
       = (ssize_t_of n, t ++ [Event.mutex_lock, Event.readq Reg.vtd_ctl v,
                              Event.writeq w Reg.vtd_ctl, Event.mutex_unlock]) ∧
     vtd_ctl_freeze.get w = (if b then 1 else 0) ∧
     (∀ i, i ≠ 8 → w.testBit i = v.testBit i) ∧
     vtd_ctl_vtd_evtcode.get w = vtd_ctl_vtd_evtcode.get v ∧
     vtd_ctl_reset_counters.get w = vtd_ctl_reset_counters.get v) ∧
    (let v := hw (t ++ [Event.mutex_lock]) Reg.fab_ctl % U64_MOD
     let w := fab_ctl_freeze.set v (if b then 1 else 0)
     fab_freeze_store hw strtobool buf n t
       = (ssize_t_of n, t ++ [Event.mutex_lock, Event.readq Reg.fab_ctl v,
                              Event.writeq w Reg.fab_ctl, Event.mutex_unlock]) ∧
     fab_ctl_freeze.get w = (if b then 1 else 0) ∧
     (∀ i, i ≠ 8 → w.testBit i = v.testBit i) ∧
     fab_ctl_fab_evtcode.get w = fab_ctl_fab_evtcode.get v ∧
     fab_ctl_port_id.get w = fab_ctl_port_id.get v ∧
     fab_ctl_port_filter.get w = fab_ctl_port_filter.get v ∧
     fab_ctl_reset_counters.get w = fab_ctl_reset_counters.get v) ∧
    (∀ init : Nat,
      (freeze_show (hw_latch init) (freeze_store (hw_latch init) strtobool buf n t).2).buf
        = some (if b then "1\n" else "0\n") ∧
      (vtd_freeze_show (hw_latch init)
          (vtd_freeze_store (hw_latch init) strtobool buf n t).2).buf
        = some (if b then "1\n" else "0\n") ∧
      (fab_freeze_show (hw_latch init)
          (fab_freeze_store (hw_latch init) strtobool buf n t).2).buf
        = some (if b then "1\n" else "0\n")) := by
  have hc : ∀ (hw : Hardware), (let v := hw (t ++ [Event.mutex_lock]) Reg.ch_ctl % U64_MOD
     let w := ch_ctl_freeze.set v (if b then 1 else 0)
     freeze_store hw strtobool buf n t
       = (ssize_t_of n, t ++ [Event.mutex_lock, Event.readq Reg.ch_ctl v,
                              Event.writeq w Reg.ch_ctl, Event.mutex_unlock])) := by
    intro hw v w
    obtain ⟨hmod, _, _⟩ := freeze_set_value ch_ctl_freeze rfl v (readq_lt hw _ _) b
    simp only [freeze_store, hparse, readq, writeq, mutex_lock, mutex_unlock,
      List.append_assoc, List.singleton_append, List.cons_append, List.nil_append]
    rw [hmod]
  have hv : ∀ (hw : Hardware), (let v := hw (t ++ [Event.mutex_lock]) Reg.vtd_ctl % U64_MOD
     let w := vtd_ctl_freeze.set v (if b then 1 else 0)
     vtd_freeze_store hw strtobool buf n t
       = (ssize_t_of n, t ++ [Event.mutex_lock, Event.readq Reg.vtd_ctl v,
                              Event.writeq w Reg.vtd_ctl, Event.mutex_unlock])) := by
    intro hw v w
    obtain ⟨hmod, _, _⟩ := freeze_set_value vtd_ctl_freeze rfl v (readq_lt hw _ _) b
    simp only [vtd_freeze_store, hparse, readq, writeq, mutex_lock, mutex_unlock,
      List.append_assoc, List.singleton_append, List.cons_append, List.nil_append]
    rw [hmod]
  have hf : ∀ (hw : Hardware), (let v := hw (t ++ [Event.mutex_lock]) Reg.fab_ctl % U64_MOD
     let w := fab_ctl_freeze.set v (if b then 1 else 0)
     fab_freeze_store hw strtobool buf n t
       = (ssize_t_of n, t ++ [Event.mutex_lock, Event.readq Reg.fab_ctl v,
                              Event.writeq w Reg.fab_ctl, Event.mutex_unlock])) := by
    intro hw v w
    obtain ⟨hmod, _, _⟩ := freeze_set_value fab_ctl_freeze rfl v (readq_lt hw _ _) b
    simp only [fab_freeze_store, hparse, readq, writeq, mutex_lock, mutex_unlock,
      List.append_assoc, List.singleton_append, List.cons_append, List.nil_append]
    rw [hmod]
  have hshow : ∀ (f : BitField) (r : Reg) (init v : Nat), f = ⟨8, 1⟩ → v < 2 ^ 64 →
      f.get (hw_latch init (t ++ [Event.mutex_lock, Event.readq r v,
          Event.writeq (f.set v (if b then 1 else 0)) r, Event.mutex_unlock]) r % U64_MOD)
        = (if b then 1 else 0) := by
    intro f r init v hfe hvlt
    obtain ⟨hmod, hget, _⟩ := freeze_set_value f hfe v hvlt b
    have hh := held_value_after_write r init (f.set v (if b then 1 else 0))
      (t ++ [Event.mutex_lock, Event.readq r v]) [Event.mutex_unlock] (by simp [writes_to])
    simp only [List.append_assoc, List.singleton_append, List.cons_append,
      List.nil_append] at hh
    simp only [hw_latch, hh, hmod, hget]
  refine ⟨?_, ?_, ?_, ?_⟩
  · intro v w
    obtain ⟨_, hget, hbits⟩ := freeze_set_value ch_ctl_freeze rfl v (readq_lt hw _ _) b
    exact ⟨hc hw, hget, hbits,
      BitField.get_set_of_disjoint _ _ _ _ (Or.inr (by decide)),
      BitField.get_set_of_disjoint _ _ _ _ (Or.inr (by decide)),
      BitField.get_set_of_disjoint _ _ _ _ (Or.inl (by decide))⟩
  · intro v w
    obtain ⟨_, hget, hbits⟩ := freeze_set_value vtd_ctl_freeze rfl v (readq_lt hw _ _) b
    exact ⟨hv hw, hget, hbits,
      BitField.get_set_of_disjoint _ _ _ _ (Or.inr (by decide)),
      BitField.get_set_of_disjoint _ _ _ _ (Or.inl (by decide))⟩
  · intro v w
    obtain ⟨_, hget, hbits⟩ := freeze_set_value fab_ctl_freeze rfl v (readq_lt hw _ _) b
    exact ⟨hf hw, hget, hbits,
      BitField.get_set_of_disjoint _ _ _ _ (Or.inr (by decide)),
      BitField.get_set_of_disjoint _ _ _ _ (Or.inr (by decide)),
      BitField.get_set_of_disjoint _ _ _ _ (Or.inr (by decide)),
      BitField.get_set_of_disjoint _ _ _ _ (Or.inl (by decide))⟩
  · intro init
    refine ⟨?_, ?_, ?_⟩
    · rw [hc (hw_latch init)]
      simp only [freeze_show, readq, show_d]
      rw [hshow ch_ctl_freeze Reg.ch_ctl init _ rfl (readq_lt _ _ _), fmt_d_bit]
    · rw [hv (hw_latch init)]
      simp only [vtd_freeze_show, readq, show_d]
      rw [hshow vtd_ctl_freeze Reg.vtd_ctl init _ rfl (readq_lt _ _ _), fmt_d_bit]
    · rw [hf (hw_latch init)]
      simp only [fab_freeze_show, readq, show_d]
      rw [hshow fab_ctl_freeze Reg.fab_ctl init _ rfl (readq_lt _ _ _), fmt_d_bit]

theorem freeze_toggle_witness :
    freeze_store (hw_latch (2 ^ 20 + 3 * 2 ^ 16)) (fun _ => some true) "1" 1 []
      = (1, [Event.mutex_lock, Event.readq Reg.ch_ctl (2 ^ 20 + 3 * 2 ^ 16),
             Event.writeq (2 ^ 20 + 3 * 2 ^ 16 + 2 ^ 8) Reg.ch_ctl, Event.mutex_unlock]) :=
  (freeze_toggle (hw_latch (2 ^ 20 + 3 * 2 ^ 16)) (fun _ => some true) "1" 1 [] true rfl).1.1

/-! ## Theorems: the lock discipline -/

theorem locked_extension_append (t ext : Trace) (h1 : lock_after false ext = some false)
    (h2 : ext.count Event.mutex_lock ≤ 1) : locked_extension t (t ++ ext) := by
  refine ⟨List.prefix_append t ext, ?_, ?_⟩
  · rw [List.drop_left]; exact h1
  · rw [List.drop_left]; exact h2

theorem locked_extension_refl (t : Trace) : locked_extension t t := by
  have h := locked_extension_append t [] rfl (by simp)
  simpa using h

theorem error_stores_locked (hw : Hardware) (kstrtou64 : String → Option Nat) (buf : String)
    (count : Nat) (t : Trace) :
    locked_extension t (clear_store hw kstrtou64 buf count t).2 ∧
    locked_extension t (pcie0_errors_store hw kstrtou64 buf count t).2 ∧
    locked_extension t (pcie1_errors_store hw kstrtou64 buf count t).2 ∧
    locked_extension t (warning_errors_store hw kstrtou64 buf count t).2 := by
  cases hp : kstrtou64 buf with
  | none =>
    simp only [clear_store, pcie0_errors_store, pcie1_errors_store, warning_errors_store, hp]
    exact ⟨locked_extension_refl t, locked_extension_refl t, locked_extension_refl t,
      locked_extension_refl t⟩
  | some val =>
    refine ⟨?_, ?_, ?_, ?_⟩
    · simp only [clear_store, hp, readq, writeq, mutex_lock, mutex_unlock,
        List.append_assoc, List.singleton_append, List.cons_append, List.nil_append]
      split <;> exact locked_extension_append t _ (by simp [lock_after]) (by simp)
    · simp only [pcie0_errors_store, hp, readq, writeq, mutex_lock, mutex_unlock,
        List.append_assoc, List.singleton_append, List.cons_append, List.nil_append]
      split <;>
        · simp only [List.append_assoc, List.singleton_append, List.cons_append,
            List.nil_append]
          exact locked_extension_append t _ (by simp [lock_after]) (by simp)
    · simp only [pcie1_errors_store, hp, readq, writeq, mutex_lock, mutex_unlock,
        List.append_assoc, List.singleton_append, List.cons_append, List.nil_append]
      split <;>
        · simp only [List.append_assoc, List.singleton_append, List.cons_append,
            List.nil_append]
          exact locked_extension_append t _ (by simp [lock_after]) (by simp)
    · simp only [warning_errors_store, hp, readq, writeq, mutex_lock, mutex_unlock,
        List.append_assoc, List.singleton_append, List.cons_append, List.nil_append]
      split <;>
        · simp only [List.append_assoc, List.singleton_append, List.cons_append,
            List.nil_append]
          exact locked_extension_append t _ (by simp [lock_after]) (by simp)

theorem threshold_stores_locked (hw : Hardware) (kstrtou8 : String → Int × Nat) (buf : String)
    (count : Nat) (t : Trace) :
    locked_extension t (thermal_threshold1_store hw kstrtou8 buf count t).2 ∧
    locked_extension t (thermal_threshold2_store hw kstrtou8 buf count t).2 ∧
    locked_extension t (thermal_threshold1_policy_store hw kstrtou8 buf count t).2 ∧
    locked_extension t (pwr_threshold1_store hw kstrtou8 buf count t).2 ∧
    locked_extension t (pwr_threshold2_store hw kstrtou8 buf count t).2 ∧
    locked_extension t (inject_error_store hw kstrtou8 buf count t).2 := by
  refine ⟨?_, ?_, ?_, ?_, ?_, ?_⟩
  · simp only [thermal_threshold1_store, readq, writeq, mutex_lock, mutex_unlock,
      List.append_assoc, List.singleton_append, List.cons_append, List.nil_append]
    split_ifs <;> exact locked_extension_append t _ (by simp [lock_after]) (by simp)
  · simp only [thermal_threshold2_store, readq, writeq, mutex_lock, mutex_unlock,
      List.append_assoc, List.singleton_append, List.cons_append, List.nil_append]
    split_ifs <;> exact locked_extension_append t _ (by simp [lock_after]) (by simp)
  · simp only [thermal_threshold1_policy_store, readq, writeq, mutex_lock, mutex_unlock,
      List.append_assoc, List.singleton_append, List.cons_append, List.nil_append]
    split_ifs <;> exact locked_extension_append t _ (by simp [lock_after]) (by simp)
  · simp only [pwr_threshold1_store, readq, writeq, mutex_lock, mutex_unlock,
      List.append_assoc, List.singleton_append, List.cons_append, List.nil_append]
    split_ifs <;> exact locked_extension_append t _ (by simp [lock_after]) (by simp)
  · simp only [pwr_threshold2_store, readq, writeq, mutex_lock, mutex_unlock,
      List.append_assoc, List.singleton_append, List.cons_append, List.nil_append]
    split_ifs <;> exact locked_extension_append t _ (by simp [lock_after]) (by simp)
  · simp only [inject_error_store, readq, writeq, mutex_lock, mutex_unlock,
      List.append_assoc, List.singleton_append, List.cons_append, List.nil_append]
    split_ifs <;> exact locked_extension_append t _ (by simp [lock_after]) (by simp)

theorem perf_stores_locked (hw : Hardware) (strtobool : String → Option Bool) (pobj_id : Int)
    (buf : String) (n : Nat) (t : Trace) :
    locked_extension t (freeze_store hw strtobool buf n t).2 ∧
    locked_extension t (vtd_freeze_store hw strtobool buf n t).2 ∧
    locked_extension t (fab_freeze_store hw strtobool buf n t).2 ∧
    locked_extension t (fab_enable_store hw strtobool pobj_id buf n t).2 := by
  cases hp : strtobool buf with
  | none =>
    simp only [freeze_store, vtd_freeze_store, fab_freeze_store, fab_enable_store, hp]
    exact ⟨locked_extension_refl t, locked_extension_refl t, locked_extension_refl t,
      locked_extension_refl t⟩
  | some b =>
    refine ⟨?_, ?_, ?_, ?_⟩
    · simp only [freeze_store, hp, readq, writeq, mutex_lock, mutex_unlock,
        List.append_assoc, List.singleton_append, List.cons_append, List.nil_append]
      exact locked_extension_append t _ (by simp [lock_after]) (by simp)
    · simp only [vtd_freeze_store, hp, readq, writeq, mutex_lock, mutex_unlock,
        List.append_assoc, List.singleton_append, List.cons_append, List.nil_append]
      exact locked_extension_append t _ (by simp [lock_after]) (by simp)
    · simp only [fab_freeze_store, hp, readq, writeq, mutex_lock, mutex_unlock,
        List.append_assoc, List.singleton_append, List.cons_append, List.nil_append]
      exact locked_extension_append t _ (by simp [lock_after]) (by simp)
    · cases b with
      | false =>
        simp only [fab_enable_store, hp, Bool.not_false, if_true]
        exact locked_extension_refl t
      | true =>
        simp only [fab_enable_store, hp, Bool.not_true, Bool.false_eq_true, if_false,
          fabric_pobj_is_enabled_trace, readq, writeq, mutex_lock, mutex_unlock,
          List.append_assoc, List.singleton_append, List.cons_append, List.nil_append]
        split_ifs <;> exact locked_extension_append t _ (by simp [lock_after]) (by simp)

theorem lock_after_quiet (held : Bool) (q rest : Trace) (hq : q.all Event.is_quiet = true) :
    lock_after held (q ++ rest) = lock_after held rest ∧
    (q ++ rest).count Event.mutex_lock = rest.count Event.mutex_lock := by
  induction q with
  | nil => exact ⟨rfl, rfl⟩
  | cons e q ih =>
    simp only [List.all_cons, Bool.and_eq_true] at hq
    obtain ⟨h1, h2⟩ := ih hq.2
    cases e <;> simp [Event.is_quiet] at hq <;>
      exact ⟨by simpa [lock_after] using h1, by simpa [List.count_cons] using h2⟩

theorem polls_quiet (reg : Reg) (ext : Trace)
    (hp : ∀ e ∈ ext, e = Event.udelay 1 ∨ ∃ v, e = Event.readq reg v) :
    ext.all Event.is_quiet = true := by
  rw [List.all_eq_true]
  intro e he
  rcases hp e he with h | ⟨v, h⟩ <;> (subst h; rfl)

/-- The shape of a locked read-modify-write: the lock, quiet events, one
store, quiet events, the unlock. -/
theorem locked_shape_write (t q1 q2 : Trace) (w : Nat) (r : Reg)
    (h1 : q1.all Event.is_quiet = true) (h2 : q2.all Event.is_quiet = true) :
    locked_extension t
      (t ++ Event.mutex_lock :: (q1 ++ Event.writeq w r :: (q2 ++ [Event.mutex_unlock]))) := by
  apply locked_extension_append
  · rw [lock_after]
    simp only [Bool.false_eq_true, if_false]
    rw [(lock_after_quiet true q1 _ h1).1, lock_after]
    simp only [if_true]
    rw [(lock_after_quiet true q2 _ h2).1]
    simp [lock_after]
  · rw [List.count_cons, (lock_after_quiet true q1 _ h1).2, List.count_cons,
      (lock_after_quiet true q2 _ h2).2]
    simp

/-- The shape of a locked section without a store. -/
theorem locked_shape_quiet (t q : Trace) (h : q.all Event.is_quiet = true) :
    locked_extension t (t ++ Event.mutex_lock :: (q ++ [Event.mutex_unlock])) := by
  apply locked_extension_append
  · rw [lock_after]
    simp only [Bool.false_eq_true, if_false]
    rw [(lock_after_quiet true q _ h).1]
    simp [lock_after]
  · rw [List.count_cons, (lock_after_quiet true q _ h).2]
    simp

theorem read_cache_counter_locked (fuel : Nat) (hfuel : GPERF_TIMEOUT + 2 ≤ fuel)
    (hw : Hardware) (channel event : Nat) (t : Trace) :
    ∃ r, read_cache_counter fuel hw channel event t = some r ∧
      locked_extension t r.trace := by
  obtain ⟨ret, ext, hloop, hret, hpolls, _⟩ := wait_loop_ext hw ch_ctr_event_code
    (ch_ctr_event_code.set 0 event) Reg.ch_ctr0 GPERF_TIMEOUT fuel
    (cache_select_history hw channel event t) hfuel
  have hq := polls_quiet _ ext hpolls
  obtain ⟨tw, htw⟩ : ∃ tw, tw = cache_select_history hw channel event t ++ ext := ⟨_, rfl⟩
  rw [← htw] at hloop
  rw [read_cache_counter_eq, hloop]
  rcases hret with h0 | h0
  · subst h0
    refine ⟨_, rfl, ?_⟩
    have hs := locked_shape_write t
      [Event.readq Reg.ch_ctl (hw (t ++ [Event.mutex_lock]) Reg.ch_ctl % U64_MOD)]
      (ext ++ [Event.readq Reg.ch_ctr0 (hw tw Reg.ch_ctr0 % U64_MOD),
        Event.readq Reg.ch_ctr1
          (hw (tw ++ [Event.readq Reg.ch_ctr0 (hw tw Reg.ch_ctr0 % U64_MOD)]) Reg.ch_ctr1
            % U64_MOD)])
      (ch_ctl_cache_event.set
        (ch_ctl_cci_chsel.set (hw (t ++ [Event.mutex_lock]) Reg.ch_ctl % U64_MOD) channel)
        event % U64_MOD) Reg.ch_ctl rfl
      (by rw [List.all_append, hq]; rfl)
    simpa [show_0x_llx, htw, cache_select_history] using hs
  · subst h0
    refine ⟨_, rfl, ?_⟩
    have hs := locked_shape_write t
      [Event.readq Reg.ch_ctl (hw (t ++ [Event.mutex_lock]) Reg.ch_ctl % U64_MOD)] ext
      (ch_ctl_cache_event.set
        (ch_ctl_cci_chsel.set (hw (t ++ [Event.mutex_lock]) Reg.ch_ctl % U64_MOD) channel)
        event % U64_MOD) Reg.ch_ctl rfl hq
    simpa [htw, cache_select_history] using hs

theorem read_iommu_counter_locked (fuel : Nat) (hfuel : GPERF_TIMEOUT + 2 ≤ fuel)
    (hw : Hardware) (pobj_id : Int) (base_event : Nat) (t : Trace) :
    ∃ r, read_iommu_counter fuel hw pobj_id base_event t = some r ∧
      locked_extension t r.trace := by
  obtain ⟨ret, ext, hloop, hret, hpolls, _⟩ := wait_loop_ext hw vtd_ctr_event_code
    (vtd_ctr_event_code.set 0 (vtd_event base_event pobj_id)) Reg.vtd_ctr GPERF_TIMEOUT fuel
    (iommu_select_history hw (vtd_event base_event pobj_id) t) hfuel
  have hq := polls_quiet _ ext hpolls
  obtain ⟨tw, htw⟩ : ∃ tw, tw = iommu_select_history hw (vtd_event base_event pobj_id) t
      ++ ext := ⟨_, rfl⟩
  rw [← htw] at hloop
  rw [read_iommu_counter_eq, hloop]
  rcases hret with h0 | h0
  · subst h0
    refine ⟨_, rfl, ?_⟩
    have hs := locked_shape_write t
      [Event.readq Reg.vtd_ctl (hw (t ++ [Event.mutex_lock]) Reg.vtd_ctl % U64_MOD)]
      (ext ++ [Event.readq Reg.vtd_ctr (hw tw Reg.vtd_ctr % U64_MOD)])
      (vtd_ctl_vtd_evtcode.set (hw (t ++ [Event.mutex_lock]) Reg.vtd_ctl % U64_MOD)
        (vtd_event base_event pobj_id) % U64_MOD) Reg.vtd_ctl rfl
      (by rw [List.all_append, hq]; rfl)
    simpa [show_0x_llx, htw, iommu_select_history] using hs
  · subst h0
    refine ⟨_, rfl, ?_⟩
    have hs := locked_shape_write t
      [Event.readq Reg.vtd_ctl (hw (t ++ [Event.mutex_lock]) Reg.vtd_ctl % U64_MOD)] ext
      (vtd_ctl_vtd_evtcode.set (hw (t ++ [Event.mutex_lock]) Reg.vtd_ctl % U64_MOD)
        (vtd_event base_event pobj_id) % U64_MOD) Reg.vtd_ctl rfl hq
    simpa [htw, iommu_select_history] using hs

/-- On a scope that is not enabled `read_fabric_counter` skips the counter
multiplexer: it loads the control register once, for the is-enabled query, and
prints 0. -/
theorem read_fabric_counter_disabled (fuel : Nat) (hw : Hardware) (pobj_id : Int)
    (fab_event : Nat) (t : Trace)
    (hen : (fabric_pobj_is_enabled hw pobj_id (t ++ [Event.mutex_lock])).1 = false) :
    read_fabric_counter fuel hw pobj_id fab_event t
      = some (show_0x_llx 0
          (t ++ [Event.mutex_lock,
                 Event.readq Reg.fab_ctl (hw (t ++ [Event.mutex_lock]) Reg.fab_ctl % U64_MOD),
                 Event.mutex_unlock])) := by
  have h2 : (fabric_pobj_is_enabled hw pobj_id (t ++ [Event.mutex_lock])).2
      = t ++ [Event.mutex_lock,
              Event.readq Reg.fab_ctl (hw (t ++ [Event.mutex_lock]) Reg.fab_ctl % U64_MOD)] := by
    rw [fabric_pobj_is_enabled_trace]; simp
  simp only [read_fabric_counter, mutex_lock, hen, h2, Bool.not_false, if_true,
    mutex_unlock, List.append_assoc, List.singleton_append, List.cons_append,
    List.nil_append]

theorem read_fabric_counter_locked (fuel : Nat) (hfuel : GPERF_TIMEOUT + 2 ≤ fuel)
    (hw : Hardware) (pobj_id : Int) (fab_event : Nat) (t : Trace) :
    ∃ r, read_fabric_counter fuel hw pobj_id fab_event t = some r ∧
      locked_extension t r.trace := by
  cases hen : (fabric_pobj_is_enabled hw pobj_id (t ++ [Event.mutex_lock])).1 with
  | false =>
    rw [read_fabric_counter_disabled fuel hw pobj_id fab_event t hen]
    refine ⟨_, rfl, ?_⟩
    have hs := locked_shape_quiet t
      [Event.readq Reg.fab_ctl (hw (t ++ [Event.mutex_lock]) Reg.fab_ctl % U64_MOD)] rfl
    simpa [show_0x_llx] using hs
  | true =>
    obtain ⟨ret, ext, hloop, hret, hpolls, _⟩ := wait_loop_ext hw fab_ctr_event_code
      (fab_ctr_event_code.set 0 fab_event) Reg.fab_ctr GPERF_TIMEOUT fuel
      (fabric_select_history hw fab_event t) hfuel
    have hq := polls_quiet _ ext hpolls
    obtain ⟨tw, htw⟩ : ∃ tw, tw = fabric_select_history hw fab_event t ++ ext := ⟨_, rfl⟩
    obtain ⟨t1, ht1⟩ : ∃ t1, t1 = t ++ [Event.mutex_lock,
      Event.readq Reg.fab_ctl (hw (t ++ [Event.mutex_lock]) Reg.fab_ctl % U64_MOD)] := ⟨_, rfl⟩
    rw [← htw] at hloop
    rw [read_fabric_counter_eq fuel hw pobj_id fab_event t hen, hloop]
    rcases hret with h0 | h0
    · subst h0
      refine ⟨_, rfl, ?_⟩
      have hs := locked_shape_write t
        [Event.readq Reg.fab_ctl (hw (t ++ [Event.mutex_lock]) Reg.fab_ctl % U64_MOD),
         Event.readq Reg.fab_ctl (hw t1 Reg.fab_ctl % U64_MOD)]
        (ext ++ [Event.readq Reg.fab_ctr (hw tw Reg.fab_ctr % U64_MOD)])
        (fab_ctl_fab_evtcode.set (hw t1 Reg.fab_ctl % U64_MOD) fab_event % U64_MOD)
        Reg.fab_ctl rfl (by rw [List.all_append, hq]; rfl)
      simpa [show_0x_llx, htw, ht1, fabric_select_history] using hs
    · subst h0
      refine ⟨_, rfl, ?_⟩
      have hs := locked_shape_write t
        [Event.readq Reg.fab_ctl (hw (t ++ [Event.mutex_lock]) Reg.fab_ctl % U64_MOD),
         Event.readq Reg.fab_ctl (hw t1 Reg.fab_ctl % U64_MOD)] ext
        (fab_ctl_fab_evtcode.set (hw t1 Reg.fab_ctl % U64_MOD) fab_event % U64_MOD)
        Reg.fab_ctl rfl hq
      simpa [htw, ht1, fabric_select_history] using hs

/-- C24 (amended): register writes of the attribute stores and counter reads
happen under the device lock. In what each store and each counter read adds
to the history, every register store lies between an acquisition of the lock
and the matching release, the lock is taken at most once and is free at the
end, on every path; the counter reads return (with enough fuel). The
initialisation of the error feature is outside this discipline:
`global_error_init` stores the six default masks of `fme_error_enable` first,
without the lock, and takes the lock only afterwards, when both
`device_register` and `sysfs_create_groups` succeeded. -/
theorem writes_under_lock_outside_init (fuel : Nat) (hfuel : GPERF_TIMEOUT + 2 ≤ fuel)
    (hw : Hardware) (kstrtou64 : String → Option Nat) (kstrtou8 : String → Int × Nat)
    (strtobool : String → Option Bool) (pobj_id : Int) (channel event : Nat) (buf : String)
    (count : Nat) (t : Trace) :
    (locked_extension t (clear_store hw kstrtou64 buf count t).2 ∧
      locked_extension t (pcie0_errors_store hw kstrtou64 buf count t).2 ∧
      locked_extension t (pcie1_errors_store hw kstrtou64 buf count t).2 ∧
      locked_extension t (warning_errors_store hw kstrtou64 buf count t).2) ∧
    (locked_extension t (thermal_threshold1_store hw kstrtou8 buf count t).2 ∧
      locked_extension t (thermal_threshold2_store hw kstrtou8 buf count t).2 ∧
      locked_extension t (thermal_threshold1_policy_store hw kstrtou8 buf count t).2 ∧
      locked_extension t (pwr_threshold1_store hw kstrtou8 buf count t).2 ∧
      locked_extension t (pwr_threshold2_store hw kstrtou8 buf count t).2 ∧
      locked_extension t (inject_error_store hw kstrtou8 buf count t).2) ∧
    (locked_extension t (freeze_store hw strtobool buf count t).2 ∧
      locked_extension t (vtd_freeze_store hw strtobool buf count t).2 ∧
      locked_extension t (fab_freeze_store hw strtobool buf count t).2 ∧
      locked_extension t (fab_enable_store hw strtobool pobj_id buf count t).2) ∧
    (∃ r, read_cache_counter fuel hw channel event t = some r ∧
      locked_extension t r.trace) ∧
    (∃ r, read_iommu_counter fuel hw pobj_id event t = some r ∧
      locked_extension t r.trace) ∧
    (∃ r, read_fabric_counter fuel hw pobj_id event t = some r ∧
      locked_extension t r.trace) ∧
    (∀ device_register sysfs_create_groups : Int,
      (global_error_init true device_register sysfs_create_groups t).2
        = t ++ [Event.writeq FME_ERROR0_MASK_DEFAULT Reg.fme_err_mask,
                Event.writeq 0 Reg.pcie0_err_mask, Event.writeq 0 Reg.pcie1_err_mask,
                Event.writeq 0 Reg.ras_gerr_mask, Event.writeq 0 Reg.ras_berr_mask,
                Event.writeq 0 Reg.ras_werr_mask]
            ++ (if device_register = 0 ∧ sysfs_create_groups = 0 then
                  [Event.mutex_lock, Event.mutex_unlock]
                else [])) := by
  refine ⟨error_stores_locked hw kstrtou64 buf count t,
    threshold_stores_locked hw kstrtou8 buf count t,
    perf_stores_locked hw strtobool pobj_id buf count t,
    read_cache_counter_locked fuel hfuel hw channel event t,
    read_iommu_counter_locked fuel hfuel hw pobj_id event t,
    read_fabric_counter_locked fuel hfuel hw pobj_id event t, ?_⟩
  intro device_register sysfs_create_groups
  have e2 : FME_ERROR0_MASK_DEFAULT % U64_MOD = FME_ERROR0_MASK_DEFAULT := by decide
  have e6 : 0 % U64_MOD = 0 := by decide
  simp only [global_error_init, fme_error_enable, writeq, mutex_lock, mutex_unlock, e2, e6,
    Bool.not_true, Bool.false_eq_true, if_false, List.append_assoc, List.singleton_append,
    List.cons_append, List.nil_append]
  by_cases h1 : device_register = 0
  · by_cases h2 : sysfs_create_groups = 0
    · simp [h1, h2]
    · simp [h1, h2]
  · simp [h1]

theorem writes_under_lock_outside_init_witness :
    locked_extension [] (freeze_store hw_cache_sample (fun _ => some true) "1" 1 []).2 :=
  (writes_under_lock_outside_init 32 (by decide) hw_cache_sample (fun _ => none)
    kstrtou8_decimal (fun _ => some true) 0 0 0 "1" 1 []).2.2.1.1

/-- Counterexample to C24 as stated: in the history of `global_error_init` on
a run in which every kernel service succeeds, the six mask stores of
`fme_error_enable` come before the lock is taken, so the history does not keep
the discipline. -/
theorem error_init_masks_written_unlocked :
    (global_error_init true 0 0 []).2
      = [Event.writeq 0x40 Reg.fme_err_mask, Event.writeq 0 Reg.pcie0_err_mask,
         Event.writeq 0 Reg.pcie1_err_mask, Event.writeq 0 Reg.ras_gerr_mask,
         Event.writeq 0 Reg.ras_berr_mask, Event.writeq 0 Reg.ras_werr_mask,
         Event.mutex_lock, Event.mutex_unlock] ∧
    lock_after false (global_error_init true 0 0 []).2 = none ∧
    ¬ locked_extension [] (global_error_init true 0 0 []).2 := by
  refine ⟨by decide, by decide, ?_⟩
  intro h
  have h2 := h.2.1
  simp only [List.length_nil, List.drop_zero] at h2
  exact absurd h2 (by decide)

/-! ## Theorems: the open-state invariant -/

theorem consistent_step (s : OpenState) (op : FileOp) (h : s.consistent)
    (hb : (s.step op).handles.length < 2147483648) :
    (s.step op).consistent := by
  obtain ⟨pd, hs, tr⟩ := s
  obtain ⟨ex, oc⟩ := pd
  obtain ⟨hc, hx⟩ := h
  simp only at hc hx
  subst hc
  have h1w : wrap_int 1 = 1 := by decide
  have h0w : wrap_int 0 = 0 := by decide
  cases op with
  | do_open k =>
    rcases hx with ⟨h1, h2⟩ | ⟨h1, h2⟩
    · subst h1 h2
      cases k <;>
        simp [OpenState.step, OpenState.consistent, fme_open, feature_dev_use_excl_begin,
          feature_dev_use_begin, mutex_lock, mutex_unlock, EBUSY]
    · subst h1
      cases k
      · have hlen : hs.length + 1 < 2147483648 := by
          simpa [OpenState.step, fme_open, feature_dev_use_begin, mutex_lock, mutex_unlock]
            using hb
        have hw : wrap_int ((hs.length : Int) + 1) = (hs.length : Int) + 1 :=
          wrap_int_of_range _ (by simp only [INT_MIN]; omega) (by simp only [INT_MAX]; omega)
        simp [OpenState.step, OpenState.consistent, fme_open, feature_dev_use_excl_begin,
          feature_dev_use_begin, mutex_lock, mutex_unlock, EBUSY, h2, hw]
      · cases hs with
        | nil =>
          simp [OpenState.step, OpenState.consistent, fme_open, feature_dev_use_excl_begin,
            feature_dev_use_begin, mutex_lock, mutex_unlock, EBUSY, h1w]
        | cons a l =>
          have hne : ((l.length : Int) + 1 = 0) = False := by
            apply propext
            constructor
            · intro h; omega
            · intro h; exact h.elim
          simp [OpenState.step, OpenState.consistent, fme_open, feature_dev_use_excl_begin,
            feature_dev_use_begin, mutex_lock, mutex_unlock, EBUSY, hne]
          simpa using h2
  | do_release i =>
    by_cases hi : i < hs.length
    · have hlen : ((hs.eraseIdx i).length : Int) = (hs.length : Int) - 1 := by
        rw [List.length_eraseIdx, if_pos hi]
        omega
      rcases hx with ⟨h1, h2⟩ | ⟨h1, h2⟩
      · subst h1 h2
        have hi0 : i = 0 := by simpa using hi
        subst hi0
        simp [OpenState.step, OpenState.consistent, fme_release, __feature_dev_use_end,
          mutex_lock, mutex_unlock, h0w]
      · subst h1
        have hnot : true ∉ hs.eraseIdx i := fun hm => h2 ((List.eraseIdx_sublist hs i).subset hm)
        have hb2 : (hs.eraseIdx i).length < 2147483648 := by
          simpa [OpenState.step, hi] using hb
        have hw : wrap_int ((hs.length : Int) - 1) = (hs.length : Int) - 1 :=
          wrap_int_of_range _ (by simp only [INT_MIN]; omega) (by simp only [INT_MAX]; omega)
        simp only [OpenState.step, hi, if_true, OpenState.consistent, fme_release,
          __feature_dev_use_end, hlen, hw]
        exact ⟨trivial, Or.inr ⟨trivial, hnot⟩⟩
    · simp only [OpenState.step, hi, if_false]
      exact ⟨rfl, hx⟩

theorem within_int_head (ops : List FileOp) (s : OpenState)
    (h : s.within_int ops = true) : s.handles.length < 2147483648 := by
  cases ops with
  | nil => simpa [OpenState.within_int] using h
  | cons op ops =>
    simp only [OpenState.within_int, Bool.and_eq_true, decide_eq_true_eq] at h
    exact h.1

theorem consistent_run (ops : List FileOp) :
    ∀ s : OpenState, s.consistent → s.within_int ops = true → (s.run ops).consistent := by
  induction ops with
  | nil => intro s h _; exact h
  | cons op ops ih =>
    intro s h hb
    simp only [OpenState.within_int, Bool.and_eq_true, decide_eq_true_eq] at hb
    exact ih (s.step op) (consistent_step s op h (within_int_head ops _ hb.2)) hb.2

theorem run_shared_opens (n : Nat) :
    ∀ (s : OpenState) (c : Int), s.pdata.excl_open = 0 → s.pdata.open_count = wrap_int c →
      (s.run (List.replicate n (FileOp.do_open false))).handles
          = s.handles ++ List.replicate n false ∧
        (s.run (List.replicate n (FileOp.do_open false))).pdata
          = { excl_open := 0, open_count := wrap_int (c + (n : Int)) } := by
  induction n with
  | zero =>
    intro s c hx hc
    obtain ⟨⟨ex, oc⟩, hs, tr⟩ := s
    simp only at hx hc
    subst hx hc
    simp [OpenState.run]
  | succ n ih =>
    intro s c hx hc
    obtain ⟨⟨ex, oc⟩, hs, tr⟩ := s
    simp only at hx hc
    subst hx hc
    have hstep : (OpenState.step ⟨⟨0, wrap_int c⟩, hs, tr⟩ (FileOp.do_open false))
        = ⟨⟨0, wrap_int (c + 1)⟩, hs ++ [false], tr ++ [Event.mutex_lock, Event.mutex_unlock]⟩ := by
      simp [OpenState.step, fme_open, feature_dev_use_begin, mutex_lock, mutex_unlock,
        wrap_int_succ]
    have h := ih ⟨⟨0, wrap_int (c + 1)⟩, hs ++ [false],
      tr ++ [Event.mutex_lock, Event.mutex_unlock]⟩ (c + 1) rfl rfl
    rw [List.replicate_succ, OpenState.run, List.foldl_cons, hstep]
    rw [OpenState.run] at h
    refine ⟨?_, ?_⟩
    · rw [h.1, List.append_assoc]
      rfl
    · rw [h.2]
      congr 2
      push_cast
      ring

/-- C25 (amended): open-state invariant. In every state reached from the device
node before any open by `fme_open` attempts of either kind and by `fme_release`
of outstanding handles, through states with at most `INT_MAX` outstanding
handles, `open_count` is the number of outstanding handles (so it is not
negative), `excl_open` is 0 or 1, `excl_open = 1` implies `open_count = 1`, and
`excl_open = 1` holds exactly when a handle opened with `O_EXCL` is
outstanding, which is then the only handle; so no release clears `excl_open`
while the exclusive holder is still open. -/
theorem open_state_invariant (ops : List FileOp)
    (hb : open_state_init.within_int ops = true) :
    (open_state_init.run ops).pdata.open_count
      = ((open_state_init.run ops).handles.length : Int) ∧
    0 ≤ (open_state_init.run ops).pdata.open_count ∧
    ((open_state_init.run ops).pdata.excl_open = 0 ∨
      (open_state_init.run ops).pdata.excl_open = 1) ∧
    ((open_state_init.run ops).pdata.excl_open = 1 →
      (open_state_init.run ops).pdata.open_count = 1) ∧
    ((open_state_init.run ops).pdata.excl_open = 1 ↔
      true ∈ (open_state_init.run ops).handles) ∧
    (true ∈ (open_state_init.run ops).handles →
      (open_state_init.run ops).handles = [true]) := by
  have h0 : open_state_init.consistent := ⟨rfl, Or.inr ⟨rfl, by simp [open_state_init]⟩⟩
  obtain ⟨hc, hx⟩ := consistent_run ops open_state_init h0 hb
  refine ⟨hc, by rw [hc]; exact Int.natCast_nonneg _, ?_, ?_, ?_, ?_⟩
  · rcases hx with ⟨h1, _⟩ | ⟨h1, _⟩
    · exact Or.inr h1
    · exact Or.inl h1
  · intro h1
    rcases hx with ⟨_, h2⟩ | ⟨h3, _⟩
    · rw [hc, h2]; rfl
    · rw [h3] at h1; exact absurd h1 (by decide)
  · rcases hx with ⟨h1, h2⟩ | ⟨h1, h2⟩
    · exact ⟨fun _ => by rw [h2]; simp, fun _ => h1⟩
    · exact ⟨fun h => by rw [h1] at h; exact absurd h (by decide), fun h => absurd h h2⟩
  · intro hm
    rcases hx with ⟨_, h2⟩ | ⟨_, h2⟩
    · exact h2
    · exact absurd hm h2

/-- Witness for C25: two shared opens, a refused exclusive open, the release
of both handles, an exclusive open, a refused shared open. -/
theorem open_state_invariant_witness :
    open_state_init.within_int
        [FileOp.do_open false, FileOp.do_open false, FileOp.do_open true,
         FileOp.do_release 1, FileOp.do_release 0, FileOp.do_open true,
         FileOp.do_open false] = true ∧
    (open_state_init.run
        [FileOp.do_open false, FileOp.do_open false, FileOp.do_open true,
         FileOp.do_release 1, FileOp.do_release 0, FileOp.do_open true,
         FileOp.do_open false]).handles = [true] ∧
    (open_state_init.run
        [FileOp.do_open false, FileOp.do_open false, FileOp.do_open true,
         FileOp.do_release 1, FileOp.do_release 0, FileOp.do_open true,
         FileOp.do_open false]).pdata.open_count
      = ((open_state_init.run
        [FileOp.do_open false, FileOp.do_open false, FileOp.do_open true,
         FileOp.do_release 1, FileOp.do_release 0, FileOp.do_open true,
         FileOp.do_open false]).handles.length : Int) :=
  ⟨by decide, by decide,
   (open_state_invariant
      [FileOp.do_open false, FileOp.do_open false, FileOp.do_open true,
       FileOp.do_release 1, FileOp.do_release 0, FileOp.do_open true,
       FileOp.do_open false] (by decide)).1⟩

/-- C25 as stated fails once `2 ^ 31` handles are outstanding: after
`2147483648` successful shared opens and no close, `open_count` is
`-2147483648`, negative and not the number of outstanding handles. -/
theorem open_count_negative_after_two_pow_31_opens :
    ((open_state_init.run
        (List.replicate 2147483648 (FileOp.do_open false))).handles.length : Int)
      = 2147483648 ∧
    (open_state_init.run
        (List.replicate 2147483648 (FileOp.do_open false))).pdata.open_count
      = -2147483648 := by
  have h := run_shared_opens 2147483648 open_state_init 0 rfl rfl
  constructor
  · rw [h.1, List.length_append, List.length_replicate]
    rfl
  · rw [h.2]
    show wrap_int (0 + ((2147483648 : Nat) : Int)) = -2147483648
    decide

/-! ## Theorems: the poll budget -/

/-- C26: poll budget of `fpga_wait_register_field`. Called with timeout `T`
(small enough for the `int` counter `wait`) and interval 1, with enough fuel,
the loop returns; it loads the register at most `T + 1` times and stores
nothing; it returns 0 or `-ETIMEDOUT`; it returns `-ETIMEDOUT` exactly when
none of the `T + 1` polls shows the expected field, and its history is then
those `T + 1` polls; when it returns 0, the poll that matched is the first one
that matches and the load of that poll is the last event of the history. -/
theorem poll_budget (T fuel : Nat) (hT : T + 1 < 2 ^ 31) (hfuel : T + 2 ≤ fuel)
    (hw : Hardware) (field : BitField) (expect : Nat) (reg : Reg) (t : Trace) :
    ∃ ret ext, fpga_wait_register_field fuel hw field expect reg T 1 t = some (ret, t ++ ext) ∧
      (reads_of reg ext).length ≤ T + 1 ∧ all_writes ext = [] ∧
      (ret = 0 ∨ ret = -ETIMEDOUT) ∧
      (ret = -ETIMEDOUT ↔
        ∀ k ≤ T, field.get expect ≠ field.get (hw (poll_history hw reg k t) reg % U64_MOD)) ∧
      (ret = 0 →
        ∃ j ≤ T,
          (∀ k < j, field.get expect
              ≠ field.get (hw (poll_history hw reg k t) reg % U64_MOD)) ∧
          field.get expect = field.get (hw (poll_history hw reg j t) reg % U64_MOD) ∧
          t ++ ext = poll_history hw reg j t
            ++ [Event.readq reg (hw (poll_history hw reg j t) reg % U64_MOD)] ∧
          (reads_of reg ext).length = j + 1) ∧
      (ret = -ETIMEDOUT →
        t ++ ext = poll_history hw reg (T + 1) t ∧ (reads_of reg ext).length = T + 1) := by
  have _ := hT
  have hne : (0 : Int) ≠ -ETIMEDOUT := by decide
  unfold fpga_wait_register_field
  rcases wait_loop_outcome hw field expect reg T (T + 1) fuel 0 t (by omega) (by omega) with
    ⟨j, hj, hno, hyes, hres⟩ | ⟨hno, hres⟩
  · obtain ⟨ext, he, hev, hlen⟩ := poll_history_ext hw reg j t
    have hnw := all_writes_of_polls reg ext hev
    have hlen2 : (reads_of reg
        (ext ++ [Event.readq reg (hw (poll_history hw reg j t) reg % U64_MOD)])).length
        = j + 1 := by
      rw [reads_of_append, List.length_append, hlen]
      simp [reads_of]
    refine ⟨0, ext ++ [Event.readq reg (hw (poll_history hw reg j t) reg % U64_MOD)], ?_, ?_,
      ?_, Or.inl rfl, ?_, ?_, ?_⟩
    · rw [hres, he, List.append_assoc]
    · rw [hlen2]; omega
    · rw [all_writes_append, hnw]; simp [all_writes]
    · constructor
      · intro h; exact absurd h hne
      · intro h; exact absurd hyes (h j (by omega))
    · intro _
      exact ⟨j, by omega, hno, hyes, by rw [← List.append_assoc, ← he], hlen2⟩
    · intro h; exact absurd h hne
  · obtain ⟨ext, he, hev, hlen⟩ := poll_history_ext hw reg (T + 1) t
    have hnw := all_writes_of_polls reg ext hev
    refine ⟨-ETIMEDOUT, ext, by rw [hres, he], by omega, hnw, Or.inr rfl, ?_, ?_, ?_⟩
    · exact ⟨fun _ k hk => hno k (by omega), fun _ => rfl⟩
    · intro h; exact absurd h.symm hne
    · intro _; exact ⟨he.symm, hlen⟩

theorem poll_budget_witness :
    ∃ ret ext, fpga_wait_register_field 32 hw_cache_sample ch_ctr_event_code
        (ch_ctr_event_code.set 0 2) Reg.ch_ctr0 GPERF_TIMEOUT 1 [] = some (ret, [] ++ ext) ∧
      (reads_of Reg.ch_ctr0 ext).length ≤ GPERF_TIMEOUT + 1 ∧ all_writes ext = [] := by
  obtain ⟨ret, ext, h1, h2, h3, _⟩ := poll_budget GPERF_TIMEOUT 32 (by decide) (by decide)
    hw_cache_sample ch_ctr_event_code (ch_ctr_event_code.set 0 2) Reg.ch_ctr0 []
  exact ⟨ret, ext, h1, h2, h3⟩

/-! ## Theorems: the fabric read on an inactive scope -/

/-- C27: fabric read on an inactive scope. Whatever the control register
reads, the event requested and the fuel, when `fabric_pobj_is_enabled` is
false for the scope, `read_fabric_counter` returns the length of the text
`0x0`, written to the buffer, not the timeout error; its history is the lock,
the load of the control register made by the is-enabled query and the unlock,
so it stores to no register and does not load the counter register. -/
theorem fabric_read_inactive (fuel : Nat) (hw : Hardware) (pobj_id : Int) (fab_event : Nat)
    (t : Trace)
    (hen : (fabric_pobj_is_enabled hw pobj_id (t ++ [Event.mutex_lock])).1 = false) :
    ∃ r, read_fabric_counter fuel hw pobj_id fab_event t = some r ∧
      r.buf = some "0x0\n" ∧ r.ret = 4 ∧ r.ret ≠ -ETIMEDOUT ∧
      r.trace = t ++ [Event.mutex_lock,
        Event.readq Reg.fab_ctl (hw (t ++ [Event.mutex_lock]) Reg.fab_ctl % U64_MOD),
        Event.mutex_unlock] ∧
      all_writes (r.trace.drop t.length) = [] ∧
      reads_of Reg.fab_ctr (r.trace.drop t.length) = [] := by
  rw [read_fabric_counter_disabled fuel hw pobj_id fab_event t hen]
  have hb : fmt_0x_llx 0 = "0x0\n" := by decide
  have hl : ((fmt_0x_llx 0).length : Int) = 4 := by decide
  refine ⟨_, rfl, ?_, ?_, ?_, rfl, ?_, ?_⟩
  · simp only [show_0x_llx, hb]
  · simp only [show_0x_llx, hl]
  · simp only [show_0x_llx, hl]
    decide
  · simp [show_0x_llx, all_writes]
  · simp [show_0x_llx, reads_of]

theorem fabric_read_inactive_witness :
    ∃ r, read_fabric_counter 0 (fun _ _ => 0) 0 3 [] = some r ∧
      r.buf = some "0x0\n" ∧ r.ret = 4 ∧ r.ret ≠ -ETIMEDOUT ∧
      r.trace = [] ++ [Event.mutex_lock, Event.readq Reg.fab_ctl 0, Event.mutex_unlock] ∧
      all_writes (r.trace.drop ([] : Trace).length) = [] ∧
      reads_of Reg.fab_ctr (r.trace.drop ([] : Trace).length) = [] :=
  fabric_read_inactive 0 (fun _ _ => 0) 0 3 [] (by decide)

/-! ## Theorems: IOMMU event codes -/

theorem threshold_set_value (fe ft : BitField) (lo : Nat) (hft : ft = ⟨lo, 7⟩)
    (hfe : fe = ⟨lo + 7, 1⟩) (hlo : lo + 8 ≤ 64) (c v : Nat) (hc : c < 2 ^ 64)
    (hv : v ≤ 100) :
    let w := ft.set (fe.set c (if v = 0 then 0 else 1)) v
    w % U64_MOD = w ∧ ft.get w = v ∧ fe.get w = (if v = 0 then 0 else 1) ∧
    (∀ i, i < lo ∨ lo + 8 ≤ i → w.testBit i = c.testBit i) := by
  intro w
  subst hft hfe
  have h1 : BitField.set ⟨lo + 7, 1⟩ c (if v = 0 then 0 else 1) < 2 ^ 64 :=
    BitField.set_lt _ _ _ 64 hc (by show lo + 7 + 1 ≤ 64; omega)
  have h2 : w < 2 ^ 64 := BitField.set_lt _ _ _ 64 h1 (by show lo + 7 ≤ 64; omega)
  refine ⟨mod_u64_of_lt w h2, ?_, ?_, ?_⟩
  · show BitField.get ⟨lo, 7⟩ (BitField.set ⟨lo, 7⟩ _ v) = v
    rw [BitField.get_set]
    exact Nat.mod_eq_of_lt (by show v < 2 ^ 7; omega)
  · show BitField.get ⟨lo + 7, 1⟩ (BitField.set ⟨lo, 7⟩ (BitField.set ⟨lo + 7, 1⟩ c _) v) = _
    rw [BitField.get_set_of_disjoint _ _ _ _ (Or.inr (le_refl _)), BitField.get_set]
    split <;> rfl
  · intro i hi
    show (BitField.set ⟨lo, 7⟩ (BitField.set ⟨lo + 7, 1⟩ c _) v).testBit i = c.testBit i
    rcases hi with hi | hi
    · rw [BitField.testBit_set_of_lt _ _ _ _ (by show i < lo; exact hi),
        BitField.testBit_set_of_lt _ _ _ _ (by show i < lo + 7; omega)]
    · rw [BitField.testBit_set_of_ge _ _ _ _ (by show lo + 7 ≤ i; omega),
        BitField.testBit_set_of_ge _ _ _ _ (by show lo + 7 + 1 ≤ i; omega)]

/-- C29: thermal threshold store semantics. For a text that parses to `v`:
when the lock bit of the capability register is set,
`thermal_threshold1_store` and `thermal_threshold2_store` return `-EBUSY`
whatever `v` is, and their history holds no store. When the lock bit is clear
and `v ≤ 100`, they return the byte count and store, to the threshold register,
the value `c` just loaded from it with the 7-bit threshold field set to `v`
and its enable bit set to 0 if `v = 0` and to 1 otherwise, every bit outside
the field and its enable bit being the bit of `c` (threshold1: bits 0..6 and
bit 7; threshold2: bits 8..14 and bit 15). -/
theorem thermal_threshold_store_semantics (hw : Hardware) (kstrtou8 : String → Int × Nat)
    (buf : String) (count : Nat) (t : Trace) (v : Nat) (hparse : kstrtou8 buf = (0, v)) :
    (let c := hw (t ++ [Event.mutex_lock]) Reg.tmp_threshold % U64_MOD
     let t2 := t ++ [Event.mutex_lock, Event.readq Reg.tmp_threshold c]
     let k := hw t2 Reg.capability % U64_MOD
     let w := tmp_threshold_tmp_thshold1.set
       (tmp_threshold_tmp_thshold1_enable.set c (if v = 0 then 0 else 1)) v
     (capability_lock_bit.get k = 1 →
       thermal_threshold1_store hw kstrtou8 buf count t
         = (-EBUSY, t2 ++ [Event.readq Reg.capability k, Event.mutex_unlock])) ∧
     (capability_lock_bit.get k ≠ 1 → v ≤ 100 →
       thermal_threshold1_store hw kstrtou8 buf count t
         = (ssize_t_of count,
            t2 ++ [Event.readq Reg.capability k, Event.writeq w Reg.tmp_threshold,
                   Event.mutex_unlock]) ∧
       tmp_threshold_tmp_thshold1.get w = v ∧
       tmp_threshold_tmp_thshold1_enable.get w = (if v = 0 then 0 else 1) ∧
       (∀ i, 8 ≤ i → w.testBit i = c.testBit i))) ∧
    (let c := hw (t ++ [Event.mutex_lock]) Reg.tmp_threshold % U64_MOD
     let t2 := t ++ [Event.mutex_lock, Event.readq Reg.tmp_threshold c]
     let k := hw t2 Reg.capability % U64_MOD
     let w := tmp_threshold_tmp_thshold2.set
       (tmp_threshold_tmp_thshold2_enable.set c (if v = 0 then 0 else 1)) v
     (capability_lock_bit.get k = 1 →
       thermal_threshold2_store hw kstrtou8 buf count t
         = (-EBUSY, t2 ++ [Event.readq Reg.capability k, Event.mutex_unlock])) ∧
     (capability_lock_bit.get k ≠ 1 → v ≤ 100 →
       thermal_threshold2_store hw kstrtou8 buf count t
         = (ssize_t_of count,
            t2 ++ [Event.readq Reg.capability k, Event.writeq w Reg.tmp_threshold,
                   Event.mutex_unlock]) ∧
       tmp_threshold_tmp_thshold2.get w = v ∧
       tmp_threshold_tmp_thshold2_enable.get w = (if v = 0 then 0 else 1) ∧
       (∀ i, i < 8 ∨ 16 ≤ i → w.testBit i = c.testBit i))) := by
  have hp1 : (kstrtou8 buf).1 = 0 := by rw [hparse]
  have hp2 : (kstrtou8 buf).2 = v := by rw [hparse]
  refine ⟨?_, ?_⟩
  · intro c t2 k w
    refine ⟨?_, ?_⟩
    · intro hk
      simp only [thermal_threshold1_store, hp1, hp2, readq, writeq, mutex_lock, mutex_unlock,
        List.append_assoc, List.singleton_append, List.cons_append, List.nil_append]
      simp only [k, t2, c] at hk
      simp only [ne_eq, not_true_eq_false, if_false, hk, if_true, t2, c, k,
        List.append_assoc, List.singleton_append, List.cons_append, List.nil_append]
    · intro hk hv
      obtain ⟨hmod, hget, hen, hbits⟩ := threshold_set_value tmp_threshold_tmp_thshold1_enable
        tmp_threshold_tmp_thshold1 0 rfl rfl (by decide) c v (readq_lt hw _ _) hv
      refine ⟨?_, hget, hen, fun i hi => hbits i (Or.inr (by omega))⟩
      have hv2 : ¬ v > 100 := by omega
      simp only [thermal_threshold1_store, hp1, hp2, readq, writeq, mutex_lock, mutex_unlock,
        List.append_assoc, List.singleton_append, List.cons_append, List.nil_append]
      simp only [k, t2, c] at hk
      simp only [ne_eq, not_true_eq_false, if_false, hk, hv2, t2, c, k,
        List.append_assoc, List.singleton_append, List.cons_append, List.nil_append]
      have hw2 : (if v = 0 then
            tmp_threshold_tmp_thshold1.set (tmp_threshold_tmp_thshold1_enable.set c 0) v
          else tmp_threshold_tmp_thshold1.set (tmp_threshold_tmp_thshold1_enable.set c 1) v)
          = w := by
        by_cases h0 : v = 0 <;> simp [w, h0]
      simp only [c] at hw2
      rw [hw2, hmod]
  · intro c t2 k w
    refine ⟨?_, ?_⟩
    · intro hk
      simp only [thermal_threshold2_store, hp1, hp2, readq, writeq, mutex_lock, mutex_unlock,
        List.append_assoc, List.singleton_append, List.cons_append, List.nil_append]
      simp only [k, t2, c] at hk
      simp only [ne_eq, not_true_eq_false, if_false, hk, if_true, t2, c, k,
        List.append_assoc, List.singleton_append, List.cons_append, List.nil_append]
    · intro hk hv
      obtain ⟨hmod, hget, hen, hbits⟩ := threshold_set_value tmp_threshold_tmp_thshold2_enable
        tmp_threshold_tmp_thshold2 8 rfl rfl (by decide) c v (readq_lt hw _ _) hv
      refine ⟨?_, hget, hen, fun i hi => hbits i (by omega)⟩
      have hv2 : ¬ v > 100 := by omega
      simp only [thermal_threshold2_store, hp1, hp2, readq, writeq, mutex_lock, mutex_unlock,
        List.append_assoc, List.singleton_append, List.cons_append, List.nil_append]
      simp only [k, t2, c] at hk
      simp only [ne_eq, not_true_eq_false, if_false, hk, hv2, t2, c, k,
        List.append_assoc, List.singleton_append, List.cons_append, List.nil_append]
      have hw2 : (if v = 0 then
            tmp_threshold_tmp_thshold2.set (tmp_threshold_tmp_thshold2_enable.set c 0) v
          else tmp_threshold_tmp_thshold2.set (tmp_threshold_tmp_thshold2_enable.set c 1) v)
          = w := by
        by_cases h0 : v = 0 <;> simp [w, h0]
      simp only [c] at hw2
      rw [hw2, hmod]

theorem thermal_threshold_store_semantics_witness :
    thermal_threshold1_store (fun _ _ => 0) kstrtou8_decimal "50" 2 []
      = (2, [Event.mutex_lock, Event.readq Reg.tmp_threshold 0, Event.readq Reg.capability 0,
             Event.writeq (128 + 50) Reg.tmp_threshold, Event.mutex_unlock]) :=
  ((thermal_threshold_store_semantics (fun _ _ => 0) kstrtou8_decimal "50" 2 [] 50
    (by decide)).1.2 (by decide) (by decide)).1

/-! ## Theorems: creation of attribute groups -/

theorem sysfs_create_groups_loop_fail_at (env : KernelEnv) (kobj : Nat) (g : attribute_group)
    (post : List attribute_group) (hg : env.sysfs_create_group kobj g ≠ 0) :
    ∀ (pre created : List attribute_group) (log : List PerfEvent),
      (∀ x ∈ pre, env.sysfs_create_group kobj x = 0) →
      sysfs_create_groups_loop env kobj (pre ++ g :: post) created log
        = (env.sysfs_create_group kobj g,
           log ++ pre.map (fun x => PerfEvent.sysfs_create_group kobj x 0)
             ++ [PerfEvent.sysfs_create_group kobj g (env.sysfs_create_group kobj g)]
             ++ (pre.reverse ++ created).map (PerfEvent.sysfs_remove_group kobj)) := by
  intro pre
  induction pre with
  | nil =>
    intro created log _
    simp [sysfs_create_groups_loop, hg]
  | cons x pre ih =>
    intro created log hpre
    have hx : env.sysfs_create_group kobj x = 0 := hpre x (List.mem_cons_self _ _)
    have hrest : ∀ y ∈ pre, env.sysfs_create_group kobj y = 0 :=
      fun y hy => hpre y (List.mem_cons_of_mem _ hy)
    simp only [List.cons_append, sysfs_create_groups_loop, hx, ne_eq, not_true_eq_false,
      if_false]
    change sysfs_create_groups_loop env kobj (pre ++ g :: post) (x :: created)
      (log ++ [PerfEvent.sysfs_create_group kobj x 0]) = _
    rw [ih (x :: created) (log ++ [PerfEvent.sysfs_create_group kobj x 0]) hrest]
    simp

/-- C30: group creation is all-or-nothing. `sysfs_create_groups` on a NULL
list returns 0 and calls nothing. On a list whose groups are all created
without error it returns 0 after creating each group once, in list order. On a
list `pre ++ g :: post` in which the groups of `pre` are created without error
and the creation of `g` (the group at index `pre.length`) fails, it returns
the error of that creation; its calls are the creations of `pre` in order, the
failed creation of `g`, and the removals of the groups of `pre` in reverse
order, from index `pre.length - 1` down to 0; no group of `post` is touched,
and every group created has been removed. -/
theorem group_creation_all_or_nothing (env : KernelEnv) (kobj : Nat)
    (log : List PerfEvent) :
    sysfs_create_groups env kobj none log = (0, log) ∧
    (∀ gs : List attribute_group, (∀ g ∈ gs, env.sysfs_create_group kobj g = 0) →
      sysfs_create_groups env kobj (some gs) log
        = (0, log ++ gs.map (fun g => PerfEvent.sysfs_create_group kobj g 0))) ∧
    (∀ (pre : List attribute_group) (g : attribute_group) (post : List attribute_group),
      (∀ x ∈ pre, env.sysfs_create_group kobj x = 0) →
      env.sysfs_create_group kobj g ≠ 0 →
      sysfs_create_groups env kobj (some (pre ++ g :: post)) log
        = (env.sysfs_create_group kobj g,
           log ++ pre.map (fun x => PerfEvent.sysfs_create_group kobj x 0)
             ++ [PerfEvent.sysfs_create_group kobj g (env.sysfs_create_group kobj g)]
             ++ pre.reverse.map (PerfEvent.sysfs_remove_group kobj))) := by
  refine ⟨rfl, ?_, ?_⟩
  · intro gs hall
    have hnone : (gs.map (env.sysfs_create_group kobj)).find? (fun r => decide (r ≠ 0))
        = none := by
      rw [List.find?_eq_none]
      intro r hr
      rw [List.mem_map] at hr
      obtain ⟨g, hg, rfl⟩ := hr
      simp [hall g hg]
    simp only [sysfs_create_groups]
    exact sysfs_create_groups_loop_ok env kobj gs [] log hnone
  · intro pre g post hpre hg
    simp only [sysfs_create_groups]
    rw [sysfs_create_groups_loop_fail_at env kobj g post hg pre [] log hpre]
    simp

theorem group_creation_all_or_nothing_witness :
    sysfs_create_groups (env_group_fails fabric_top_attr_group (-ENOMEM)) 4
        (some ([fabric_attr_group] ++ fabric_top_attr_group :: [])) []
      = (-ENOMEM,
         [PerfEvent.sysfs_create_group 4 fabric_attr_group 0,
          PerfEvent.sysfs_create_group 4 fabric_top_attr_group (-ENOMEM),
          PerfEvent.sysfs_remove_group 4 fabric_attr_group]) :=
  (group_creation_all_or_nothing (env_group_fails fabric_top_attr_group (-ENOMEM)) 4 []).2.2
    [fabric_attr_group] fabric_top_attr_group [] (by decide) (by decide)

/-! ## Theorems: out-of-range writes -/

theorem single_field_set_value (f : BitField) (hf : f.lo + f.width ≤ 64) (c v : Nat)
    (hc : c < 2 ^ 64) (hv : v < 2 ^ f.width) :
    f.set c v % U64_MOD = f.set c v ∧ f.get (f.set c v) = v :=
  ⟨mod_u64_of_lt _ (BitField.set_lt f c v 64 hc hf),
   by rw [BitField.get_set]; exact Nat.mod_eq_of_lt hv⟩

/-- C17 (amended). Out-of-range write. Each of the six stores takes the lock,
loads its register and parses the text with `kstrtou8`. When the parser
refuses the text (error code `e ≠ 0`; the kernel parser refuses every number
above 255 with `-ERANGE`), the store returns `e` and stores nothing. When the
text parses to `v`: power threshold1/threshold2 return `-EINVAL` for
`v > 0x7F`, `inject_error` for `v > 7`, threshold1_policy for `v > 1`, each
without a register store; thermal threshold1/threshold2 load the capability
register and return `-EBUSY` for every `v` when its lock bit is set, and
`-EINVAL` for `v > 100` when it is clear, without a register store. Every `v`
at or below the maximum (lock bit clear for the thermal thresholds) is
accepted: the store writes the register once, with the field set to `v` in the
value loaded (thermal thresholds: and the enable bit set to whether `v ≠ 0`;
`inject_error`: the whole register set to `v`), and returns the byte count. -/
theorem out_of_range_write_refused (hw : Hardware) (kstrtou8 : String → Int × Nat)
    (buf : String) (count : Nat) (t : Trace) :
    (let c := hw (t ++ [Event.mutex_lock]) Reg.tmp_threshold % U64_MOD
     let t2 := t ++ [Event.mutex_lock, Event.readq Reg.tmp_threshold c]
     let k := hw t2 Reg.capability % U64_MOD
     let e := (kstrtou8 buf).1
     let v := (kstrtou8 buf).2
     let w := tmp_threshold_tmp_thshold1.set
       (tmp_threshold_tmp_thshold1_enable.set c (if v = 0 then 0 else 1)) v
     (e ≠ 0 →
        thermal_threshold1_store hw kstrtou8 buf count t = (e, t2 ++ [Event.mutex_unlock])) ∧
     (e = 0 → capability_lock_bit.get k = 1 →
        thermal_threshold1_store hw kstrtou8 buf count t
          = (-EBUSY, t2 ++ [Event.readq Reg.capability k, Event.mutex_unlock])) ∧
     (e = 0 → capability_lock_bit.get k ≠ 1 → 100 < v →
        thermal_threshold1_store hw kstrtou8 buf count t
          = (-EINVAL, t2 ++ [Event.readq Reg.capability k, Event.mutex_unlock])) ∧
     (e = 0 → capability_lock_bit.get k ≠ 1 → v ≤ 100 →
        thermal_threshold1_store hw kstrtou8 buf count t
          = (ssize_t_of count,
             t2 ++ [Event.readq Reg.capability k, Event.writeq w Reg.tmp_threshold,
                    Event.mutex_unlock]) ∧
        tmp_threshold_tmp_thshold1.get w = v)) ∧
    (let c := hw (t ++ [Event.mutex_lock]) Reg.tmp_threshold % U64_MOD
     let t2 := t ++ [Event.mutex_lock, Event.readq Reg.tmp_threshold c]
     let k := hw t2 Reg.capability % U64_MOD
     let e := (kstrtou8 buf).1
     let v := (kstrtou8 buf).2
     let w := tmp_threshold_tmp_thshold2.set
       (tmp_threshold_tmp_thshold2_enable.set c (if v = 0 then 0 else 1)) v
     (e ≠ 0 →
        thermal_threshold2_store hw kstrtou8 buf count t = (e, t2 ++ [Event.mutex_unlock])) ∧
     (e = 0 → capability_lock_bit.get k = 1 →
        thermal_threshold2_store hw kstrtou8 buf count t
          = (-EBUSY, t2 ++ [Event.readq Reg.capability k, Event.mutex_unlock])) ∧
     (e = 0 → capability_lock_bit.get k ≠ 1 → 100 < v →
        thermal_threshold2_store hw kstrtou8 buf count t
          = (-EINVAL, t2 ++ [Event.readq Reg.capability k, Event.mutex_unlock])) ∧
     (e = 0 → capability_lock_bit.get k ≠ 1 → v ≤ 100 →
        thermal_threshold2_store hw kstrtou8 buf count t
          = (ssize_t_of count,
             t2 ++ [Event.readq Reg.capability k, Event.writeq w Reg.tmp_threshold,
                    Event.mutex_unlock]) ∧
        tmp_threshold_tmp_thshold2.get w = v)) ∧
    (let c := hw (t ++ [Event.mutex_lock]) Reg.tmp_threshold % U64_MOD
     let t2 := t ++ [Event.mutex_lock, Event.readq Reg.tmp_threshold c]
     let e := (kstrtou8 buf).1
     let v := (kstrtou8 buf).2
     let w := tmp_threshold_thshold_policy.set c v
     (e ≠ 0 →
        thermal_threshold1_policy_store hw kstrtou8 buf count t
          = (e, t2 ++ [Event.mutex_unlock])) ∧
     (e = 0 → 1 < v →
        thermal_threshold1_policy_store hw kstrtou8 buf count t
          = (-EINVAL, t2 ++ [Event.mutex_unlock])) ∧
     (e = 0 → v ≤ 1 →
        thermal_threshold1_policy_store hw kstrtou8 buf count t
          = (ssize_t_of count,
             t2 ++ [Event.writeq w Reg.tmp_threshold, Event.mutex_unlock]) ∧
        tmp_threshold_thshold_policy.get w = v)) ∧
    (let c := hw (t ++ [Event.mutex_lock]) Reg.pm_ap_threshold % U64_MOD
     let t2 := t ++ [Event.mutex_lock, Event.readq Reg.pm_ap_threshold c]
     let e := (kstrtou8 buf).1
     let v := (kstrtou8 buf).2
     let w := pm_ap_threshold_threshold1.set c v
     (e ≠ 0 →
        pwr_threshold1_store hw kstrtou8 buf count t = (e, t2 ++ [Event.mutex_unlock])) ∧
     (e = 0 → PWR_THRESHOLD_MAX < v →
        pwr_threshold1_store hw kstrtou8 buf count t
          = (-EINVAL, t2 ++ [Event.mutex_unlock])) ∧
     (e = 0 → v ≤ PWR_THRESHOLD_MAX →
        pwr_threshold1_store hw kstrtou8 buf count t
          = (ssize_t_of count,
             t2 ++ [Event.writeq w Reg.pm_ap_threshold, Event.mutex_unlock]) ∧
        pm_ap_threshold_threshold1.get w = v)) ∧
    (let c := hw (t ++ [Event.mutex_lock]) Reg.pm_ap_threshold % U64_MOD
     let t2 := t ++ [Event.mutex_lock, Event.readq Reg.pm_ap_threshold c]
     let e := (kstrtou8 buf).1
     let v := (kstrtou8 buf).2
     let w := pm_ap_threshold_threshold2.set c v
     (e ≠ 0 →
        pwr_threshold2_store hw kstrtou8 buf count t = (e, t2 ++ [Event.mutex_unlock])) ∧
     (e = 0 → PWR_THRESHOLD_MAX < v →
        pwr_threshold2_store hw kstrtou8 buf count t
          = (-EINVAL, t2 ++ [Event.mutex_unlock])) ∧
     (e = 0 → v ≤ PWR_THRESHOLD_MAX →
        pwr_threshold2_store hw kstrtou8 buf count t
          = (ssize_t_of count,
             t2 ++ [Event.writeq w Reg.pm_ap_threshold, Event.mutex_unlock]) ∧
        pm_ap_threshold_threshold2.get w = v)) ∧
    (let c := hw (t ++ [Event.mutex_lock]) Reg.ras_error_inj % U64_MOD
     let t2 := t ++ [Event.mutex_lock, Event.readq Reg.ras_error_inj c]
     let e := (kstrtou8 buf).1
     let v := (kstrtou8 buf).2
     (e ≠ 0 →
        inject_error_store hw kstrtou8 buf count t = (e, t2 ++ [Event.mutex_unlock])) ∧
     (e = 0 → FME_RAS_ERROR_INJ_MASK < v →
        inject_error_store hw kstrtou8 buf count t
          = (-EINVAL, t2 ++ [Event.mutex_unlock])) ∧
     (e = 0 → v ≤ FME_RAS_ERROR_INJ_MASK →
        inject_error_store hw kstrtou8 buf count t
          = (ssize_t_of count,
             t2 ++ [Event.writeq v Reg.ras_error_inj, Event.mutex_unlock]))) := by
  refine ⟨?_, ?_, ?_, ?_, ?_, ?_⟩
  · intro c t2 k e v w
    refine ⟨?_, ?_, ?_, ?_⟩
    · intro he
      simp only [e] at he
      simp only [thermal_threshold1_store, he, ne_eq, not_false_eq_true, if_true, mutex_lock,
        mutex_unlock, readq, List.append_assoc, List.singleton_append, List.cons_append,
        List.nil_append, t2, c, e]
    · intro he hk
      simp only [e] at he
      simp only [k, t2, c] at hk
      simp only [thermal_threshold1_store, he, readq, writeq, mutex_lock, mutex_unlock,
        List.append_assoc, List.singleton_append, List.cons_append, List.nil_append,
        ne_eq, not_true_eq_false, if_false, hk, if_true, t2, c, k]
    · intro he hk hv
      simp only [e] at he
      simp only [k, t2, c] at hk
      simp only [v] at hv
      simp only [thermal_threshold1_store, he, readq, writeq, mutex_lock, mutex_unlock,
        List.append_assoc, List.singleton_append, List.cons_append, List.nil_append,
        ne_eq, not_true_eq_false, if_false, hk, gt_iff_lt, hv, if_true, t2, c, k]
    · intro he hk hv
      obtain ⟨hmod, hget, _, _⟩ := threshold_set_value tmp_threshold_tmp_thshold1_enable
        tmp_threshold_tmp_thshold1 0 rfl rfl (by decide) c v (readq_lt hw _ _) hv
      refine ⟨?_, hget⟩
      have hv2 : ¬ (kstrtou8 buf).2 > 100 := by simp only [v] at hv; omega
      simp only [e] at he
      simp only [k, t2, c] at hk
      simp only [thermal_threshold1_store, he, readq, writeq, mutex_lock, mutex_unlock,
        List.append_assoc, List.singleton_append, List.cons_append, List.nil_append,
        ne_eq, not_true_eq_false, if_false, hk, hv2, t2, c, k]
      have hw2 : (if (kstrtou8 buf).2 = 0 then
            tmp_threshold_tmp_thshold1.set (tmp_threshold_tmp_thshold1_enable.set c 0)
              (kstrtou8 buf).2
          else tmp_threshold_tmp_thshold1.set (tmp_threshold_tmp_thshold1_enable.set c 1)
              (kstrtou8 buf).2)
          = w := by
        by_cases h0 : (kstrtou8 buf).2 = 0 <;> simp [w, v, h0]
      simp only [c] at hw2
      rw [hw2, hmod]
  · intro c t2 k e v w
    refine ⟨?_, ?_, ?_, ?_⟩
    · intro he
      simp only [e] at he
      simp only [thermal_threshold2_store, he, ne_eq, not_false_eq_true, if_true, mutex_lock,
        mutex_unlock, readq, List.append_assoc, List.singleton_append, List.cons_append,
        List.nil_append, t2, c, e]
    · intro he hk
      simp only [e] at he
      simp only [k, t2, c] at hk
      simp only [thermal_threshold2_store, he, readq, writeq, mutex_lock, mutex_unlock,
        List.append_assoc, List.singleton_append, List.cons_append, List.nil_append,
        ne_eq, not_true_eq_false, if_false, hk, if_true, t2, c, k]
    · intro he hk hv
      simp only [e] at he
      simp only [k, t2, c] at hk
      simp only [v] at hv
      simp only [thermal_threshold2_store, he, readq, writeq, mutex_lock, mutex_unlock,
        List.append_assoc, List.singleton_append, List.cons_append, List.nil_append,
        ne_eq, not_true_eq_false, if_false, hk, gt_iff_lt, hv, if_true, t2, c, k]
    · intro he hk hv
      obtain ⟨hmod, hget, _, _⟩ := threshold_set_value tmp_threshold_tmp_thshold2_enable
        tmp_threshold_tmp_thshold2 8 rfl rfl (by decide) c v (readq_lt hw _ _) hv
      refine ⟨?_, hget⟩
      have hv2 : ¬ (kstrtou8 buf).2 > 100 := by simp only [v] at hv; omega
      simp only [e] at he
      simp only [k, t2, c] at hk
      simp only [thermal_threshold2_store, he, readq, writeq, mutex_lock, mutex_unlock,
        List.append_assoc, List.singleton_append, List.cons_append, List.nil_append,
        ne_eq, not_true_eq_false, if_false, hk, hv2, t2, c, k]
      have hw2 : (if (kstrtou8 buf).2 = 0 then
            tmp_threshold_tmp_thshold2.set (tmp_threshold_tmp_thshold2_enable.set c 0)
              (kstrtou8 buf).2
          else tmp_threshold_tmp_thshold2.set (tmp_threshold_tmp_thshold2_enable.set c 1)
              (kstrtou8 buf).2)
          = w := by
        by_cases h0 : (kstrtou8 buf).2 = 0 <;> simp [w, v, h0]
      simp only [c] at hw2
      rw [hw2, hmod]
  · intro c t2 e v w
    refine ⟨?_, ?_, ?_⟩
    · intro he
      simp only [e] at he
      simp only [thermal_threshold1_policy_store, he, ne_eq, not_false_eq_true, if_true,
        mutex_lock, mutex_unlock, readq, List.append_assoc, List.singleton_append,
        List.cons_append, List.nil_append, t2, c, e]
    · intro he hv
      simp only [e] at he
      simp only [v] at hv
      have h0 : (kstrtou8 buf).2 ≠ 0 := by omega
      have h1 : (kstrtou8 buf).2 ≠ 1 := by omega
      simp only [thermal_threshold1_policy_store, he, ne_eq, not_true_eq_false, if_false,
        mutex_lock, mutex_unlock, readq, h0, h1, List.append_assoc, List.singleton_append,
        List.cons_append, List.nil_append, t2, c]
    · intro he hv
      obtain ⟨hmod, hget⟩ := single_field_set_value tmp_threshold_thshold_policy (by decide)
        c v (readq_lt hw _ _) (by show v < 2 ^ 1; omega)
      refine ⟨?_, hget⟩
      simp only [e] at he
      simp only [w, v, c] at hmod
      simp only [v] at hv
      rcases (by omega : (kstrtou8 buf).2 = 0 ∨ (kstrtou8 buf).2 = 1) with h0 | h1
      · rw [h0] at hmod
        simp only [thermal_threshold1_policy_store, he, ne_eq, not_true_eq_false, if_false,
          mutex_lock, mutex_unlock, readq, writeq, h0, if_true, List.append_assoc,
          List.singleton_append, List.cons_append, List.nil_append, t2, c, w, v, hmod]
      · rw [h1] at hmod
        simp only [thermal_threshold1_policy_store, he, ne_eq, not_true_eq_false, if_false,
          mutex_lock, mutex_unlock, readq, writeq, h1, one_ne_zero, if_true,
          List.append_assoc, List.singleton_append, List.cons_append, List.nil_append, t2, c,
          w, v, hmod]
  · intro c t2 e v w
    refine ⟨?_, ?_, ?_⟩
    · intro he
      simp only [e] at he
      simp only [pwr_threshold1_store, he, ne_eq, not_false_eq_true, if_true,
        mutex_lock, mutex_unlock, readq, List.append_assoc, List.singleton_append,
        List.cons_append, List.nil_append, t2, c, e]
    · intro he hv
      simp only [e] at he
      have hv2 : ¬ (kstrtou8 buf).2 ≤ PWR_THRESHOLD_MAX := by simp only [v] at hv; omega
      simp only [pwr_threshold1_store, he, ne_eq, not_true_eq_false, if_false, mutex_lock,
        mutex_unlock, readq, hv2, List.append_assoc, List.singleton_append, List.cons_append,
        List.nil_append, t2, c]
    · intro he hv
      obtain ⟨hmod, hget⟩ := single_field_set_value pm_ap_threshold_threshold1 (by decide)
        c v (readq_lt hw _ _)
        (by show v < 2 ^ 7; simp only [PWR_THRESHOLD_MAX] at hv; omega)
      refine ⟨?_, hget⟩
      simp only [e] at he
      simp only [w, v, c] at hmod
      simp only [v] at hv
      simp only [pwr_threshold1_store, he, ne_eq, not_true_eq_false, if_false, mutex_lock,
        mutex_unlock, readq, writeq, hv, if_true, List.append_assoc, List.singleton_append,
        List.cons_append, List.nil_append, t2, c, w, v, hmod]
  · intro c t2 e v w
    refine ⟨?_, ?_, ?_⟩
    · intro he
      simp only [e] at he
      simp only [pwr_threshold2_store, he, ne_eq, not_false_eq_true, if_true,
        mutex_lock, mutex_unlock, readq, List.append_assoc, List.singleton_append,
        List.cons_append, List.nil_append, t2, c, e]
    · intro he hv
      simp only [e] at he
      have hv2 : ¬ (kstrtou8 buf).2 ≤ PWR_THRESHOLD_MAX := by simp only [v] at hv; omega
      simp only [pwr_threshold2_store, he, ne_eq, not_true_eq_false, if_false, mutex_lock,
        mutex_unlock, readq, hv2, List.append_assoc, List.singleton_append, List.cons_append,
        List.nil_append, t2, c]
    · intro he hv
      obtain ⟨hmod, hget⟩ := single_field_set_value pm_ap_threshold_threshold2 (by decide)
        c v (readq_lt hw _ _)
        (by show v < 2 ^ 7; simp only [PWR_THRESHOLD_MAX] at hv; omega)
      refine ⟨?_, hget⟩
      simp only [e] at he
      simp only [w, v, c] at hmod
      simp only [v] at hv
      simp only [pwr_threshold2_store, he, ne_eq, not_true_eq_false, if_false, mutex_lock,
        mutex_unlock, readq, writeq, hv, if_true, List.append_assoc, List.singleton_append,
        List.cons_append, List.nil_append, t2, c, w, v, hmod]
  · intro c t2 e v
    refine ⟨?_, ?_, ?_⟩
    · intro he
      simp only [e] at he
      simp only [inject_error_store, he, ne_eq, not_false_eq_true, if_true,
        mutex_lock, mutex_unlock, readq, List.append_assoc, List.singleton_append,
        List.cons_append, List.nil_append, t2, c, e]
    · intro he hv
      simp only [e] at he
      have hv2 : ¬ (kstrtou8 buf).2 ≤ FME_RAS_ERROR_INJ_MASK := by simp only [v] at hv; omega
      simp only [inject_error_store, he, ne_eq, not_true_eq_false, if_false, mutex_lock,
        mutex_unlock, readq, hv2, List.append_assoc, List.singleton_append, List.cons_append,
        List.nil_append, t2, c]
    · intro he hv
      simp only [e] at he
      simp only [v] at hv
      have hmod : (kstrtou8 buf).2 % U64_MOD = (kstrtou8 buf).2 :=
        mod_u64_of_lt _ (by simp only [FME_RAS_ERROR_INJ_MASK] at hv; omega)
      simp only [inject_error_store, he, ne_eq, not_true_eq_false, if_false, mutex_lock,
        mutex_unlock, readq, writeq, hv, if_true, List.append_assoc, List.singleton_append,
        List.cons_append, List.nil_append, t2, c, v, hmod]

/-- Witness for C17: `128` parses but exceeds `PWR_THRESHOLD_MAX` and is
refused; `127` is stored in the threshold field. -/
theorem out_of_range_write_refused_witness :
    pwr_threshold1_store (fun _ _ => 0) kstrtou8_decimal "128" 3 []
      = (-EINVAL, [Event.mutex_lock, Event.readq Reg.pm_ap_threshold 0,
                   Event.mutex_unlock]) ∧
    pwr_threshold1_store (fun _ _ => 0) kstrtou8_decimal "127" 3 []
      = (3, [Event.mutex_lock, Event.readq Reg.pm_ap_threshold 0,
             Event.writeq 127 Reg.pm_ap_threshold, Event.mutex_unlock]) := by
  have h := (out_of_range_write_refused (fun _ _ => 0) kstrtou8_decimal "128" 3
    []).2.2.2.1.2.1 (by decide) (by decide)
  have h2 := ((out_of_range_write_refused (fun _ _ => 0) kstrtou8_decimal "127" 3
    []).2.2.2.1.2.2 (by decide) (by decide)).1
  rw [h, h2]
  decide

/-- C17 as stated fails in two ways. With the capability lock bit set, `101`
parses and exceeds the maximum 100, yet `thermal_threshold1_store` returns
`-EBUSY`, not `-EINVAL`. And `300` exceeds `PWR_THRESHOLD_MAX`, yet
`pwr_threshold1_store` returns the parser's `-ERANGE`, not `-EINVAL`. -/
theorem out_of_range_write_other_codes :
    kstrtou8_decimal "101" = (0, 101) ∧
    thermal_threshold1_store hw_locked kstrtou8_decimal "101" 3 []
      = (-EBUSY, [Event.mutex_lock, Event.readq Reg.tmp_threshold 0,
                  Event.readq Reg.capability (2 ^ 63), Event.mutex_unlock]) ∧
    (thermal_threshold1_store hw_locked kstrtou8_decimal "101" 3 []).1 ≠ -EINVAL ∧
    kstrtou8_decimal "300" = (-ERANGE, 0) ∧
    pwr_threshold1_store (fun _ _ => 0) kstrtou8_decimal "300" 3 []
      = (-ERANGE, [Event.mutex_lock, Event.readq Reg.pm_ap_threshold 0,
                   Event.mutex_unlock]) ∧
    (pwr_threshold1_store (fun _ _ => 0) kstrtou8_decimal "300" 3 []).1 ≠ -EINVAL := by
  decide


end Fme
